import Mathlib

/-!
# Solivra backend: credential verification, lockout and session lifecycle

A shallow embedding of the Go handlers `Login`, `Register`, `Refresh`, `Logout`
(`internal/handlers/auth.go`), `UpdatePassword`, `DeleteAccount`, `RevokeSession`
(`internal/handlers/users.go`), `DeleteUser` (`internal/handlers/admin.go`), of the
middlewares `Protected` and `AdminOnly` (`internal/middleware/auth.go`), of
`ValidateUsername` (`pkg/utils/sanitize.go`), `CanAutoAdmin` (`internal/config`) and
`calculateStreaks` (`internal/handlers/stats.go`), with the MongoDB collections as
explicit state.

Conventions of the embedding.

* A collection is the list of its documents in insertion order. `FindOne` returns
  the first document that matches, `UpdateOne` changes the first document that
  matches, `UpdateMany` every document that matches, `InsertOne` appends.
* Every persistence call of a handler may fail; which calls fail during one
  request is an input of the handler (`fails`). A call that fails returns an
  error and leaves the collection as it was.
* Instants and durations are integers (Go counts both in nanoseconds). A document
  keeps the instants it is given: the rounding of the BSON encoding to milliseconds
  is left out.
* A handler runs as one step: requests are not interleaved.
* The helpers `CheckPasswordHash`, `HashPassword`, `HashToken` and
  `GenerateRandomToken` of `pkg/utils`, whose definitions are outside the files
  embedded here, and calls into libraries (JWT signing and parsing,
  `unicode.ToLower`, ObjectID hex conversion) are parameters, collected in `Ext`,
  or inputs of the request.
* The activity log (`utils.LogActivity`) is written by a detached goroutine into
  a collection no handler reads; it is not part of the state.
-/

namespace Solivra

/-! ## Time and identifiers -/

/-- An instant, or a duration, in nanoseconds. -/
abbrev Time := Int

/-- Duration `time.Second`. -/
def Second : Time := 1000000000

/-- Duration `time.Minute`. -/
def Minute : Time := 60 * Second

/-- Duration `time.Hour`. -/
def Hour : Time := 60 * Minute

/-- Identifier `primitive.ObjectID`, as the number its twelve bytes spell. -/
abbrev ObjectID := Nat

/-- The zero identifier `primitive.NilObjectID`. -/
def NilObjectID : ObjectID := 0

/-- Go `int` arithmetic: the result of an operation on 64-bit signed integers. -/
def wrapInt64 (x : Int) : Int := (x + 9223372036854775808) % 18446744073709551616 - 9223372036854775808

/-! ## Documents (`internal/models`) -/

/-- Type `models.RefreshTokenSchema`. -/
structure RefreshTokenSchema where
  JTI : String
  CreatedAt : Time
  ExpiresAt : Time
  deriving DecidableEq, Repr

/-- Type `models.User`. -/
structure User where
  ID : ObjectID
  Nickname : String
  Username : String
  Password : String
  Role : String
  LanguagePref : String
  ProfilePicture : String
  StreakStartDate : Option Time
  LongestStreakSeconds : Int
  FailedLoginAttempts : Int
  LockoutUntil : Option Time
  RefreshTokens : List RefreshTokenSchema
  CreatedAt : Time
  UpdatedAt : Time
  deriving DecidableEq, Repr

/-- Type `models.UserSession`; `Token` is the hash of the session secret. -/
structure UserSession where
  ID : ObjectID
  UserID : ObjectID
  Token : String
  IPAddress : String
  UserAgent : String
  LoginTime : Time
  LastActiveTime : Time
  RevokedAt : Option Time
  deriving DecidableEq, Repr

/-- Type `models.LoginAttempt`. -/
structure LoginAttempt where
  ID : ObjectID
  UserID : Option ObjectID
  Username : String
  IPAddress : String
  UserAgent : String
  Outcome : String
  AttemptTime : Time
  LockoutUntil : Option Time
  AttemptsRemaining : Option Int
  deriving DecidableEq, Repr

/-- Type `models.RegistrationAttempt`. -/
structure RegistrationAttempt where
  ID : ObjectID
  IPAddress : String
  Username : String
  AttemptTime : Time
  Status : String
  BlockedUntil : Option Time
  deriving DecidableEq, Repr

/-- Type `models.RelapseLog`. -/
structure RelapseLog where
  ID : ObjectID
  UserID : ObjectID
  RelapseTime : Time
  RelapseNote : Option String
  CreatedAt : Time
  UpdatedAt : Time
  deriving DecidableEq, Repr

/-- The collections the handlers read and write. -/
structure DB where
  users : List User := []
  loginattempts : List LoginAttempt := []
  usersessions : List UserSession := []
  registrationattempts : List RegistrationAttempt := []
  relapselogs : List RelapseLog := []
  deriving DecidableEq, Repr

/-! ## Persistence calls -/

/-- The two kinds of error a lookup returns: `mongo.ErrNoDocuments`, or any other
failure (timeout, connection loss). -/
inductive DBError where
  | ErrNoDocuments
  | failure
  deriving DecidableEq, Repr

/-- Call `coll.FindOne(ctx, filter).Decode(&doc)`. -/
def FindOne {α : Type} (fail : Bool) (filter : α → Bool) (coll : List α) : Except DBError α :=
  if fail then .error .failure
  else match coll.find? filter with
    | some d => .ok d
    | none => .error .ErrNoDocuments

/-- The first document of the list whose key is greatest. -/
def latest {α : Type} (key : α → Time) : List α → Option α
  | [] => none
  | a :: rest =>
    match latest key rest with
    | none => some a
    | some b => if key a < key b then some b else some a

/-- Call `coll.FindOne(ctx, filter, SetSort(key, -1)).Decode(&doc)`: among the
matching documents one with the greatest key (the earliest inserted of them). -/
def FindOneSortDesc {α : Type} (fail : Bool) (filter : α → Bool) (key : α → Time)
    (coll : List α) : Except DBError α :=
  if fail then .error .failure
  else match latest key (coll.filter filter) with
    | some d => .ok d
    | none => .error .ErrNoDocuments

/-- Call `coll.InsertOne(ctx, doc)`. -/
def InsertOne {α : Type} (fail : Bool) (doc : α) (coll : List α) : List α :=
  if fail then coll else coll ++ [doc]

/-- Apply `f` to the first element that satisfies `filter`. -/
def updateFirst {α : Type} (filter : α → Bool) (f : α → α) : List α → List α
  | [] => []
  | a :: rest => if filter a then f a :: rest else a :: updateFirst filter f rest

/-- Call `coll.UpdateOne(ctx, filter, update)`. -/
def UpdateOne {α : Type} (fail : Bool) (filter : α → Bool) (f : α → α) (coll : List α) : List α :=
  if fail then coll else updateFirst filter f coll

/-- Call `coll.UpdateMany(ctx, filter, update)`. -/
def UpdateMany {α : Type} (fail : Bool) (filter : α → Bool) (f : α → α) (coll : List α) : List α :=
  if fail then coll else coll.map (fun a => if filter a then f a else a)

/-- Call `coll.CountDocuments(ctx, filter)`; 0 comes with the error. -/
def CountDocuments {α : Type} (fail : Bool) (filter : α → Bool) (coll : List α) : Int :=
  if fail then 0 else ((coll.filter filter).length : Int)

/-- Call `coll.DeleteOne(ctx, filter)`. -/
def DeleteOne {α : Type} (fail : Bool) (filter : α → Bool) (coll : List α) : List α :=
  if fail then coll
  else match coll.find? filter with
    | some _ => coll.eraseP filter
    | none => coll

/-- Call `coll.DeleteMany(ctx, filter)`. -/
def DeleteMany {α : Type} (fail : Bool) (filter : α → Bool) (coll : List α) : List α :=
  if fail then coll else coll.filter (fun a => !filter a)

/-- Mongo comparison `field: {"$gt": t}` on a nullable date. -/
def dateGt (field : Option Time) (t : Time) : Bool :=
  match field with
  | some v => decide (t < v)
  | none => false

/-! ## Responses -/

/-- A scalar JSON value of a response body. -/
inductive JAtom where
  | null
  | bool (b : Bool)
  | num (n : Int)
  | str (s : String)
  | time (t : Time)
  deriving DecidableEq, Repr

/-- A member of a response body: a scalar, or an object of scalars. -/
inductive JVal where
  | atom (a : JAtom)
  | obj (fields : List (String × JAtom))
  deriving DecidableEq, Repr

/-- JSON encoding of a `*time.Time`. -/
def JAtom.ofTimePtr : Option Time → JAtom
  | some t => .time t
  | none => .null

/-- Type `fiber.Cookie`, the fields the code sets. -/
structure Cookie where
  Name : String
  Value : String
  Expires : Time
  HTTPOnly : Bool
  Secure : Bool
  SameSite : String
  Path : String
  deriving DecidableEq, Repr

/-- What a handler sends: status, JSON body (a `fiber.Map`), cookies set. -/
structure Response where
  status : Nat
  body : List (String × JVal)
  cookies : List Cookie := []
  deriving DecidableEq, Repr

/-- Member lookup in a response body. -/
def Response.field (r : Response) (k : String) : Option JVal :=
  (r.body.find? (fun p => p.1 == k)).map (·.2)

/-- Function `utils.ErrorResponse`. -/
def ErrorResponse (status : Nat) (message : String) : Response :=
  { status := status, body := [("ok", .atom (.bool false)), ("msg", .atom (.str message))] }

/-! ## Parameters: helpers and library calls that are not embedded -/

/-- Claims payload `utils.UserPayload`. -/
structure UserPayload where
  ID : String
  Role : String
  Username : String
  deriving DecidableEq, Repr

/-- Claims `utils.UserClaims`, with the two registered claims the code sets. -/
structure UserClaims where
  User : UserPayload
  ExpiresAt : Time
  IssuedAt : Time
  deriving DecidableEq, Repr

/-- Claims `utils.RefreshClaims`, with the two registered claims the code sets. -/
structure RefreshClaims where
  UserID : String
  RememberMe : Bool
  ExpiresAt : Time
  IssuedAt : Time
  deriving DecidableEq, Repr

/-- The functions the embedding takes as given. `CheckPasswordHash`,
`HashPassword` (value and whether it succeeded) and `HashToken` belong to
`pkg/utils`, in a file that is not embedded; the others are library calls: `unicode.ToLower` and `unicode.ToUpper`, `primitive.ObjectIDFromHex` and
`ObjectID.Hex`, signing a token with the access or the refresh secret, parsing
and validating one at a given instant (`jwt.ParseWithClaims` and `token.Valid`),
and `config.IsProd`. -/
structure Ext where
  CheckPasswordHash : String → String → Bool
  HashPassword : String → String × Bool
  HashToken : String → String
  lowerRune : Char → Char
  upperRune : Char → Char
  ObjectIDFromHex : String → Option ObjectID
  Hex : ObjectID → String
  signAccess : UserClaims → Option String
  signRefresh : RefreshClaims → Option String
  parseAccess : String → Time → Option UserClaims
  parseRefresh : String → Time → Option RefreshClaims
  IsProd : Bool

/-! ## Strings (`pkg/utils/sanitize.go` and the library calls it makes)

A Go string is taken to be valid UTF-8 text, a sequence of characters; lengths and
slice bounds count UTF-8 bytes as in Go. A slice bound that falls inside a
multi-byte character leaves that character out. -/

/-- Go `len(s)`: the number of bytes. -/
def byteLen (s : String) : Nat := (s.data.map Char.utf8Size).sum

/-- The characters that end within the first `n` bytes. -/
def takeBytes : Nat → List Char → List Char
  | _, [] => []
  | n, c :: cs => if c.utf8Size ≤ n then c :: takeBytes (n - c.utf8Size) cs else []

/-- The characters that start at byte `n` or later. -/
def dropBytes : Nat → List Char → List Char
  | _, [] => []
  | 0, cs => cs
  | n + 1, c :: cs => dropBytes (n + 1 - c.utf8Size) cs

/-- Go `s[:n]`. -/
def sliceTo (s : String) (n : Nat) : String := ⟨takeBytes n s.data⟩

/-- Go `s[n:]`. -/
def sliceFrom (s : String) (n : Nat) : String := ⟨dropBytes n s.data⟩

/-- Function `unicode.IsSpace`. -/
def isSpace (c : Char) : Bool :=
  let n := c.toNat
  (9 ≤ n && n ≤ 13) || n == 32 || n == 133 || n == 160 || n == 5760 ||
  (8192 ≤ n && n ≤ 8202) || n == 8232 || n == 8233 || n == 8239 || n == 8287 || n == 12288

/-- Function `strings.TrimSpace`. -/
def TrimSpace (s : String) : String :=
  ⟨((s.data.dropWhile isSpace).reverse.dropWhile isSpace).reverse⟩

/-- Function `strings.ToLower`. -/
def ToLower (X : Ext) (s : String) : String := ⟨s.data.map X.lowerRune⟩

/-- Function `strings.ToUpper`. -/
def ToUpper (X : Ext) (s : String) : String := ⟨s.data.map X.upperRune⟩

/-- The character class of `SanitizeString`, written [\x00-\x08\x0B\x0C\x0E-\x1F\x7F]. -/
def isControl (c : Char) : Bool :=
  let n := c.toNat
  n ≤ 8 || n == 11 || n == 12 || (14 ≤ n && n ≤ 31) || n == 127

/-- Function `utils.SanitizeString`. -/
def SanitizeString (input : String) (maxLength : Int) : String :=
  let result := TrimSpace input
  let result : String := ⟨result.data.filter (fun c => c.toNat != 0)⟩
  let result : String := ⟨result.data.filter (fun c => !isControl c)⟩
  if 0 < maxLength ∧ (byteLen result : Int) > maxLength then sliceTo result maxLength.toNat
  else result

/-! ## Requests -/

/-- What the handlers read of a `fiber.Ctx`: headers, cookies (the empty string
when absent) and the peer address. -/
structure Ctx where
  Authorization : String := ""
  XSessionToken : String := ""
  XRefreshToken : String := ""
  XForwardedFor : String := ""
  UserAgent : String := ""
  accessCookie : String := ""
  refreshCookie : String := ""
  sessionCookie : String := ""
  IP : String := ""
  deriving DecidableEq, Repr

/-- The session secret a request presents: the `session_token` cookie, else the
`X-Session-Token` header (as `Refresh` and `Protected` read it). -/
def presentedSecret (c : Ctx) : String :=
  if c.sessionCookie = "" then c.XSessionToken else c.sessionCookie

/-- The refresh token a request presents: the `refresh_token` cookie, else the
`X-Refresh-Token` header (as `Refresh` reads it). -/
def presentedRefresh (c : Ctx) : String :=
  if c.refreshCookie = "" then c.XRefreshToken else c.refreshCookie

/-- Function `utils.GetClientIP`. -/
def GetClientIP (c : Ctx) : String :=
  if c.XForwardedFor ≠ "" then c.XForwardedFor else c.IP

/-! ## Tokens (`pkg/utils/jwt.go`) and cookies (`internal/services/cookie.go`) -/

/-- Function `jwt.NewNumericDate`: the instant truncated to the second. -/
def NewNumericDate (t : Time) : Time := t - t % Second

/-- Function `utils.GenerateAccessToken`, issued at instant `now`. -/
def GenerateAccessToken (X : Ext) (user : User) (now : Time) : Option String :=
  X.signAccess
    { User := { ID := X.Hex user.ID, Role := user.Role, Username := user.Username }
      ExpiresAt := NewNumericDate (now + 15 * Minute)
      IssuedAt := NewNumericDate now }

/-- Function `utils.GenerateRefreshToken`, issued at instant `now`. -/
def GenerateRefreshToken (X : Ext) (userID : ObjectID) (rememberMe : Bool) (now : Time) :
    Option String :=
  let expiry := if rememberMe then 30 * 24 * Hour else 7 * 24 * Hour
  X.signRefresh
    { UserID := X.Hex userID, RememberMe := rememberMe
      ExpiresAt := NewNumericDate (now + expiry)
      IssuedAt := NewNumericDate now }

/-- Function `utils.ValidateAccessToken`, called at instant `now`. -/
def ValidateAccessToken (X : Ext) (tokenString : String) (now : Time) : Option UserClaims :=
  X.parseAccess tokenString now

/-- Function `utils.ValidateRefreshToken`, called at instant `now`. -/
def ValidateRefreshToken (X : Ext) (tokenString : String) (now : Time) : Option RefreshClaims :=
  X.parseRefresh tokenString now

/-- Function `services.SetAuthCookies`, called at instant `now`. -/
def SetAuthCookies (X : Ext) (now : Time) (accessToken refreshToken sessionToken : String)
    (rememberMe : Bool) : List Cookie :=
  let isProd := X.IsProd
  let sameSiteValue := if isProd then "None" else "Lax"
  let refreshDuration := if rememberMe then 30 * 24 * Hour else 7 * 24 * Hour
  let sessionDuration := if !rememberMe then 24 * Hour else refreshDuration
  [ { Name := "access_token", Value := accessToken, Expires := now + 15 * Minute,
      HTTPOnly := true, Secure := isProd, SameSite := sameSiteValue, Path := "/" },
    { Name := "refresh_token", Value := refreshToken, Expires := now + refreshDuration,
      HTTPOnly := true, Secure := isProd, SameSite := sameSiteValue, Path := "/api/auth/refresh" },
    { Name := "session_token", Value := sessionToken, Expires := now + sessionDuration,
      HTTPOnly := true, Secure := isProd, SameSite := sameSiteValue, Path := "/" } ]

/-- Function `services.ClearAuthCookies`, called at instant `now`. -/
def ClearAuthCookies (X : Ext) (now : Time) : List Cookie :=
  let isProd := X.IsProd
  let sameSiteValue := if isProd then "None" else "Lax"
  [ { Name := "access_token", Value := "", Expires := now + (-1) * Hour,
      HTTPOnly := true, Secure := isProd, SameSite := sameSiteValue, Path := "/" },
    { Name := "refresh_token", Value := "", Expires := now + (-1) * Hour,
      HTTPOnly := true, Secure := isProd, SameSite := sameSiteValue, Path := "/api/auth/refresh" },
    { Name := "session_token", Value := "", Expires := now + (-1) * Hour,
      HTTPOnly := true, Secure := isProd, SameSite := sameSiteValue, Path := "/" } ]

/-! ## Login (`internal/handlers/auth.go`) -/

/-- Body `handlers.LoginRequest`. -/
structure LoginRequest where
  Username : String
  Password : String
  RememberMe : Bool
  deriving DecidableEq, Repr

/-- The persistence calls of `Login`, in source order. -/
inductive LoginCall where
  | findIpLock
  | findUser
  | insertNotFound
  | countNotFound
  | insertIpLocked
  | insertLocked
  | updateFailed
  | insertInvalid
  | updateReset
  | insertSession
  | insertSuccess
  deriving DecidableEq, Repr

/-- What one `Login` request takes from outside the handler: the clock readings
(`now` at the top of the handler, the one of the token generators, the one of
`SetAuthCookies`), which persistence calls fail, the identifier the driver gives
the document a call inserts, and the result of `utils.GenerateRandomToken(48)`. -/
structure LoginEnv where
  now : Time
  tokenTime : Time
  cookieTime : Time
  fails : LoginCall → Bool
  newID : LoginCall → ObjectID
  randomToken : Option String

/-- The filter of step 1: an `ip_locked` record of the address that has not expired. -/
def ipLockFilter (ip : String) (now : Time) (a : LoginAttempt) : Bool :=
  a.IPAddress == ip && a.Outcome == "ip_locked" && dateGt a.LockoutUntil now

/-- The filter of the count in step 2: `user_not_found` records of the address
from the last hour. -/
def unknownFilter (ip : String) (oneHourAgo : Time) (a : LoginAttempt) : Bool :=
  a.IPAddress == ip && a.Outcome == "user_not_found" && decide (oneHourAgo ≤ a.AttemptTime)

/-- Step 2 of `Login` when the lookup of the account returns an error. -/
def loginUnknownUser (db : DB) (env : LoginEnv) (ip userAgent username : String) :
    Response × DB :=
  let now := env.now
  let attempt : LoginAttempt :=
    { ID := env.newID .insertNotFound, UserID := none, Username := username, IPAddress := ip,
      UserAgent := userAgent, Outcome := "user_not_found", AttemptTime := now,
      LockoutUntil := none, AttemptsRemaining := none }
  let db1 : DB :=
    { db with loginattempts := InsertOne (env.fails .insertNotFound) attempt db.loginattempts }
  let oneHourAgo := now + (-1) * Hour
  let unknownAttempts :=
    CountDocuments (env.fails .countNotFound) (unknownFilter ip oneHourAgo) db1.loginattempts
  if unknownAttempts ≥ 5 then
    let lockoutUntil := now + 1 * Hour
    let lock : LoginAttempt :=
      { ID := env.newID .insertIpLocked, UserID := none, Username := username, IPAddress := ip,
        UserAgent := userAgent, Outcome := "ip_locked", AttemptTime := now,
        LockoutUntil := some lockoutUntil, AttemptsRemaining := none }
    let db2 : DB :=
      { db1 with loginattempts := InsertOne (env.fails .insertIpLocked) lock db1.loginattempts }
    ({ status := 429,
       body := [("ok", .atom (.bool false)),
                ("msg", .atom (.str "Form login dinonaktifkan selama 1 jam untuk IP ini.")),
                ("lockout", .obj [("type", .str "ip"), ("until", .time lockoutUntil)])] }, db2)
  else
    (ErrorResponse 401 "Username atau password salah", db1)

/-- Step 3 of `Login`, taken when the account is locked. -/
def loginLocked (db : DB) (env : LoginEnv) (ip userAgent : String) (user : User) :
    Response × DB :=
  let attempt : LoginAttempt :=
    { ID := env.newID .insertLocked, UserID := some user.ID, Username := user.Username,
      IPAddress := ip, UserAgent := userAgent, Outcome := "locked", AttemptTime := env.now,
      LockoutUntil := user.LockoutUntil, AttemptsRemaining := none }
  let db1 : DB :=
    { db with loginattempts := InsertOne (env.fails .insertLocked) attempt db.loginattempts }
  ({ status := 423,
     body := [("ok", .atom (.bool false)),
              ("msg", .atom (.str "Akun Anda sedang dikunci. Coba lagi beberapa menit lagi.")),
              ("lockout", .obj [("type", .str "user"), ("until", .ofTimePtr user.LockoutUntil)])] },
   db1)

/-- Step 4 of `Login`, taken when the password does not match the stored hash. -/
def loginWrongPassword (db : DB) (env : LoginEnv) (ip userAgent : String) (user : User) :
    Response × DB :=
  let now := env.now
  let failed := wrapInt64 (user.FailedLoginAttempts + 1)
  let attemptsRemaining := wrapInt64 (10 - failed)
  let attemptsRemaining := if attemptsRemaining < 0 then 0 else attemptsRemaining
  let locks : Bool := decide (failed ≥ 10)
  let lockoutUntil : Option Time := if locks then some (now + 10 * Minute) else none
  let userLockoutUntil : Option Time := if locks then lockoutUntil else user.LockoutUntil
  let failedStored : Int := if locks then 0 else failed
  let attemptsRemaining : Int := if locks then 0 else attemptsRemaining
  let statusCode : Nat := if locks then 423 else 401
  let msg : String :=
    if locks then "Akun dikunci selama 10 menit karena terlalu banyak percobaan gagal."
    else "Username atau password salah."
  let update : User → User :=
    fun u => { u with FailedLoginAttempts := failedStored, LockoutUntil := userLockoutUntil }
  let db1 : DB :=
    { db with users := UpdateOne (env.fails .updateFailed) (fun u => u.ID == user.ID) update
                         db.users }
  let attempt : LoginAttempt :=
    { ID := env.newID .insertInvalid, UserID := some user.ID, Username := user.Username,
      IPAddress := ip, UserAgent := userAgent, Outcome := "invalid_password", AttemptTime := now,
      LockoutUntil := lockoutUntil, AttemptsRemaining := some attemptsRemaining }
  let db2 : DB :=
    { db1 with loginattempts := InsertOne (env.fails .insertInvalid) attempt db1.loginattempts }
  ({ status := statusCode,
     body := [("ok", .atom (.bool false)),
              ("msg", .atom (.str msg)),
              ("attemptsRemaining", .atom (.num attemptsRemaining)),
              ("lockout", .atom (.ofTimePtr lockoutUntil))] }, db2)

/-- Step 5 of `Login`, taken when the password matches. -/
def loginSuccess (X : Ext) (db : DB) (env : LoginEnv) (ip userAgent : String) (user : User)
    (rememberMe : Bool) : Response × DB :=
  let now := env.now
  let update : User → User := fun u => { u with FailedLoginAttempts := 0, LockoutUntil := none }
  let db1 : DB :=
    { db with users := UpdateOne (env.fails .updateReset) (fun u => u.ID == user.ID) update
                         db.users }
  match GenerateAccessToken X user env.tokenTime with
  | none => (ErrorResponse 500 "Failed to generate access token", db1)
  | some accessToken =>
  match GenerateRefreshToken X user.ID rememberMe env.tokenTime with
  | none => (ErrorResponse 500 "Failed to generate refresh token", db1)
  | some refreshToken =>
  match env.randomToken with
  | none => (ErrorResponse 500 "Failed to create session token", db1)
  | some sessionToken =>
  let session : UserSession :=
    { ID := env.newID .insertSession, UserID := user.ID, Token := X.HashToken sessionToken,
      IPAddress := ip, UserAgent := userAgent, LoginTime := now, LastActiveTime := now,
      RevokedAt := none }
  if env.fails .insertSession then (ErrorResponse 500 "Failed to save session", db1)
  else
    let db2 : DB := { db1 with usersessions := db1.usersessions ++ [session] }
    let attempt : LoginAttempt :=
      { ID := env.newID .insertSuccess, UserID := some user.ID, Username := user.Username,
        IPAddress := ip, UserAgent := userAgent, Outcome := "success", AttemptTime := now,
        LockoutUntil := none, AttemptsRemaining := none }
    let db3 : DB :=
      { db2 with loginattempts := InsertOne (env.fails .insertSuccess) attempt db2.loginattempts }
    ({ status := 200,
       body := [("ok", .atom (.bool true)),
                ("msg", .atom (.str "Login berhasil")),
                ("access_token", .atom (.str accessToken)),
                ("refresh_token", .atom (.str refreshToken)),
                ("session_token", .atom (.str sessionToken)),
                ("user", .obj [("id", .str (X.Hex user.ID)), ("username", .str user.Username),
                               ("role", .str user.Role),
                               ("language_pref", .str user.LanguagePref)])],
       cookies := SetAuthCookies X env.cookieTime accessToken refreshToken sessionToken
         rememberMe }, db3)

/-- Handler `Login`. `body` is the parsed request body, `none` when
`c.BodyParser` fails. Returns the response and the collections afterwards. -/
def Login (X : Ext) (db : DB) (c : Ctx) (body : Option LoginRequest) (env : LoginEnv) :
    Response × DB :=
  match body with
  | none => (ErrorResponse 400 "Invalid request body", db)
  | some req =>
  let ip := GetClientIP c
  let userAgent := c.UserAgent
  let now := env.now
  let username := ToLower X (SanitizeString req.Username 120)
  let password := req.Password
  if username = "" ∨ password = "" then
    (ErrorResponse 400 "Username dan password wajib diisi", db)
  else
  match FindOneSortDesc (env.fails .findIpLock) (ipLockFilter ip now) (·.AttemptTime)
      db.loginattempts with
  | .ok activeIpLock =>
    ({ status := 429,
       body := [("ok", .atom (.bool false)),
                ("msg", .atom (.str
                  "Form login sementara dinonaktifkan untuk IP ini. Coba lagi nanti.")),
                ("lockout", .obj [("type", .str "ip"),
                                  ("until", .ofTimePtr activeIpLock.LockoutUntil)])] }, db)
  | .error _ =>
  match FindOne (env.fails .findUser) (fun u => u.Username == username) db.users with
  | .error _ => loginUnknownUser db env ip userAgent username
  | .ok user =>
  if dateGt user.LockoutUntil now then loginLocked db env ip userAgent user
  else if !X.CheckPasswordHash password user.Password then
    loginWrongPassword db env ip userAgent user
  else loginSuccess X db env ip userAgent user req.RememberMe

/-! ## Refresh and Logout (`internal/handlers/auth.go`) -/

/-- The session filter of `Refresh` and `Protected`: owner, token hash, and
`revoked_at` null. -/
def activeSessionFilter (userID : ObjectID) (sessionHash : String) (s : UserSession) : Bool :=
  s.UserID == userID && s.Token == sessionHash && s.RevokedAt.isNone

/-- The persistence calls of `Refresh`, in source order. -/
inductive RefreshCall where
  | findUser
  | findSession
  | touch
  deriving DecidableEq, Repr

/-- What one `Refresh` request takes from outside the handler: the clock readings
(at token validation, in the token generators, for `last_active_time`, in the
cookie helpers) and which persistence calls fail. -/
structure RefreshEnv where
  now : Time
  tokenTime : Time
  touchTime : Time
  cookieTime : Time
  fails : RefreshCall → Bool

/-- Handler `Refresh`. -/
def Refresh (X : Ext) (db : DB) (c : Ctx) (env : RefreshEnv) : Response × DB :=
  let refreshToken := presentedRefresh c
  if refreshToken = "" then (ErrorResponse 401 "Tidak ada refresh token", db)
  else
  match ValidateRefreshToken X refreshToken env.now with
  | none => (ErrorResponse 401 "Refresh token tidak valid", db)
  | some claims =>
  match X.ObjectIDFromHex claims.UserID with
  | none => (ErrorResponse 401 "Invalid user ID", db)
  | some userID =>
  match FindOne (env.fails .findUser) (fun u => u.ID == userID) db.users with
  | .error _ => (ErrorResponse 401 "Pengguna tidak ditemukan", db)
  | .ok user =>
  let sessionToken := presentedSecret c
  if sessionToken = "" then
    ({ ErrorResponse 401 "Session token tidak ditemukan" with
       cookies := ClearAuthCookies X env.cookieTime }, db)
  else
  let sessionHash := X.HashToken sessionToken
  match FindOne (env.fails .findSession) (activeSessionFilter user.ID sessionHash)
      db.usersessions with
  | .error _ =>
    ({ ErrorResponse 401 "Session sudah tidak berlaku (Revoked or Invalid)" with
       cookies := ClearAuthCookies X env.cookieTime }, db)
  | .ok session =>
  match GenerateAccessToken X user env.tokenTime with
  | none => (ErrorResponse 500 "Failed to generate access token", db)
  | some newAccessToken =>
  match GenerateRefreshToken X user.ID claims.RememberMe env.tokenTime with
  | none => (ErrorResponse 500 "Failed to generate refresh token", db)
  | some newRefreshToken =>
  let update : UserSession → UserSession := fun s => { s with LastActiveTime := env.touchTime }
  let db1 : DB :=
    { db with usersessions := UpdateOne (env.fails .touch) (fun s => s.ID == session.ID) update
                                db.usersessions }
  ({ status := 200,
     body := [("ok", .atom (.bool true)),
              ("access_token", .atom (.str newAccessToken)),
              ("refresh_token", .atom (.str newRefreshToken))],
     cookies := SetAuthCookies X env.cookieTime newAccessToken newRefreshToken sessionToken
       claims.RememberMe }, db1)

/-- What one `Logout` request takes from outside the handler. -/
structure LogoutEnv where
  now : Time
  cookieTime : Time
  updateFails : Bool

/-- The update of `Logout`, `RevokeSession`, `UpdatePassword` and `DeleteAccount`:
the document gets `revoked_at` and `last_active_time` set to `now`. -/
def revokeAt (now : Time) (s : UserSession) : UserSession :=
  { s with RevokedAt := some now, LastActiveTime := now }

/-- The filter of `Logout`: token hash, and `revoked_at` null. -/
def logoutFilter (sessionHash : String) (s : UserSession) : Bool :=
  s.Token == sessionHash && s.RevokedAt.isNone

/-- Handler `Logout`. -/
def Logout (X : Ext) (db : DB) (c : Ctx) (env : LogoutEnv) : Response × DB :=
  let sessionToken := c.sessionCookie
  let db1 : DB :=
    if sessionToken ≠ "" then
      let sessionHash := X.HashToken sessionToken
      { db with usersessions := UpdateOne env.updateFails (logoutFilter sessionHash)
                                  (revokeAt env.now) db.usersessions }
    else
      let headerToken := c.XSessionToken
      if headerToken ≠ "" then
        let sessionHash := X.HashToken headerToken
        { db with usersessions := UpdateOne env.updateFails (logoutFilter sessionHash)
                                    (revokeAt env.now) db.usersessions }
      else db
  ({ status := 200, body := [("ok", .atom (.bool true))],
     cookies := ClearAuthCookies X env.cookieTime }, db1)

/-! ## Protected (`internal/middleware/auth.go`) -/

/-- The request-scoped values `Protected` stores with `c.Locals`. -/
structure Locals where
  userID : String
  username : String
  role : String
  userObjectID : ObjectID
  sessionHash : String
  deriving DecidableEq, Repr

/-- Outcome of `Protected`: a response of its own, or `c.Next()` with the values
stored in the context and the identifier handed to the detached goroutine that
updates `last_active_time`. -/
inductive Gate where
  | reject (r : Response)
  | next (loc : Locals) (sessID : ObjectID)
  deriving DecidableEq, Repr

/-- What one pass through `Protected` takes from outside: the clock readings (at
token validation, in `ClearAuthCookies`) and whether the session lookup fails. -/
structure ProtectedEnv where
  now : Time
  cookieTime : Time
  findFails : Bool

/-- Step 1 of `Protected`: header first, then cookie. -/
def accessTokenOf (X : Ext) (c : Ctx) : String :=
  let authHeader := c.Authorization
  if byteLen authHeader > 7 ∧ ToUpper X (sliceTo authHeader 6) = "BEARER" then
    sliceFrom authHeader 7
  else c.accessCookie

/-- Middleware `Protected`, up to `c.Next()`. -/
def Protected (X : Ext) (db : DB) (c : Ctx) (env : ProtectedEnv) : Gate :=
  let tokenString := accessTokenOf X c
  if tokenString = "" then .reject (ErrorResponse 401 "Unauthorized: No access token")
  else
  match ValidateAccessToken X tokenString env.now with
  | none => .reject (ErrorResponse 401 "Unauthorized: Invalid token")
  | some claims =>
  let sessionToken := presentedSecret c
  if sessionToken = "" then
    .reject { ErrorResponse 401 "Unauthorized: No session token" with
              cookies := ClearAuthCookies X env.cookieTime }
  else
  let sessionHash := X.HashToken sessionToken
  let userObjID := (X.ObjectIDFromHex claims.User.ID).getD NilObjectID
  match FindOne env.findFails (activeSessionFilter userObjID sessionHash) db.usersessions with
  | .error _ =>
    .reject { ErrorResponse 401 "Unauthorized: Session revoked or invalid" with
              cookies := ClearAuthCookies X env.cookieTime }
  | .ok session =>
    .next { userID := claims.User.ID, username := claims.User.Username, role := claims.User.Role,
            userObjectID := userObjID, sessionHash := sessionHash } session.ID

/-- The detached goroutine of step 5 of `Protected`, run at instant `t`. -/
def touchSession (fail : Bool) (sessID : ObjectID) (t : Time) (db : DB) : DB :=
  { db with usersessions := UpdateOne fail (fun s => s.ID == sessID)
                              (fun s => { s with LastActiveTime := t }) db.usersessions }

/-! ## Handlers behind Protected (`internal/handlers/users.go`) -/

/-- The response fiber sends when a handler panics: `recover.New()` hands the panic
to the `ErrorHandler` of `cmd/server/main.go`. -/
def panicResponse : Response :=
  ErrorResponse 500 "runtime error: invalid memory address or nil pointer dereference"

/-- Body of `UpdatePassword`. -/
structure UpdatePasswordRequest where
  CurrentPassword : String
  NewPassword : String
  deriving DecidableEq, Repr

/-- The persistence calls of `UpdatePassword`, in source order. -/
inductive UpdatePasswordCall where
  | findUser
  | updateUser
  | revokeSessions
  deriving DecidableEq, Repr

/-- What one `UpdatePassword` request takes from outside the handler: the clock
readings (for `updated_at`, for the revocation) and which persistence calls fail. -/
structure UpdatePasswordEnv where
  updateTime : Time
  now : Time
  fails : UpdatePasswordCall → Bool

/-- The filter of step 3 of `UpdatePassword`: sessions of the account that are not
revoked and whose token is not the current session hash. -/
def otherSessionsFilter (userID : ObjectID) (sessionHash : String) (s : UserSession) : Bool :=
  s.UserID == userID && s.RevokedAt.isNone && s.Token != sessionHash

/-- Handler `UpdatePassword`; `loc` holds what `Protected` stored in the context. -/
def UpdatePassword (X : Ext) (db : DB) (body : Option UpdatePasswordRequest) (loc : Locals)
    (env : UpdatePasswordEnv) : Response × DB :=
  match body with
  | none => (ErrorResponse 400 "Input tidak valid.", db)
  | some req =>
  let userID := loc.userObjectID
  let sessionHash := loc.sessionHash
  match FindOne (env.fails .findUser) (fun u => u.ID == userID) db.users with
  | .error _ => (ErrorResponse 404 "User not found", db)
  | .ok user =>
  if byteLen req.NewPassword < 6 then (ErrorResponse 400 "Password baru minimal 6 karakter.", db)
  else if req.CurrentPassword = req.NewPassword then
    (ErrorResponse 400 "Password baru tidak boleh sama dengan password lama.", db)
  else if !X.CheckPasswordHash req.CurrentPassword user.Password then
    (ErrorResponse 400 "Password saat ini salah.", db)
  else
  let newHashedPassword := (X.HashPassword req.NewPassword).1
  if env.fails .updateUser then (ErrorResponse 500 "Gagal mengubah password.", db)
  else
  let update : User → User :=
    fun u => { u with Password := newHashedPassword, UpdatedAt := env.updateTime }
  let db1 : DB := { db with users := UpdateOne false (fun u => u.ID == userID) update db.users }
  let db2 : DB :=
    { db1 with usersessions := UpdateMany (env.fails .revokeSessions)
                                 (otherSessionsFilter user.ID sessionHash) (revokeAt env.now)
                                 db1.usersessions }
  ({ status := 200, body := [("msg", .atom (.str "Password berhasil diubah."))] }, db2)

/-- The filter of step 4 of `DeleteAccount`: sessions of the account that are not
revoked. -/
def ownSessionsFilter (userID : ObjectID) (s : UserSession) : Bool :=
  s.UserID == userID && s.RevokedAt.isNone

/-- Body of `DeleteAccount`. -/
structure DeleteAccountRequest where
  Password : String
  deriving DecidableEq, Repr

/-- The persistence calls of `DeleteAccount`, in source order. -/
inductive DeleteAccountCall where
  | findUser
  | deleteRelapses
  | revokeSessions
  | deleteUser
  deriving DecidableEq, Repr

/-- What one `DeleteAccount` request takes from outside the handler. -/
structure DeleteAccountEnv where
  now : Time
  cookieTime : Time
  fails : DeleteAccountCall → Bool

/-- Handler `DeleteAccount`. The results of `DeleteMany` and `UpdateMany` are
dereferenced without a look at the error: when either call fails the handler
panics there. The removal of the profile picture is a call to an outside service. -/
def DeleteAccount (X : Ext) (db : DB) (body : Option DeleteAccountRequest) (loc : Locals)
    (env : DeleteAccountEnv) : Response × DB :=
  match body with
  | none => (ErrorResponse 400 "Input tidak valid.", db)
  | some req =>
  let userID := loc.userObjectID
  match FindOne (env.fails .findUser) (fun u => u.ID == userID) db.users with
  | .error _ => (ErrorResponse 404 "User not found", db)
  | .ok user =>
  if !X.CheckPasswordHash req.Password user.Password then
    (ErrorResponse 400 "Password yang Anda masukkan salah.", db)
  else
  if env.fails .deleteRelapses then (panicResponse, db)
  else
  let db1 : DB :=
    { db with relapselogs := DeleteMany false (fun r => r.UserID == user.ID) db.relapselogs }
  if env.fails .revokeSessions then (panicResponse, db1)
  else
  let db2 : DB :=
    { db1 with usersessions := UpdateMany false (ownSessionsFilter user.ID) (revokeAt env.now)
                                 db1.usersessions }
  let db3 : DB :=
    { db2 with users := DeleteOne (env.fails .deleteUser) (fun u => u.ID == user.ID) db2.users }
  ({ status := 200, body := [("msg", .atom (.str "Akun berhasil dihapus."))],
     cookies := ClearAuthCookies X env.cookieTime }, db3)

/-- The persistence calls of `RevokeSession`, in source order. -/
inductive RevokeSessionCall where
  | findSession
  | update
  deriving DecidableEq, Repr

/-- What one `RevokeSession` request takes from outside the handler. -/
structure RevokeSessionEnv where
  now : Time
  cookieTime : Time
  fails : RevokeSessionCall → Bool

/-- Handler `RevokeSession`; `sessionIDHex` is the route parameter `id`. -/
def RevokeSession (X : Ext) (db : DB) (sessionIDHex : String) (loc : Locals)
    (env : RevokeSessionEnv) : Response × DB :=
  match X.ObjectIDFromHex sessionIDHex with
  | none => (ErrorResponse 400 "ID Sesi tidak valid.", db)
  | some sessionID =>
  let userID := loc.userObjectID
  let currentHash := loc.sessionHash
  let filter : UserSession → Bool := fun s => s.ID == sessionID && s.UserID == userID
  match FindOne (env.fails .findSession) filter db.usersessions with
  | .error .ErrNoDocuments => (ErrorResponse 404 "Sesi tidak ditemukan.", db)
  | .error .failure => (ErrorResponse 500 "Server Error.", db)
  | .ok session =>
  let db1 : DB :=
    if session.RevokedAt.isNone then
      { db with usersessions := UpdateOne (env.fails .update) filter (revokeAt env.now)
                                  db.usersessions }
    else db
  let sessionHash := session.Token
  let isCurrent : Bool := currentHash != "" && sessionHash == currentHash
  let msg := if isCurrent then "Sesi ini ditutup. Anda perlu login kembali."
             else "Sesi berhasil diakhiri."
  ({ status := 200,
     body := [("ok", .atom (.bool true)), ("isCurrent", .atom (.bool isCurrent)),
              ("msg", .atom (.str msg))],
     cookies := if isCurrent then ClearAuthCookies X env.cookieTime else [] }, db1)

/-! ## DeleteUser (`internal/handlers/admin.go`) -/

/-- Handler `DeleteUser`; `targetUserID` is the route parameter `id`, `deleteFails`
says whether the `DeleteOne` call fails. The handler touches the accounts only; its
last comment leaves the clean-up of relapses and sessions for later. -/
def DeleteUser (X : Ext) (db : DB) (targetUserID : String) (deleteFails : Bool) :
    Response × DB :=
  match X.ObjectIDFromHex targetUserID with
  | none => (ErrorResponse 400 "Invalid user ID", db)
  | some oid =>
  if deleteFails then (ErrorResponse 500 "Failed to delete user", db)
  else
  let users := DeleteOne false (fun u => u.ID == oid) db.users
  let deletedCount := db.users.length - users.length
  if deletedCount = 0 then (ErrorResponse 404 "User not found", db)
  else
    ({ status := 200, body := [("msg", .atom (.str "User deleted successfully"))] },
     { db with users := users })

/-! ## A concrete instantiation of the parameters, for evaluating examples -/

/-- Simple stand-ins for the parameters: the hash of a password or of a session
secret is the text behind a tag, an identifier is written as that many `f`, and a
token is valid when it is one of two fixed texts. -/
def plainExt : Ext where
  CheckPasswordHash := fun password hash => hash == "pw:" ++ password
  HashPassword := fun password => ("pw:" ++ password, true)
  HashToken := fun token => "sha:" ++ token
  lowerRune := Char.toLower
  upperRune := Char.toUpper
  ObjectIDFromHex := fun s => if s.data.all (fun ch => ch == 'f') then some s.data.length else none
  Hex := fun n => ⟨List.replicate n 'f'⟩
  signAccess := fun cl => some ("access:" ++ cl.User.Username)
  signRefresh := fun cl => some ("refresh:" ++ cl.UserID)
  parseAccess := fun t _ =>
    if t == "access:alice" then
      some { User := { ID := "f", Role := "user", Username := "alice" },
             ExpiresAt := 0, IssuedAt := 0 }
    else if t == "access:bob" then
      some { User := { ID := "ff", Role := "user", Username := "bob" },
             ExpiresAt := 0, IssuedAt := 0 }
    else none
  parseRefresh := fun t _ =>
    if t == "refresh:f" then
      some { UserID := "f", RememberMe := false, ExpiresAt := 0, IssuedAt := 0 }
    else if t == "refresh:ff" then
      some { UserID := "ff", RememberMe := false, ExpiresAt := 0, IssuedAt := 0 }
    else none
  IsProd := false

/-- An account document with the given identifier, handle, password hash, failure
counter and lockout. -/
def mkUser (id : ObjectID) (username password : String) (failed : Int) (lockout : Option Time) :
    User :=
  { ID := id, Nickname := username, Username := username, Password := password, Role := "user",
    LanguagePref := "id", ProfilePicture := "/default.png", StreakStartDate := none,
    LongestStreakSeconds := 0, FailedLoginAttempts := failed, LockoutUntil := lockout,
    RefreshTokens := [], CreatedAt := 0, UpdatedAt := 0 }

/-- A session document with the given identifier, owner, token hash and revocation. -/
def mkSession (id owner : ObjectID) (token : String) (revoked : Option Time) : UserSession :=
  { ID := id, UserID := owner, Token := token, IPAddress := "10.0.0.1", UserAgent := "ua",
    LoginTime := 0, LastActiveTime := 0, RevokedAt := revoked }

/-- A ledger record of the given address, outcome, time and lockout. -/
def mkAttempt (ip outcome : String) (t : Time) (lockout : Option Time) : LoginAttempt :=
  { ID := 0, UserID := none, Username := "x", IPAddress := ip, UserAgent := "ua",
    Outcome := outcome, AttemptTime := t, LockoutUntil := lockout, AttemptsRemaining := none }

/-- A `Login` environment at instant `now` in which every persistence call
succeeds and the random session secret is `secret`. -/
def loginEnvAt (now : Time) (secret : String) : LoginEnv :=
  { now := now, tokenTime := now, cookieTime := now, fails := fun _ => false,
    newID := fun _ => 100, randomToken := some secret }

/-! ## Notions used to state the properties -/

/-- No record of the ledger is an unexpired `ip_locked` record of the address. -/
def noIpLock (ledger : List LoginAttempt) (ip : String) (now : Time) : Prop :=
  ∀ a ∈ ledger, ipLockFilter ip now a = false

instance (ledger : List LoginAttempt) (ip : String) (now : Time) :
    Decidable (noIpLock ledger ip now) := by
  unfold noIpLock
  infer_instance

/-- The handle `Login` looks an account up by: the submitted one, sanitised and
put in lower case. -/
def loginHandle (X : Ext) (req : LoginRequest) : String :=
  ToLower X (SanitizeString req.Username 120)

/-- Consecutive `Login` requests: each runs on the collections the previous one left. -/
def runLogins (X : Ext) : DB → List (Ctx × LoginRequest × LoginEnv) → List Response × DB
  | db, [] => ([], db)
  | db, (c, req, env) :: rest =>
    let out := Login X db c (some req) env
    let tail := runLogins X out.2 rest
    (out.1 :: tail.1, tail.2)

/-- A `Login` request for the account `u` with a wrong password, at an instant at
which the account's stored lockout (if any) is over and the ledger `ledger` holds no
active lock of the caller's address, and during which every persistence call
succeeds. -/
def wrongPasswordCall (X : Ext) (ledger : List LoginAttempt) (u : User)
    (call : Ctx × LoginRequest × LoginEnv) : Prop :=
  loginHandle X call.2.1 = u.Username ∧
  call.2.1.Password ≠ "" ∧
  X.CheckPasswordHash call.2.1.Password u.Password = false ∧
  (∀ k, call.2.2.fails k = false) ∧
  noIpLock ledger (GetClientIP call.1) call.2.2.now ∧
  dateGt u.LockoutUntil call.2.2.now = false

deriving instance Fintype for LoginCall

instance (X : Ext) (ledger : List LoginAttempt) (u : User)
    (call : Ctx × LoginRequest × LoginEnv) : Decidable (wrongPasswordCall X ledger u call) := by
  unfold wrongPasswordCall
  infer_instance

/-- Sample collections: two accounts, `alice` (password `secret`) and `bob`
(password `hunter22`, three failures counted), one expired IP lock in the ledger. -/
def sampleDB : DB :=
  { users := [mkUser 1 "alice" "pw:secret" 0 none, mkUser 2 "bob" "pw:hunter22" 3 (some 500)],
    loginattempts := [mkAttempt "1.2.3.4" "ip_locked" 0 (some 50)] }

/-- A request from 1.2.3.4 for `alice` with the wrong password `guess` at instant `t`. -/
def wrongCall (t : Time) : Ctx × LoginRequest × LoginEnv :=
  ({ IP := "1.2.3.4" }, { Username := " Alice ", Password := "guess", RememberMe := false },
   loginEnvAt t "s")

/-- Record `a` is an `ip_locked` record of address `ip` whose `lockout_until` is
strictly after `now`. -/
def activeIpLock (ip : String) (now : Time) (a : LoginAttempt) : Prop :=
  a.IPAddress = ip ∧ a.Outcome = "ip_locked" ∧ ∃ t, a.LockoutUntil = some t ∧ now < t

/-- Sample collections in which address 1.2.3.4 is locked until instant 5000. -/
def lockedDB : DB :=
  { users := [mkUser 1 "alice" "pw:secret" 0 none],
    loginattempts := [mkAttempt "1.2.3.4" "ip_locked" 10 (some 3000),
                      mkAttempt "1.2.3.4" "ip_locked" 20 (some 5000),
                      mkAttempt "5.6.7.8" "ip_locked" 30 (some 9000)] }

/-- Sample collections in which address 1.2.3.4 has four `user_not_found` records at
instants 20 to 50 and an older one at instant 5. -/
def unknownDB : DB :=
  { users := [mkUser 1 "alice" "pw:secret" 0 none],
    loginattempts := [mkAttempt "1.2.3.4" "user_not_found" 5 none,
                      mkAttempt "1.2.3.4" "user_not_found" 20 none,
                      mkAttempt "1.2.3.4" "user_not_found" 30 none,
                      mkAttempt "5.6.7.8" "user_not_found" 35 none,
                      mkAttempt "1.2.3.4" "user_not_found" 40 none,
                      mkAttempt "1.2.3.4" "user_not_found" 50 none] }

/-- The response carries no token: no token member in the body, and no cookie
with a value. -/
def issuesNothing (r : Response) : Prop :=
  r.field "access_token" = none ∧ r.field "refresh_token" = none ∧
  r.field "session_token" = none ∧ ∀ k ∈ r.cookies, k.Value = ""

instance (r : Response) : Decidable (issuesNothing r) := by
  unfold issuesNothing
  infer_instance

/-- Sample collections with sessions: `alice` (id 1) has session 11 (secret `s1`,
active) and session 12 (secret `s2`, revoked at 40); `bob` (id 2) has session 21
(secret `s3`, active). -/
def sessionDB : DB :=
  { users := [mkUser 1 "alice" "pw:secret" 0 none, mkUser 2 "bob" "pw:hunter22" 0 none],
    usersessions := [mkSession 11 1 "sha:s1" none, mkSession 12 1 "sha:s2" (some 40),
                     mkSession 21 2 "sha:s3" none] }

/-- A `Refresh` environment at instant `now` in which every persistence call succeeds. -/
def refreshEnvAt (now : Time) : RefreshEnv :=
  { now := now, tokenTime := now, touchTime := now, cookieTime := now, fails := fun _ => false }

/-- The account identifier `Protected` takes from the claims of an access token
(`primitive.ObjectIDFromHex`, the zero identifier when the text is not one). -/
def claimedOwner (X : Ext) (claims : UserClaims) : ObjectID :=
  (X.ObjectIDFromHex claims.User.ID).getD NilObjectID

/-- The response `Protected` sends itself, if it does; `none` when it calls the
downstream handler. -/
def Gate.response : Gate → Option Response
  | .reject r => some r
  | .next _ _ => none

/-- A `Protected` environment at instant `now` in which the session lookup succeeds. -/
def protectedEnvAt (now : Time) : ProtectedEnv :=
  { now := now, cookieTime := now, findFails := false }

/-- The operations that write the session collection; no other code of the
repository touches `usersessions`. The handlers behind `Protected` come with the
request-scoped values `Protected` stored. -/
inductive Op where
  | login (c : Ctx) (body : Option LoginRequest) (env : LoginEnv)
  | refresh (c : Ctx) (env : RefreshEnv)
  | touch (fail : Bool) (sessID : ObjectID) (t : Time)
  | logout (c : Ctx) (env : LogoutEnv)
  | revokeSession (sessionIDHex : String) (loc : Locals) (env : RevokeSessionEnv)
  | updatePassword (body : Option UpdatePasswordRequest) (loc : Locals) (env : UpdatePasswordEnv)
  | deleteAccount (body : Option DeleteAccountRequest) (loc : Locals) (env : DeleteAccountEnv)

/-- The collections after an operation. -/
def Op.run (X : Ext) (db : DB) : Op → DB
  | .login c body env => (Login X db c body env).2
  | .refresh c env => (Refresh X db c env).2
  | .touch fail sessID t => touchSession fail sessID t db
  | .logout c env => (Logout X db c env).2
  | .revokeSession sessionIDHex loc env => (RevokeSession X db sessionIDHex loc env).2
  | .updatePassword body loc env => (UpdatePassword X db body loc env).2
  | .deleteAccount body loc env => (DeleteAccount X db body loc env).2

/-- The collections after a sequence of operations. -/
def runOps (X : Ext) (db : DB) (ops : List Op) : DB :=
  ops.foldl (Op.run X) db

/-- The token hashes an operation may store with a new session: the hash of the
random secret of a `Login`. -/
def Op.newTokens (X : Ext) : Op → List String
  | .login _ _ env =>
    match env.randomToken with
    | some secret => [X.HashToken secret]
    | none => []
  | _ => []

/-- Session `s'` is session `s` at a later time: same identifier, owner and token,
and a revocation of `s` is still there, with its instant. -/
def sameSession (s s' : UserSession) : Prop :=
  s'.ID = s.ID ∧ s'.UserID = s.UserID ∧ s'.Token = s.Token ∧
  ∀ t, s.RevokedAt = some t → s'.RevokedAt = some t

/-- No stored session with token hash `h` is still active. -/
def noActive (sessions : List UserSession) (h : String) : Prop :=
  ∀ s ∈ sessions, s.Token = h → s.RevokedAt ≠ none

/-- The values `Protected` stores for `alice` presenting the secret `s1`. -/
def aliceLocals : Locals :=
  { userID := "f", username := "alice", role := "user", userObjectID := 1,
    sessionHash := "sha:s1" }

/-- A `RevokeSession` environment at instant `now` in which every call succeeds. -/
def revokeEnvAt (now : Time) : RevokeSessionEnv :=
  { now := now, cookieTime := now, fails := fun _ => false }

/-- A `Logout` environment at instant `now` in which the update succeeds. -/
def logoutEnvAt (now : Time) : LogoutEnv :=
  { now := now, cookieTime := now, updateFails := false }

/-- An `UpdatePassword` environment at instant `now` in which every call succeeds. -/
def updatePasswordEnvAt (now : Time) : UpdatePasswordEnv :=
  { updateTime := now, now := now, fails := fun _ => false }

/-- Sample collections in which `alice` (id 1) has the active sessions 11 (secret
`s1`) and 13 (secret `s4`) and the revoked session 12, and `bob` (id 2) the active
session 21. -/
def multiDB : DB :=
  { users := [mkUser 1 "alice" "pw:secret" 0 none, mkUser 2 "bob" "pw:hunter22" 0 none],
    usersessions := [mkSession 11 1 "sha:s1" none, mkSession 12 1 "sha:s2" (some 40),
                     mkSession 13 1 "sha:s4" none, mkSession 21 2 "sha:s3" none] }

/-- The branch a `Login` request takes, with the values the branch works on: the
body does not parse; a credential is missing; step 1 finds an active IP lock; step
2 finds no account for the handle; step 3 finds the account locked; step 4, the
password does not match; step 5, it matches. -/
inductive LoginPath where
  | badBody
  | missingCredentials
  | ipLocked (lock : LoginAttempt)
  | unknownUser (handle : String)
  | accountLocked (user : User)
  | wrongPassword (user : User)
  | correctPassword (user : User) (rememberMe : Bool)
  deriving DecidableEq, Repr

/-- The branch `Login` takes on a request: the conditions of `Login`, in its order. -/
def loginPath (X : Ext) (db : DB) (c : Ctx) (body : Option LoginRequest) (env : LoginEnv) :
    LoginPath :=
  match body with
  | none => .badBody
  | some req =>
  if loginHandle X req = "" ∨ req.Password = "" then .missingCredentials
  else
  match FindOneSortDesc (env.fails .findIpLock) (ipLockFilter (GetClientIP c) env.now)
      (·.AttemptTime) db.loginattempts with
  | .ok lock => .ipLocked lock
  | .error _ =>
  match FindOne (env.fails .findUser) (fun u => u.Username == loginHandle X req) db.users with
  | .error _ => .unknownUser (loginHandle X req)
  | .ok user =>
  if dateGt user.LockoutUntil env.now then .accountLocked user
  else if !X.CheckPasswordHash req.Password user.Password then .wrongPassword user
  else .correctPassword user req.RememberMe

/-- The values `Protected` stores for `alice` presenting the secret `s4`. -/
def aliceLocals4 : Locals :=
  { userID := "f", username := "alice", role := "user", userObjectID := 1,
    sessionHash := "sha:s4" }

/-- Session `b` is session `a` with at most another `last_active_time`. -/
def sameButActivity (a b : UserSession) : Prop :=
  b.ID = a.ID ∧ b.UserID = a.UserID ∧ b.Token = a.Token ∧ b.IPAddress = a.IPAddress ∧
  b.UserAgent = a.UserAgent ∧ b.LoginTime = a.LoginTime ∧ b.RevokedAt = a.RevokedAt

/-- The claims `plainExt` reads from the access token of `alice`. -/
def aliceClaims : UserClaims :=
  { User := { ID := "f", Role := "user", Username := "alice" }, ExpiresAt := 0, IssuedAt := 0 }

/-- The session a `Login` of `alice` from 1.2.3.4 at instant 100 stores for the
secret `s9`. -/
def aliceSession9 : UserSession :=
  { ID := 100, UserID := 1, Token := "sha:s9", IPAddress := "1.2.3.4", UserAgent := "",
    LoginTime := 100, LastActiveTime := 100, RevokedAt := none }

/-- A `Login` environment at instant `now` in which the IP-lock lookup of step 1
fails and every other persistence call succeeds. -/
def ipLookupDownEnv (now : Time) (secret : String) : LoginEnv :=
  { now := now, tokenTime := now, cookieTime := now,
    fails := fun k => decide (k = LoginCall.findIpLock),
    newID := fun _ => 100, randomToken := some secret }

/-- Sample collections in which `alice` has nine failures counted and no lockout. -/
def nineDB : DB :=
  { users := [mkUser 1 "alice" "pw:secret" 9 none] }

/-- A `DeleteAccount` environment at instant `now` in which every call succeeds. -/
def deleteEnvAt (now : Time) : DeleteAccountEnv :=
  { now := now, cookieTime := now, fails := fun _ => false }

/-- Member `lockout.until` of a response body: the member `until` of the member
`lockout`, when `lockout` is an object that has it. -/
def Response.lockoutUntil (r : Response) : Option JAtom :=
  match r.field "lockout" with
  | some (.obj fields) => (fields.find? (fun p => p.1 == "until")).map (·.2)
  | _ => none

/-! ## The username pattern (`pkg/utils/sanitize.go`, `internal/handlers/auth.go`)

The pattern is matched by the library `regexp`. It is embedded as a syntax tree
and a matcher for the operators the pattern uses. Without the flag `m`, the
anchors `^` and `$` stand for the beginning and the end of the text, so a pattern
written between them matches a text when the whole text does. -/

/-- Syntax of the patterns the code compiles. A bounded repetition `x{0,n}`
is the nesting of `n` optional groups, the way the library compiles it. -/
inductive Regex where
  | eps
  | cls (p : Char → Bool)
  | seq (a b : Regex)
  | opt (a : Regex)

/-- What can be left of the text after the pattern matched a beginning of it. -/
def Regex.rests : Regex → List Char → List (List Char)
  | .eps, s => [s]
  | .cls _, [] => []
  | .cls p, c :: cs => if p c then [cs] else []
  | .seq a b, s => (a.rests s).flatMap b.rests
  | .opt a, s => a.rests s ++ [s]

/-- Pattern `r{0,n}`. -/
def Regex.upTo (r : Regex) : Nat → Regex
  | 0 => .eps
  | n + 1 => .opt (.seq r (r.upTo n))

/-- Method `MatchString` of a pattern written between `^` and `$`. -/
def Regex.MatchString (r : Regex) (s : String) : Bool :=
  (r.rests s.data).any List.isEmpty

/-- Class `[a-z0-9]`. -/
def classLowerDigit (c : Char) : Bool :=
  let n := c.toNat
  (97 ≤ n && n ≤ 122) || (48 ≤ n && n ≤ 57)

/-- Class `[a-z0-9._@]`. -/
def classUsername (c : Char) : Bool :=
  let n := c.toNat
  (97 ≤ n && n ≤ 122) || (48 ≤ n && n ≤ 57) || n == 46 || n == 95 || n == 64

/-- Variable `usernameRegex` of `internal/handlers/auth.go`: the pattern
`^[a-z0-9](?:[a-z0-9._@]{0,29})$`. -/
def usernameRegex : Regex :=
  .seq (.cls classLowerDigit) ((Regex.cls classUsername).upTo 29)

/-- Function `utils.ValidateUsername`; its pattern is
`^[a-z0-9](?:[a-z0-9._@]{0,29})$`. -/
def ValidateUsername (username : String) : Bool :=
  let pattern : Regex := .seq (.cls classLowerDigit) ((Regex.cls classUsername).upTo 29)
  pattern.MatchString username

/-- The claim's description of an accepted username: between 1 and 30 characters,
the first a lowercase ASCII letter or a digit, every other one a lowercase ASCII
letter, a digit, `.`, `_` or `@`. -/
def describedUsername (u : String) : Prop :=
  1 ≤ u.length ∧ u.length ≤ 30 ∧
  (∀ c, u.data.head? = some c → ('a' ≤ c ∧ c ≤ 'z') ∨ ('0' ≤ c ∧ c ≤ '9')) ∧
  (∀ c ∈ u.data.tail, ('a' ≤ c ∧ c ≤ 'z') ∨ ('0' ≤ c ∧ c ≤ '9') ∨
    c = '.' ∨ c = '_' ∨ c = '@')

/-! ## Configuration (`internal/config`) -/

/-- Call `strings.Split(s, ",")`, on the characters of `s`. -/
def splitComma : List Char → List (List Char)
  | [] => [[]]
  | c :: cs =>
    if c = ',' then [] :: splitComma cs
    else match splitComma cs with
      | [] => [[c]]
      | x :: xs => (c :: x) :: xs

/-- Field `AdminEmails` as `config.Load` fills it from the value of the environment
variable `ADMIN_EMAILS` (the empty string when the variable is unset). -/
def AdminEmails (X : Ext) (adminEmails : String) : List String :=
  (splitComma adminEmails.data).map (fun email => TrimSpace (ToLower X ⟨email⟩))

/-- Function `config.CanAutoAdmin`; `adminEmails` is `cfg.AdminEmails`. -/
def CanAutoAdmin (X : Ext) (adminEmails : List String) (email : String) : Bool :=
  let email := ToLower X (TrimSpace email)
  adminEmails.any (fun adminEmail => adminEmail == email)

/-! ## Register (`internal/handlers/auth.go`) -/

/-- Body `handlers.RegisterRequest`. -/
structure RegisterRequest where
  Nickname : String
  Username : String
  Password : String
  LanguagePref : String
  deriving DecidableEq, Repr

/-- The persistence calls of `Register`, in source order. -/
inductive RegisterCall where
  | findBlock
  | countRecent
  | insertBlocked
  | countUsername
  | insertUser
  | insertSuccess
  deriving DecidableEq, Repr

/-- What one `Register` request takes from outside the handler: the clock reading,
which persistence calls fail, the identifier the driver gives a ledger record, the
result of `primitive.NewObjectID()` and the loaded `cfg.AdminEmails`. -/
structure RegisterEnv where
  now : Time
  fails : RegisterCall → Bool
  newID : RegisterCall → ObjectID
  newObjectID : ObjectID
  adminEmails : List String

/-- The filter of step 1 of `Register`: a `blocked` record of the address that has
not expired. -/
def blockFilter (ip : String) (now : Time) (a : RegistrationAttempt) : Bool :=
  a.IPAddress == ip && a.Status == "blocked" && dateGt a.BlockedUntil now

/-- The filter of the count in step 2 of `Register`: `success` records of the
address from the last 24 hours. -/
def recentFilter (ip : String) (dayAgo : Time) (a : RegistrationAttempt) : Bool :=
  a.IPAddress == ip && a.Status == "success" && decide (dayAgo ≤ a.AttemptTime)

/-- Steps 3 and 4 of `Register`: the check that the username is free, then the
creation of the account and the `success` record. -/
def registerCreate (X : Ext) (db : DB) (env : RegisterEnv)
    (ip nickname username password languagePref : String) : Response × DB :=
  let now := env.now
  if env.fails .countUsername then (ErrorResponse 500 "Server error checking username", db)
  else
  let count := CountDocuments false (fun u : User => u.Username == username) db.users
  if count > 0 then (ErrorResponse 400 "Username sudah digunakan", db)
  else
  let hashed := X.HashPassword password
  if !hashed.2 then (ErrorResponse 500 "Failed to hash password", db)
  else
  let role := if CanAutoAdmin X env.adminEmails username then "admin" else "user"
  let user : User :=
    { ID := env.newObjectID, Nickname := nickname, Username := username, Password := hashed.1,
      Role := role, LanguagePref := languagePref, ProfilePicture := "/default.png",
      StreakStartDate := none, LongestStreakSeconds := 0, FailedLoginAttempts := 0,
      LockoutUntil := none, RefreshTokens := [], CreatedAt := now, UpdatedAt := now }
  if env.fails .insertUser then (ErrorResponse 500 "Failed to create user", db)
  else
  let db1 : DB := { db with users := db.users ++ [user] }
  let success : RegistrationAttempt :=
    { ID := env.newID .insertSuccess, IPAddress := ip, Username := username,
      AttemptTime := now, Status := "success", BlockedUntil := none }
  let db2 : DB :=
    { db1 with registrationattempts :=
                 InsertOne (env.fails .insertSuccess) success db1.registrationattempts }
  ({ status := 200,
     body := [("ok", .atom (.bool true)), ("msg", .atom (.str "Registrasi berhasil!"))] }, db2)

/-- Steps 1 and 2 of `Register`: the lookup of an active block of the address, then
the daily limit. -/
def registerLimits (X : Ext) (db : DB) (env : RegisterEnv)
    (ip nickname username password languagePref : String) : Response × DB :=
  let now := env.now
  match FindOneSortDesc (env.fails .findBlock) (blockFilter ip now) (·.AttemptTime)
      db.registrationattempts with
  | .ok block =>
    ({ status := 429,
       body := [("ok", .atom (.bool false)),
                ("msg", .atom (.str "Form registrasi dinonaktifkan sementara untuk IP ini.")),
                ("lockout", .obj [("type", .str "registration"),
                                  ("until", .ofTimePtr block.BlockedUntil)])] }, db)
  | .error _ =>
  let dayAgo := now + (-24) * Hour
  let recentRegistrations :=
    CountDocuments (env.fails .countRecent) (recentFilter ip dayAgo) db.registrationattempts
  if recentRegistrations ≥ 5 then
    let lockoutUntil := now + 24 * Hour
    let blocked : RegistrationAttempt :=
      { ID := env.newID .insertBlocked, IPAddress := ip, Username := username,
        AttemptTime := now, Status := "blocked", BlockedUntil := some lockoutUntil }
    let db1 : DB :=
      { db with registrationattempts :=
                  InsertOne (env.fails .insertBlocked) blocked db.registrationattempts }
    ({ status := 429,
       body := [("ok", .atom (.bool false)),
                ("msg", .atom (.str "Batas pembuatan akun tercapai untuk hari ini.")),
                ("lockout", .obj [("type", .str "registration"),
                                  ("until", .time lockoutUntil)])] }, db1)
  else registerCreate X db env ip nickname username password languagePref

/-- Handler `Register`. `body` is the parsed request body, `none` when
`c.BodyParser` fails. Returns the response and the collections afterwards. -/
def Register (X : Ext) (db : DB) (c : Ctx) (body : Option RegisterRequest) (env : RegisterEnv) :
    Response × DB :=
  match body with
  | none => (ErrorResponse 400 "Invalid request body", db)
  | some req =>
  let ip := GetClientIP c
  let nickname := SanitizeString req.Nickname 120
  let username := SanitizeString req.Username 30
  let username := ToLower X username
  let password := req.Password
  let languagePref := SanitizeString req.LanguagePref 10
  if nickname = "" ∨ username = "" ∨ password = "" then
    (ErrorResponse 400 "Semua kolom wajib diisi", db)
  else if !usernameRegex.MatchString username then
    (ErrorResponse 400 "Username hanya boleh mengandung huruf latin kecil, angka, titik, underscore, atau @ (1-30 karakter)", db)
  else if byteLen password < 8 then (ErrorResponse 400 "Password minimal 8 karakter", db)
  else registerLimits X db env ip nickname username password languagePref

/-! ## AdminOnly (`internal/middleware/auth.go`) -/

/-- Middleware `AdminOnly`. `role` is `c.Locals("role")`, `none` when no value was
stored under that key; the result is the response the middleware sends itself,
`none` when it calls `c.Next()`. -/
def AdminOnly (role : Option String) : Option Response :=
  if role ≠ some "admin" then some (ErrorResponse 403 "Forbidden: Admin access required")
  else none

/-! ## Streaks (`internal/handlers/stats.go`) -/

/-- The least value of a `time.Duration`. -/
def minDuration : Int := -9223372036854775808

/-- The greatest value of a `time.Duration`. -/
def maxDuration : Int := 9223372036854775807

/-- Method `Time.Sub`: the difference `t - u` in nanoseconds, replaced by the least
or the greatest `Duration` when it is out of range. -/
def Sub (t u : Time) : Int :=
  if t - u < minDuration then minDuration
  else if maxDuration < t - u then maxDuration
  else t - u

/-- Conversion `int64(x)` of a floating-point number, given as the rational it
stands for: the fraction is dropped. -/
def truncInt64 (x : ℚ) : Int :=
  if 0 ≤ x then Rat.floor x else -Rat.floor (-x)

/-- The loop of `calculateStreaks` that finds the most recent relapse. -/
def latestOf (first : Time) (times : List Time) : Time :=
  times.foldl (fun latestRelapse t => if latestRelapse < t then t else latestRelapse) first

/-- The loop of `calculateStreaks` over the sorted timeline: the whole seconds
between each instant and the next. -/
def gapsOf (Seconds : Int → ℚ) : List Time → List Int
  | a :: b :: rest => truncInt64 (Seconds (Sub b a)) :: gapsOf Seconds (b :: rest)
  | _ => []

/-- Function `calculateStreaks`. `Seconds` is the method `Duration.Seconds`, which
gives a duration as a floating-point number of seconds (here the rational that
number stands for). `sort.Slice` with `Before` puts the instants in non-decreasing
order. The result is `(currentStreak, computedLongest, historicalStreaks)`. -/
def calculateStreaks (Seconds : Int → ℚ) (streakStart : Time) (relapses : List RelapseLog)
    (now : Time) : Int × Int × List Int :=
  let relapseTimes := relapses.map (·.RelapseTime)
  let currentStreakStartTime :=
    match relapseTimes with
    | first :: _ => latestOf first relapseTimes
    | [] => streakStart
  let duration := Sub now currentStreakStartTime
  let currentStreak := truncInt64 (max 0 (Seconds duration))
  let timeline := streakStart :: relapseTimes
  let timeline := timeline.insertionSort (· ≤ ·)
  let historicalStreaks := gapsOf Seconds timeline
  let allStreaksForLongest := historicalStreaks ++ [currentStreak]
  let computedLongest :=
    allStreaksForLongest.foldl (fun longest streak => if streak > longest then streak else longest)
      0
  (currentStreak, computedLongest, historicalStreaks)

/-- The exact number of seconds of a duration. -/
def exactSeconds (d : Int) : ℚ := (d : ℚ) / 1000000000

/-- The text is the word `bearer` in any mix of upper and lower case. -/
def isBearer (scheme : String) : Prop :=
  List.Forall₂ (fun ch u => ch = u ∨ ch = Char.toLower u) scheme.data
    ['B', 'E', 'A', 'R', 'E', 'R']

/-- The username `Register` works with: the submitted one, sanitised to 30 bytes and
put in lower case. -/
def registerUsername (X : Ext) (req : RegisterRequest) : String :=
  ToLower X (SanitizeString req.Username 30)

/-- The input of a `Register` request fails one of the checks on the fields: the
sanitised nickname, the username or the password is empty, the username does not
match the pattern, or the password has fewer than 8 bytes. -/
def invalidInput (X : Ext) (req : RegisterRequest) : Prop :=
  SanitizeString req.Nickname 120 = "" ∨ registerUsername X req = "" ∨ req.Password = "" ∨
  usernameRegex.MatchString (registerUsername X req) = false ∨ byteLen req.Password < 8

instance (X : Ext) (req : RegisterRequest) : Decidable (invalidInput X req) := by
  unfold invalidInput
  infer_instance

/-- Record `a` is a `blocked` record of address `ip` whose `blocked_until` is
strictly after `now`. -/
def activeBlock (ip : String) (now : Time) (a : RegistrationAttempt) : Prop :=
  a.IPAddress = ip ∧ a.Status = "blocked" ∧ ∃ t, a.BlockedUntil = some t ∧ now < t

/-- The number of `success` records of address `ip` with `attempt_time` no earlier
than `now - 24 h`. -/
def recentSuccesses (ledger : List RegistrationAttempt) (ip : String) (now : Time) : Nat :=
  (ledger.filter (recentFilter ip (now + (-24) * Hour))).length

/-- A registration record of the given address, status and instant. -/
def mkRegistration (ip status : String) (t : Time) (blockedUntil : Option Time) :
    RegistrationAttempt :=
  { ID := 0, IPAddress := ip, Username := "x", AttemptTime := t, Status := status,
    BlockedUntil := blockedUntil }

/-- Sample collections: the account `alice`, and five `success` records of address
1.2.3.4 at instants 10 to 50 in the registration ledger. -/
def quotaDB : DB :=
  { users := [mkUser 1 "alice" "pw:secret" 0 none],
    registrationattempts := [mkRegistration "1.2.3.4" "success" 10 none,
                             mkRegistration "1.2.3.4" "success" 20 none,
                             mkRegistration "1.2.3.4" "success" 30 none,
                             mkRegistration "1.2.3.4" "success" 40 none,
                             mkRegistration "1.2.3.4" "success" 50 none] }

/-- A `Register` environment at instant `now` in which every persistence call
succeeds, for the given `cfg.AdminEmails`. -/
def registerEnvAt (now : Time) (adminEmails : List String) : RegisterEnv :=
  { now := now, fails := fun _ => false, newID := fun _ => 100, newObjectID := 7,
    adminEmails := adminEmails }

/-- A `Register` request for the username `alice`. -/
def aliceRegistration : RegisterRequest :=
  { Nickname := "Al", Username := "Alice", Password := "longpassword", LanguagePref := "id" }

/-- A `Register` request for the username `carol@example.org`. -/
def carolRegistration : RegisterRequest :=
  { Nickname := "Carol", Username := "Carol@Example.org", Password := "longpassword",
    LanguagePref := "en" }

/-! # Properties -/

/-! ## Lemmas on the persistence calls -/

theorem find_of_mem_nodup {α β : Type} [DecidableEq β] (f : α → β) (l : List α) (u : α)
    (hmem : u ∈ l) (hnd : (l.map f).Nodup) :
    l.find? (fun x => f x == f u) = some u := by
  induction l with
  | nil => cases hmem
  | cons a rest ih =>
    rw [List.map_cons, List.nodup_cons] at hnd
    by_cases hau : a = u
    · subst hau
      simp
    · have hu : u ∈ rest := by
        rcases List.mem_cons.mp hmem with h | h
        · exact absurd h.symm hau
        · exact h
      have hne : f a ≠ f u := by
        intro h
        apply hnd.1
        rw [h]
        exact List.mem_map_of_mem f hu
      rw [List.find?_cons_of_neg]
      · exact ih hu hnd.2
      · simpa using hne

theorem map_updateFirst {α β : Type} (f : α → β) (p : α → Bool) (g : α → α)
    (hg : ∀ a, f (g a) = f a) (l : List α) :
    (updateFirst p g l).map f = l.map f := by
  induction l with
  | nil => rfl
  | cons a rest ih =>
    simp only [updateFirst]
    split
    · simp [hg]
    · simp [ih]

theorem mem_updateFirst {α : Type} (p : α → Bool) (g : α → α) (l : List α) (u : α)
    (h : l.find? p = some u) : g u ∈ updateFirst p g l := by
  induction l with
  | nil => simp at h
  | cons a rest ih =>
    simp only [updateFirst]
    by_cases hp : p a = true
    · rw [List.find?_cons_of_pos _ hp] at h
      cases h
      simp [hp]
    · rw [List.find?_cons_of_neg _ hp] at h
      simp [hp, ih h]

theorem latest_none {α : Type} (key : α → Time) (l : List α) :
    latest key l = none ↔ l = [] := by
  cases l with
  | nil => simp [latest]
  | cons a rest =>
    simp only [latest]
    cases latest key rest with
    | none => simp
    | some b => by_cases h : key a < key b <;> simp [h]

theorem latest_spec {α : Type} (key : α → Time) (l : List α) (r : α)
    (h : latest key l = some r) : r ∈ l ∧ ∀ a ∈ l, key a ≤ key r := by
  induction l generalizing r with
  | nil => simp [latest] at h
  | cons a rest ih =>
    simp only [latest] at h
    cases hrest : latest key rest with
    | none =>
      rw [hrest] at h
      simp only [Option.some.injEq] at h
      subst h
      have : rest = [] := (latest_none key rest).mp hrest
      subst this
      simp
    | some b =>
      rw [hrest] at h
      have hb := ih b hrest
      by_cases hlt : key a < key b
      · simp only [hlt, if_true, Option.some.injEq] at h
        subst h
        refine ⟨List.mem_cons_of_mem _ hb.1, ?_⟩
        intro x hx
        rcases List.mem_cons.mp hx with hx | hx
        · subst hx; exact le_of_lt hlt
        · exact hb.2 x hx
      · simp only [hlt, if_false, Option.some.injEq] at h
        subst h
        refine ⟨List.mem_cons_self _ _, ?_⟩
        intro x hx
        rcases List.mem_cons.mp hx with hx | hx
        · subst hx; exact le_refl _
        · exact le_trans (hb.2 x hx) (not_lt.mp hlt)

/-- A sorted lookup over a collection without a matching document returns an error. -/
theorem FindOneSortDesc_error {α : Type} (fail : Bool) (filter : α → Bool) (key : α → Time)
    (coll : List α) (h : ∀ a ∈ coll, filter a = false) :
    ∃ e, FindOneSortDesc fail filter key coll = .error e := by
  unfold FindOneSortDesc
  by_cases hf : fail = true
  · exact ⟨.failure, by simp [hf]⟩
  · have : coll.filter filter = [] := by
      rw [List.filter_eq_nil_iff]
      intro a ha
      simp [h a ha]
    exact ⟨.ErrNoDocuments, by simp [hf, this, latest]⟩

/-- A sorted lookup that does not fail, over a collection with a matching document,
returns a matching document with the greatest key. -/
theorem FindOneSortDesc_ok {α : Type} (filter : α → Bool) (key : α → Time)
    (coll : List α) (h : ∃ a ∈ coll, filter a = true) :
    ∃ r, FindOneSortDesc false filter key coll = .ok r ∧ r ∈ coll ∧ filter r = true ∧
      ∀ a ∈ coll, filter a = true → key a ≤ key r := by
  obtain ⟨a, ha, hfa⟩ := h
  have hne : coll.filter filter ≠ [] := by
    intro hnil
    have : a ∈ coll.filter filter := List.mem_filter.mpr ⟨ha, hfa⟩
    rw [hnil] at this
    cases this
  cases hl : latest key (coll.filter filter) with
  | none => exact absurd ((latest_none key _).mp hl) hne
  | some r =>
    have hs := latest_spec key _ r hl
    have hr := List.mem_filter.mp hs.1
    refine ⟨r, by simp [FindOneSortDesc, hl], hr.1, hr.2, ?_⟩
    intro x hx hfx
    exact hs.2 x (List.mem_filter.mpr ⟨hx, hfx⟩)

/-! ## The paths of Login -/

/-- A `Login` request with credentials, for an account the lookup finds, from an
address without an active lock, gets to the lock check of the account (step 3). -/
theorem Login_reaches_account (X : Ext) (db : DB) (c : Ctx) (req : LoginRequest) (env : LoginEnv)
    (u : User) (hname : loginHandle X req = u.Username) (hne : u.Username ≠ "")
    (hpw : req.Password ≠ "") (hip : noIpLock db.loginattempts (GetClientIP c) env.now)
    (hfind : db.users.find? (fun x => x.Username == u.Username) = some u)
    (hff : env.fails .findUser = false) :
    Login X db c (some req) env =
      if dateGt u.LockoutUntil env.now then loginLocked db env (GetClientIP c) c.UserAgent u
      else if !X.CheckPasswordHash req.Password u.Password then
        loginWrongPassword db env (GetClientIP c) c.UserAgent u
      else loginSuccess X db env (GetClientIP c) c.UserAgent u req.RememberMe := by
  obtain ⟨e, he⟩ := FindOneSortDesc_error (env.fails .findIpLock)
    (ipLockFilter (GetClientIP c) env.now) (·.AttemptTime) db.loginattempts hip
  unfold loginHandle at hname
  simp only [Login, hname, hne, hpw, he, FindOne, hff, hfind, or_self, if_false]
  rfl

theorem wrapInt64_small (x : Int) (h1 : -9223372036854775808 ≤ x) (h2 : x < 9223372036854775808) :
    wrapInt64 x = x := by
  unfold wrapInt64
  omega

/-- Wrong password below the threshold, every persistence call succeeding: the
counter of the account goes up by one, one `invalid_password` record is appended,
the answer is 401. -/
theorem loginWrongPassword_below (db : DB) (env : LoginEnv) (ip userAgent : String) (u : User)
    (h0 : 0 ≤ u.FailedLoginAttempts) (h9 : u.FailedLoginAttempts + 1 < 10)
    (hf : ∀ k, env.fails k = false) :
    (loginWrongPassword db env ip userAgent u).1.status = 401 ∧
    (loginWrongPassword db env ip userAgent u).2.users =
      updateFirst (fun x => x.ID == u.ID)
        (fun x => { x with FailedLoginAttempts := u.FailedLoginAttempts + 1,
                           LockoutUntil := u.LockoutUntil }) db.users ∧
    ∃ r, (loginWrongPassword db env ip userAgent u).2.loginattempts = db.loginattempts ++ [r] ∧
      r.Outcome = "invalid_password" := by
  have hw : wrapInt64 (u.FailedLoginAttempts + 1) = u.FailedLoginAttempts + 1 :=
    wrapInt64_small _ (by omega) (by omega)
  have hlock : ¬ (u.FailedLoginAttempts + 1 ≥ 10) := by omega
  simp only [loginWrongPassword, hw, hf, UpdateOne, InsertOne, hlock, decide_False, if_false,
    Bool.false_eq_true]
  exact ⟨trivial, trivial, _, rfl, rfl⟩

/-- Wrong password that brings the counter to the threshold, every persistence call
succeeding: the counter is reset, the account locked for ten minutes, the answer
is 423. -/
theorem loginWrongPassword_tenth (db : DB) (env : LoginEnv) (ip userAgent : String) (u : User)
    (h9 : u.FailedLoginAttempts = 9) (hf : ∀ k, env.fails k = false) :
    (loginWrongPassword db env ip userAgent u).1.status = 423 ∧
    (loginWrongPassword db env ip userAgent u).2.users =
      updateFirst (fun x => x.ID == u.ID)
        (fun x => { x with FailedLoginAttempts := 0,
                           LockoutUntil := some (env.now + 10 * Minute) }) db.users := by
  have hw : wrapInt64 (u.FailedLoginAttempts + 1) = 10 := by
    rw [h9]; exact wrapInt64_small _ (by omega) (by omega)
  simp only [loginWrongPassword, hw, hf, UpdateOne, InsertOne, ge_iff_le, le_refl, decide_True,
    if_true, if_false, Bool.false_eq_true]
  exact ⟨trivial, trivial⟩

theorem ipLockFilter_invalid_password (ip : String) (now : Time) (a : LoginAttempt)
    (h : a.Outcome = "invalid_password") : ipLockFilter ip now a = false := by
  simp [ipLockFilter, h]

theorem runLogins_cons (X : Ext) (db : DB) (c : Ctx) (req : LoginRequest) (env : LoginEnv)
    (rest : List (Ctx × LoginRequest × LoginEnv)) :
    runLogins X db ((c, req, env) :: rest) =
      ((Login X db c (some req) env).1 :: (runLogins X (Login X db c (some req) env).2 rest).1,
       (runLogins X (Login X db c (some req) env).2 rest).2) := rfl

/-- Wrong-password requests below the threshold, one after the other: each is
answered 401, the counter of the account grows by their number, identifiers and
handles of the accounts stay, and the ledger gains `invalid_password` records only. -/
theorem runLogins_wrong_below (X : Ext) (ledger : List LoginAttempt)
    (calls : List (Ctx × LoginRequest × LoginEnv)) :
    ∀ (db : DB) (u : User), u ∈ db.users → (db.users.map (·.ID)).Nodup →
      (db.users.map (·.Username)).Nodup → u.Username ≠ "" → 0 ≤ u.FailedLoginAttempts →
      u.FailedLoginAttempts + calls.length < 10 →
      (∀ a ∈ db.loginattempts, a ∈ ledger ∨ a.Outcome = "invalid_password") →
      (∀ call ∈ calls, wrongPasswordCall X ledger u call) →
      (runLogins X db calls).1.map (·.status) = List.replicate calls.length 401 ∧
      { u with FailedLoginAttempts := u.FailedLoginAttempts + calls.length } ∈
        (runLogins X db calls).2.users ∧
      (runLogins X db calls).2.users.map (·.ID) = db.users.map (·.ID) ∧
      (runLogins X db calls).2.users.map (·.Username) = db.users.map (·.Username) ∧
      (∀ a ∈ (runLogins X db calls).2.loginattempts,
        a ∈ ledger ∨ a.Outcome = "invalid_password") := by
  induction calls with
  | nil =>
    intro db u hmem _ _ _ _ _ hled _
    refine ⟨rfl, ?_, rfl, rfl, hled⟩
    simpa [runLogins] using hmem
  | cons call rest ih =>
    intro db u hmem hids hnames hne h0 hlt hled hcalls
    obtain ⟨c, req, env⟩ := call
    have hcall := hcalls (c, req, env) (List.mem_cons_self _ _)
    obtain ⟨hname, hpw, hcheck, hf, hip, hnl⟩ := hcall
    simp only [List.length_cons, Nat.cast_add, Nat.cast_one] at hlt
    have hip2 : noIpLock db.loginattempts (GetClientIP c) env.now := by
      intro a ha
      rcases hled a ha with h | h
      · exact hip a h
      · exact ipLockFilter_invalid_password _ _ a h
    have hfindN := find_of_mem_nodup (fun x : User => x.Username) db.users u hmem hnames
    have hfindI := find_of_mem_nodup (fun x : User => x.ID) db.users u hmem hids
    have hstep := Login_reaches_account X db c req env u hname hne hpw hip2 hfindN (hf _)
    simp only [hnl, hcheck, Bool.not_false, if_true, if_false, Bool.false_eq_true] at hstep
    obtain ⟨hst, husers, r, hledger, hro⟩ :=
      loginWrongPassword_below db env (GetClientIP c) c.UserAgent u h0 (by omega) hf
    rw [← hstep] at hst husers hledger
    -- the account after this request
    have hmem2 := mem_updateFirst (fun x : User => x.ID == u.ID)
      (fun x => { x with FailedLoginAttempts := u.FailedLoginAttempts + 1,
                         LockoutUntil := u.LockoutUntil }) db.users u hfindI
    rw [← husers] at hmem2
    have hids2 : (Login X db c (some req) env).2.users.map (·.ID) = db.users.map (·.ID) := by
      rw [husers]; exact map_updateFirst _ _ _ (by intro a; rfl) _
    have hnames2 : (Login X db c (some req) env).2.users.map (·.Username)
        = db.users.map (·.Username) := by
      rw [husers]; exact map_updateFirst _ _ _ (by intro a; rfl) _
    have hled2 : ∀ a ∈ (Login X db c (some req) env).2.loginattempts,
        a ∈ ledger ∨ a.Outcome = "invalid_password" := by
      intro a ha
      rw [hledger] at ha
      rcases List.mem_append.mp ha with h | h
      · exact hled a h
      · right
        rw [List.mem_singleton.mp h]; exact hro
    have hcalls2 : ∀ call ∈ rest, wrongPasswordCall X ledger
        { u with FailedLoginAttempts := u.FailedLoginAttempts + 1,
                 LockoutUntil := u.LockoutUntil } call := by
      intro call hc
      exact hcalls call (List.mem_cons_of_mem _ hc)
    have := ih (Login X db c (some req) env).2
      { u with FailedLoginAttempts := u.FailedLoginAttempts + 1, LockoutUntil := u.LockoutUntil }
      hmem2 (by rw [hids2]; exact hids) (by rw [hnames2]; exact hnames) hne
      (by show 0 ≤ u.FailedLoginAttempts + 1; omega)
      (by show u.FailedLoginAttempts + 1 + (rest.length : Int) < 10; omega) hled2 hcalls2
    obtain ⟨i1, i2, i3, i4, i5⟩ := this
    rw [runLogins_cons]
    refine ⟨?_, ?_, ?_, ?_, ?_⟩
    · rw [List.map_cons, hst, i1, List.length_cons, List.replicate_succ]
    · have hk : u.FailedLoginAttempts + ((rest.length + 1 : Nat) : Int)
          = u.FailedLoginAttempts + 1 + (rest.length : Int) := by push_cast; ring
      rw [List.length_cons, hk]
      exact i2
    · rw [i3, hids2]
    · rw [i4, hnames2]
    · exact i5

theorem runLogins_append (X : Ext) (l1 l2 : List (Ctx × LoginRequest × LoginEnv)) :
    ∀ db : DB, runLogins X db (l1 ++ l2) =
      ((runLogins X db l1).1 ++ (runLogins X (runLogins X db l1).2 l2).1,
       (runLogins X (runLogins X db l1).2 l2).2) := by
  induction l1 with
  | nil => intro db; rfl
  | cons call rest ih =>
    intro db
    obtain ⟨c, req, env⟩ := call
    rw [List.cons_append, runLogins_cons, runLogins_cons, ih]
    rfl

/-- C1. For an existing account whose stored counter is 0, ten consecutive `Login`
requests with a wrong password (each at an instant at which the account's stored
lockout, if any, is over and no IP lock of the caller's address is active, every
persistence call succeeding) are answered 401 nine times and then 423, and leave
the account with `failed_login_attempts = 0` and `lockout_until` ten minutes after
the instant of the tenth request. -/
theorem c1_ten_wrong_passwords_lock (X : Ext) (db : DB) (u : User)
    (calls : List (Ctx × LoginRequest × LoginEnv)) (last : Ctx × LoginRequest × LoginEnv)
    (hmem : u ∈ db.users) (hids : (db.users.map (·.ID)).Nodup)
    (hnames : (db.users.map (·.Username)).Nodup) (hhandle : u.Username ≠ "")
    (hzero : u.FailedLoginAttempts = 0) (hlen : calls.length = 9)
    (hcalls : ∀ call ∈ calls ++ [last], wrongPasswordCall X db.loginattempts u call) :
    (runLogins X db (calls ++ [last])).1.map (·.status)
      = [401, 401, 401, 401, 401, 401, 401, 401, 401, 423] ∧
    FindOne false (fun x => x.ID == u.ID) (runLogins X db (calls ++ [last])).2.users
      = .ok { u with FailedLoginAttempts := 0,
                     LockoutUntil := some (last.2.2.now + 10 * Minute) } := by
  have hfirst := runLogins_wrong_below X db.loginattempts calls db u hmem hids hnames hhandle
    (by omega) (by rw [hzero, hlen]; decide) (fun a ha => Or.inl ha)
    (fun call hc => hcalls call (List.mem_append_left _ hc))
  obtain ⟨h1, h2, h3, h4, h5⟩ := hfirst
  obtain ⟨c, req, env⟩ := last
  obtain ⟨hname, hpw, hcheck, hf, hip, hnl⟩ :=
    hcalls (c, req, env) (List.mem_append_right _ (List.mem_singleton_self _))
  rw [runLogins_append, runLogins_cons]
  generalize runLogins X db calls = mid at h1 h2 h3 h4 h5 ⊢
  rw [hzero, hlen] at h2
  have hip2 : noIpLock mid.2.loginattempts (GetClientIP c) env.now := by
    intro a ha
    rcases h5 a ha with h | h
    · exact hip a h
    · exact ipLockFilter_invalid_password _ _ a h
  have hidsM : (mid.2.users.map (·.ID)).Nodup := by rw [h3]; exact hids
  have hnamesM : (mid.2.users.map (·.Username)).Nodup := by rw [h4]; exact hnames
  have hfindN := find_of_mem_nodup (fun x : User => x.Username) mid.2.users _ h2 hnamesM
  have hfindI := find_of_mem_nodup (fun x : User => x.ID) mid.2.users _ h2 hidsM
  have hstep := Login_reaches_account X mid.2 c req env
    { u with FailedLoginAttempts := 0 + ((9 : Nat) : Int) } hname hhandle hpw hip2 hfindN (hf _)
  simp only [hnl, hcheck, Bool.not_false, if_true, if_false, Bool.false_eq_true] at hstep
  obtain ⟨hst, husers⟩ := loginWrongPassword_tenth mid.2 env (GetClientIP c) c.UserAgent
    { u with FailedLoginAttempts := 0 + ((9 : Nat) : Int) } (by simp) hf
  rw [← hstep] at hst husers
  have hmem2 := mem_updateFirst (fun x : User => x.ID == u.ID)
    (fun x => { x with FailedLoginAttempts := 0,
                       LockoutUntil := some (env.now + 10 * Minute) }) mid.2.users _ hfindI
  rw [← husers] at hmem2
  have hids2 : (Login X mid.2 c (some req) env).2.users.map (·.ID) = mid.2.users.map (·.ID) := by
    rw [husers]; exact map_updateFirst _ _ _ (by intro a; rfl) _
  have hfinal := find_of_mem_nodup (fun x : User => x.ID) _ _ hmem2 (by rw [hids2]; exact hidsM)
  generalize Login X mid.2 c (some req) env = out at hst husers hmem2 hids2 hfinal ⊢
  refine ⟨?_, ?_⟩
  · simp only [runLogins, List.map_append, List.map_cons, List.map_nil, h1, hlen, hst]
    rfl
  · simp only [runLogins, FindOne]
    rw [hfinal]
    rfl

/-- C1 at a sample run: ten requests for `alice` with the password `guess`, at the
instants 1000 to 1008 and 2000. -/
theorem c1_witness :
    (runLogins plainExt sampleDB
        ((List.range 9).map (fun i => wrongCall (1000 + i)) ++ [wrongCall 2000])).1.map (·.status)
      = [401, 401, 401, 401, 401, 401, 401, 401, 401, 423] ∧
    FindOne false (fun x => x.ID == 1)
        (runLogins plainExt sampleDB
          ((List.range 9).map (fun i => wrongCall (1000 + i)) ++ [wrongCall 2000])).2.users
      = .ok (mkUser 1 "alice" "pw:secret" 0 (some (2000 + 10 * Minute))) :=
  c1_ten_wrong_passwords_lock plainExt sampleDB (mkUser 1 "alice" "pw:secret" 0 none)
    ((List.range 9).map (fun i => wrongCall (1000 + i))) (wrongCall 2000)
    (by decide) (by decide) (by decide) (by decide) rfl rfl (by decide)

/-- C2. A `Login` request (with credentials) for an account whose stored
`lockout_until` is strictly after the request time, from an address without an
active lock, is answered 423 with that `lockout_until`, whatever
`CheckPasswordHash` says of the submitted password; no session is created, no
token or cookie is issued and no account record changes. -/
theorem c2_locked_account_rejected (X : Ext) (db : DB) (c : Ctx) (req : LoginRequest)
    (env : LoginEnv) (u : User) (t : Time)
    (hmem : u ∈ db.users) (hnames : (db.users.map (·.Username)).Nodup)
    (hname : loginHandle X req = u.Username) (hhandle : u.Username ≠ "")
    (hpw : req.Password ≠ "") (hlock : u.LockoutUntil = some t) (hlt : env.now < t)
    (hip : noIpLock db.loginattempts (GetClientIP c) env.now)
    (hff : env.fails .findUser = false) :
    (Login X db c (some req) env).1.status = 423 ∧
    (Login X db c (some req) env).1.field "lockout"
      = some (.obj [("type", .str "user"), ("until", .time t)]) ∧
    (Login X db c (some req) env).2.users = db.users ∧
    (Login X db c (some req) env).2.usersessions = db.usersessions ∧
    (Login X db c (some req) env).1.cookies = [] ∧
    (Login X db c (some req) env).1.field "access_token" = none ∧
    (Login X db c (some req) env).1.field "refresh_token" = none ∧
    (Login X db c (some req) env).1.field "session_token" = none := by
  have hfind := find_of_mem_nodup (fun x : User => x.Username) db.users u hmem hnames
  have hstep := Login_reaches_account X db c req env u hname hhandle hpw hip hfind hff
  have hgt : dateGt u.LockoutUntil env.now = true := by simp [dateGt, hlock, hlt]
  rw [hgt, if_pos rfl] at hstep
  rw [hstep]
  simp [loginLocked, Response.field, hlock, JAtom.ofTimePtr]

/-- C2 at a sample request: `bob`, locked until instant 500, submits his correct
password at instant 100. -/
theorem c2_witness :
    (Login plainExt sampleDB { IP := "1.2.3.4" }
      (some { Username := "bob", Password := "hunter22", RememberMe := false })
      (loginEnvAt 100 "s")).1.status = 423 ∧
    (Login plainExt sampleDB { IP := "1.2.3.4" }
      (some { Username := "bob", Password := "hunter22", RememberMe := false })
      (loginEnvAt 100 "s")).2.usersessions = [] :=
  have h := c2_locked_account_rejected plainExt sampleDB { IP := "1.2.3.4" }
    { Username := "bob", Password := "hunter22", RememberMe := false } (loginEnvAt 100 "s")
    (mkUser 2 "bob" "pw:hunter22" 3 (some 500)) 500
    (by decide) (by decide) (by decide) (by decide) (by decide) rfl (by decide) (by decide) rfl
  ⟨h.1, h.2.2.2.1⟩

theorem ipLockFilter_iff (ip : String) (now : Time) (a : LoginAttempt) :
    ipLockFilter ip now a = true ↔ activeIpLock ip now a := by
  unfold ipLockFilter activeIpLock dateGt
  cases h : a.LockoutUntil with
  | none => simp
  | some t => simp [and_assoc]

/-- C3, counterexample. Address 1.2.3.4 is locked until 5000; at instant 100 a
request from it with the non-empty username " " (one blank) and the non-empty
password "x" is answered 400, not 429. -/
theorem c3_counterexample :
    (∃ a ∈ lockedDB.loginattempts, activeIpLock "1.2.3.4" 100 a) ∧
    (" " : String) ≠ "" ∧ ("x" : String) ≠ "" ∧
    (Login plainExt lockedDB { IP := "1.2.3.4" }
      (some { Username := " ", Password := "x", RememberMe := false })
      (loginEnvAt 100 "s")).1.status = 400 := by
  refine ⟨⟨mkAttempt "1.2.3.4" "ip_locked" 20 (some 5000), by decide, rfl, rfl, 5000, rfl,
    by decide⟩, by decide, by decide, by decide⟩

/-- C3, amended. Whenever the ledger holds an `ip_locked` record of the caller's
address with `lockout_until` strictly after the request time and the lookup of it
succeeds, `Login` with a username that is not empty once sanitised and a non-empty
password (valid for an account or not) answers 429 with the `lockout_until` of a
most recent such record, changes no collection (no session is created) and issues
no token or cookie. -/
theorem c3_ip_lock_rejects (X : Ext) (db : DB) (c : Ctx) (req : LoginRequest) (env : LoginEnv)
    (hlock : ∃ a ∈ db.loginattempts, activeIpLock (GetClientIP c) env.now a)
    (huser : loginHandle X req ≠ "") (hpw : req.Password ≠ "")
    (hf : env.fails .findIpLock = false) :
    ∃ r t, r ∈ db.loginattempts ∧ activeIpLock (GetClientIP c) env.now r ∧
      r.LockoutUntil = some t ∧
      (∀ a ∈ db.loginattempts, activeIpLock (GetClientIP c) env.now a →
        a.AttemptTime ≤ r.AttemptTime) ∧
      (Login X db c (some req) env).1.status = 429 ∧
      (Login X db c (some req) env).1.field "lockout"
        = some (.obj [("type", .str "ip"), ("until", .time t)]) ∧
      (Login X db c (some req) env).2 = db ∧
      (Login X db c (some req) env).1.cookies = [] ∧
      (Login X db c (some req) env).1.field "access_token" = none ∧
      (Login X db c (some req) env).1.field "refresh_token" = none ∧
      (Login X db c (some req) env).1.field "session_token" = none := by
  obtain ⟨a, ha, hact⟩ := hlock
  obtain ⟨r, hr, hrmem, hrf, hmax⟩ := FindOneSortDesc_ok (ipLockFilter (GetClientIP c) env.now)
    (·.AttemptTime) db.loginattempts ⟨a, ha, (ipLockFilter_iff _ _ _).mpr hact⟩
  have hra := (ipLockFilter_iff _ _ _).mp hrf
  obtain ⟨t, ht, _⟩ := hra.2.2
  refine ⟨r, t, hrmem, hra, ht, fun x hx hax => hmax x hx ((ipLockFilter_iff _ _ _).mpr hax), ?_⟩
  unfold loginHandle at huser
  simp [Login, huser, hpw, hf, hr, Response.field, ht, JAtom.ofTimePtr]

/-- C3 at a sample request: from the locked address 1.2.3.4, the valid pair of
`alice` is answered 429 with instant 5000, the `lockout_until` of the later of the
two active lock records. -/
theorem c3_witness :
    (Login plainExt lockedDB { IP := "1.2.3.4" }
      (some { Username := "alice", Password := "secret", RememberMe := false })
      (loginEnvAt 100 "s")).1.status = 429 ∧
    (Login plainExt lockedDB { IP := "1.2.3.4" }
      (some { Username := "alice", Password := "secret", RememberMe := false })
      (loginEnvAt 100 "s")).1.field "lockout"
        = some (.obj [("type", .str "ip"), ("until", .time 5000)]) := by
  obtain ⟨r, t, hr, hact, ht, hmax, hst, hlk, _⟩ := c3_ip_lock_rejects plainExt lockedDB
    { IP := "1.2.3.4" } { Username := "alice", Password := "secret", RememberMe := false }
    (loginEnvAt 100 "s")
    ⟨mkAttempt "1.2.3.4" "ip_locked" 20 (some 5000), by decide, rfl, rfl, 5000, rfl, by decide⟩
    (by decide) (by decide) rfl
  exact ⟨hst, by decide⟩

/-- A `Login` request with credentials, from an address without an active lock,
whose handle belongs to no account, takes the unknown-user path of step 2. -/
theorem Login_reaches_unknown (X : Ext) (db : DB) (c : Ctx) (req : LoginRequest) (env : LoginEnv)
    (huser : loginHandle X req ≠ "") (hpw : req.Password ≠ "")
    (hip : noIpLock db.loginattempts (GetClientIP c) env.now)
    (hnone : ∀ u ∈ db.users, u.Username ≠ loginHandle X req) :
    Login X db c (some req) env =
      loginUnknownUser db env (GetClientIP c) c.UserAgent (loginHandle X req) := by
  obtain ⟨e, he⟩ := FindOneSortDesc_error (env.fails .findIpLock)
    (ipLockFilter (GetClientIP c) env.now) (·.AttemptTime) db.loginattempts hip
  have hfind : db.users.find? (fun u => u.Username == loginHandle X req) = none := by
    rw [List.find?_eq_none]
    intro u hu
    simpa using hnone u hu
  unfold loginHandle at huser hfind ⊢
  simp only [Login, huser, hpw, he, FindOne, hfind, or_self, if_false]
  cases env.fails .findUser <;> rfl

/-- C4. When `Login` finds no account for the submitted handle (and its ledger
calls succeed) it appends a `user_not_found` record and counts the `user_not_found`
records of the address whose `attempt_time` is no earlier than one hour before
`now`, the new record included: with a count of at least 5 it appends an
`ip_locked` record with `lockout_until = now + 1 hour` and answers 429 with that
instant; with a count below 5 it appends nothing more and answers 401. -/
theorem c4_unknown_user_ip_lock (X : Ext) (db : DB) (c : Ctx) (req : LoginRequest)
    (env : LoginEnv) (huser : loginHandle X req ≠ "") (hpw : req.Password ≠ "")
    (hip : noIpLock db.loginattempts (GetClientIP c) env.now)
    (hnone : ∀ u ∈ db.users, u.Username ≠ loginHandle X req)
    (hf1 : env.fails .insertNotFound = false) (hf2 : env.fails .countNotFound = false)
    (hf3 : env.fails .insertIpLocked = false) :
    ∃ attempt lock : LoginAttempt,
      attempt.Outcome = "user_not_found" ∧ attempt.IPAddress = GetClientIP c ∧
      attempt.AttemptTime = env.now ∧ attempt.UserID = none ∧
      lock.Outcome = "ip_locked" ∧ lock.IPAddress = GetClientIP c ∧
      lock.LockoutUntil = some (env.now + Hour) ∧
      (db.loginattempts ++ [attempt]).countP (unknownFilter (GetClientIP c) (env.now - Hour))
        = db.loginattempts.countP (unknownFilter (GetClientIP c) (env.now - Hour)) + 1 ∧
      (5 ≤ (db.loginattempts ++ [attempt]).countP (unknownFilter (GetClientIP c) (env.now - Hour)) →
        (Login X db c (some req) env).2.loginattempts = db.loginattempts ++ [attempt, lock] ∧
        (Login X db c (some req) env).1.status = 429 ∧
        (Login X db c (some req) env).1.field "lockout"
          = some (.obj [("type", .str "ip"), ("until", .time (env.now + Hour))])) ∧
      ((db.loginattempts ++ [attempt]).countP (unknownFilter (GetClientIP c) (env.now - Hour)) < 5 →
        (Login X db c (some req) env).2.loginattempts = db.loginattempts ++ [attempt] ∧
        (Login X db c (some req) env).1.status = 401) ∧
      (Login X db c (some req) env).2.users = db.users ∧
      (Login X db c (some req) env).2.usersessions = db.usersessions := by
  rw [Login_reaches_unknown X db c req env huser hpw hip hnone]
  have hago : env.now + (-1) * Hour = env.now - Hour := by ring
  have hin : env.now + 1 * Hour = env.now + Hour := by ring
  refine ⟨{ ID := env.newID .insertNotFound, UserID := none, Username := loginHandle X req,
            IPAddress := GetClientIP c, UserAgent := c.UserAgent, Outcome := "user_not_found",
            AttemptTime := env.now, LockoutUntil := none, AttemptsRemaining := none },
          { ID := env.newID .insertIpLocked, UserID := none, Username := loginHandle X req,
            IPAddress := GetClientIP c, UserAgent := c.UserAgent, Outcome := "ip_locked",
            AttemptTime := env.now, LockoutUntil := some (env.now + Hour),
            AttemptsRemaining := none },
          rfl, rfl, rfl, rfl, rfl, rfl, rfl, ?_, ?_, ?_, ?_, ?_⟩
  · rw [List.countP_append]
    simp [unknownFilter, Hour, Minute, Second]
  · intro h5
    rw [List.countP_eq_length_filter] at h5
    simp only [loginUnknownUser, InsertOne, CountDocuments, hf1, hf2, hf3, hago, hin, ge_iff_le,
      if_false, Bool.false_eq_true]
    split
    · simp [Response.field]
    · omega
  · intro h5
    rw [List.countP_eq_length_filter] at h5
    simp only [loginUnknownUser, InsertOne, CountDocuments, hf1, hf2, hf3, hago, hin, ge_iff_le,
      if_false, Bool.false_eq_true]
    split
    · omega
    · simp [ErrorResponse]
  · simp only [loginUnknownUser]
    split <;> rfl
  · simp only [loginUnknownUser]
    split <;> rfl

/-- C4 at sample requests for the unknown handle `mallory` from 1.2.3.4: with four
earlier records in the last hour the answer is 429 (instants one hour after 10 and
after 7), with three it is 401 (one hour after 25). -/
theorem c4_witness :
    (Login plainExt unknownDB { IP := "1.2.3.4" }
      (some { Username := "mallory", Password := "x", RememberMe := false })
      (loginEnvAt (Hour + 10) "s")).1.status = 429 ∧
    (Login plainExt unknownDB { IP := "1.2.3.4" }
      (some { Username := "mallory", Password := "x", RememberMe := false })
      (loginEnvAt (Hour + 7) "s")).1.status = 429 ∧
    (Login plainExt unknownDB { IP := "1.2.3.4" }
      (some { Username := "mallory", Password := "x", RememberMe := false })
      (loginEnvAt (Hour + 25) "s")).1.status = 401 := by
  obtain ⟨_, _, _, _, _, _, _, _, _, hcount, hlock, _, _⟩ :=
    c4_unknown_user_ip_lock plainExt unknownDB { IP := "1.2.3.4" }
      { Username := "mallory", Password := "x", RememberMe := false } (loginEnvAt (Hour + 10) "s")
      (by decide) (by decide) (by decide) (by decide) rfl rfl rfl
  exact ⟨(hlock (by rw [hcount]; decide)).2.1, by decide, by decide⟩

theorem FindOne_ok {α : Type} (fail : Bool) (p : α → Bool) (l : List α) (d : α)
    (h : FindOne fail p l = .ok d) : d ∈ l ∧ p d = true ∧ fail = false := by
  unfold FindOne at h
  cases fail with
  | true => simp at h
  | false =>
    simp only [Bool.false_eq_true, if_false] at h
    cases hf : l.find? p with
    | none => rw [hf] at h; simp at h
    | some x =>
      rw [hf] at h
      simp only [Except.ok.injEq] at h
      subst h
      exact ⟨List.mem_of_find?_eq_some hf, List.find?_some hf, rfl⟩

theorem FindOne_error {α : Type} (fail : Bool) (p : α → Bool) (l : List α)
    (h : ∀ a ∈ l, p a = false) : ∃ e, FindOne fail p l = .error e := by
  unfold FindOne
  cases fail with
  | true => exact ⟨_, rfl⟩
  | false =>
    have : l.find? p = none := by
      rw [List.find?_eq_none]
      intro a ha
      simp [h a ha]
    simp [this]

theorem issuesNothing_error (status : Nat) (msg : String) :
    issuesNothing (ErrorResponse status msg) := by
  simp [issuesNothing, ErrorResponse, Response.field]

theorem issuesNothing_cleared (X : Ext) (status : Nat) (msg : String) (t : Time) :
    issuesNothing { ErrorResponse status msg with cookies := ClearAuthCookies X t } := by
  simp [issuesNothing, ErrorResponse, Response.field, ClearAuthCookies]

/-- A `Refresh` response that carries a token comes from a request with an accepted
refresh token of an existing account and the secret of a session of that account
that is stored and not revoked. -/
theorem Refresh_issues_only_if (X : Ext) (db : DB) (c : Ctx) (env : RefreshEnv)
    (h : ¬ issuesNothing (Refresh X db c env).1) :
    ∃ claims user session,
      ValidateRefreshToken X (presentedRefresh c) env.now = some claims ∧
      X.ObjectIDFromHex claims.UserID = some user.ID ∧ user ∈ db.users ∧
      presentedSecret c ≠ "" ∧ session ∈ db.usersessions ∧ session.UserID = user.ID ∧
      session.Token = X.HashToken (presentedSecret c) ∧ session.RevokedAt = none := by
  unfold Refresh at h
  simp only [] at h
  split at h
  · exact absurd (issuesNothing_error _ _) h
  split at h
  · exact absurd (issuesNothing_error _ _) h
  rename_i claims hclaims
  split at h
  · exact absurd (issuesNothing_error _ _) h
  rename_i userID huserID
  split at h
  · exact absurd (issuesNothing_error _ _) h
  rename_i user huser
  split at h
  · exact absurd (issuesNothing_cleared _ _ _ _) h
  rename_i hsecret
  split at h
  · exact absurd (issuesNothing_cleared _ _ _ _) h
  rename_i session hsession
  obtain ⟨humem, huid, _⟩ := FindOne_ok _ _ _ _ huser
  obtain ⟨hsmem, hsf, _⟩ := FindOne_ok _ _ _ _ hsession
  simp only [activeSessionFilter, Bool.and_eq_true, beq_iff_eq, Option.isNone_iff_eq_none] at hsf
  simp only [beq_iff_eq] at huid
  refine ⟨claims, user, session, hclaims, ?_, humem, hsecret, hsmem, hsf.1.1, hsf.1.2, hsf.2⟩
  rw [huid]; exact huserID

/-- A `Refresh` request with an accepted refresh token of an existing account is
answered 401 without any token when it presents no session secret, or a secret
whose hash is the token of no stored session that is both owned by the account and
not revoked. -/
theorem Refresh_rejects_without_session (X : Ext) (db : DB) (c : Ctx) (env : RefreshEnv)
    (claims : RefreshClaims) (A : User)
    (hvalid : ValidateRefreshToken X (presentedRefresh c) env.now = some claims)
    (hid : X.ObjectIDFromHex claims.UserID = some A.ID)
    (hno : presentedSecret c = "" ∨ ∀ s ∈ db.usersessions,
      s.Token = X.HashToken (presentedSecret c) → s.RevokedAt ≠ none ∨ s.UserID ≠ A.ID) :
    (Refresh X db c env).1.status = 401 ∧ issuesNothing (Refresh X db c env).1 ∧
    (Refresh X db c env).2 = db := by
  unfold Refresh
  simp only [hvalid, hid]
  split
  · exact ⟨rfl, issuesNothing_error _ _, rfl⟩
  split
  · exact ⟨rfl, issuesNothing_error _ _, rfl⟩
  rename_i user huser
  obtain ⟨_, huid, _⟩ := FindOne_ok _ _ _ _ huser
  simp only [beq_iff_eq] at huid
  split
  · exact ⟨rfl, issuesNothing_cleared _ _ _ _, rfl⟩
  rename_i hsecret
  have hnone : ∀ s ∈ db.usersessions,
      activeSessionFilter user.ID (X.HashToken (presentedSecret c)) s = false := by
    intro s hs
    rcases hno with h | h
    · exact absurd h hsecret
    · cases hf : activeSessionFilter user.ID (X.HashToken (presentedSecret c)) s with
      | false => rfl
      | true =>
        simp only [activeSessionFilter, Bool.and_eq_true, beq_iff_eq,
          Option.isNone_iff_eq_none] at hf
        rcases h s hs hf.1.2 with h' | h'
        · exact absurd hf.2 h'
        · exact absurd (hf.1.1.trans huid) h'
  obtain ⟨e, he⟩ := FindOne_error (env.fails .findSession) _ _ hnone
  rw [he]
  exact ⟨rfl, issuesNothing_cleared _ _ _ _, rfl⟩

/-- C5. `Refresh` issues tokens only if the request carries a refresh token that
`ValidateRefreshToken` accepts for an existing account and presents a session secret
whose hash is the token of a stored session owned by that account with `revoked_at`
unset. With an accepted refresh token of account `A` but no session secret, or a
secret that belongs only to revoked sessions or to sessions of other accounts, it
answers 401, issues nothing and changes nothing. -/
theorem c5_refresh_needs_active_session (X : Ext) (db : DB) (c : Ctx) (env : RefreshEnv) :
    (¬ issuesNothing (Refresh X db c env).1 →
      ∃ claims user session,
        ValidateRefreshToken X (presentedRefresh c) env.now = some claims ∧
        X.ObjectIDFromHex claims.UserID = some user.ID ∧ user ∈ db.users ∧
        presentedSecret c ≠ "" ∧ session ∈ db.usersessions ∧ session.UserID = user.ID ∧
        session.Token = X.HashToken (presentedSecret c) ∧ session.RevokedAt = none) ∧
    (∀ (claims : RefreshClaims) (A : User),
      ValidateRefreshToken X (presentedRefresh c) env.now = some claims →
      X.ObjectIDFromHex claims.UserID = some A.ID → A ∈ db.users →
      (presentedSecret c = "" ∨ ∀ s ∈ db.usersessions,
        s.Token = X.HashToken (presentedSecret c) → s.RevokedAt ≠ none ∨ s.UserID ≠ A.ID) →
      (Refresh X db c env).1.status = 401 ∧ issuesNothing (Refresh X db c env).1 ∧
      (Refresh X db c env).2 = db) :=
  ⟨Refresh_issues_only_if X db c env,
   fun claims A hvalid hid _ hno => Refresh_rejects_without_session X db c env claims A hvalid hid hno⟩

/-- C5 at sample requests of `alice`: with the secret of her revoked session, with no
secret and with the secret of a session of `bob` the answer is 401 without a token;
with the secret of her active session it is 200 with tokens. -/
theorem c5_witness :
    ((Refresh plainExt sessionDB { refreshCookie := "refresh:f", sessionCookie := "s2" }
        (refreshEnvAt 100)).1.status = 401 ∧
      issuesNothing (Refresh plainExt sessionDB
        { refreshCookie := "refresh:f", sessionCookie := "s2" } (refreshEnvAt 100)).1) ∧
    (Refresh plainExt sessionDB { refreshCookie := "refresh:f" } (refreshEnvAt 100)).1.status
      = 401 ∧
    (Refresh plainExt sessionDB { refreshCookie := "refresh:f", sessionCookie := "s3" }
        (refreshEnvAt 100)).1.status = 401 ∧
    (Refresh plainExt sessionDB { refreshCookie := "refresh:f", sessionCookie := "s1" }
        (refreshEnvAt 100)).1.status = 200 ∧
    ¬ issuesNothing (Refresh plainExt sessionDB
        { refreshCookie := "refresh:f", sessionCookie := "s1" } (refreshEnvAt 100)).1 := by
  have h := (c5_refresh_needs_active_session plainExt sessionDB
    { refreshCookie := "refresh:f", sessionCookie := "s2" } (refreshEnvAt 100)).2
    { UserID := "f", RememberMe := false, ExpiresAt := 0, IssuedAt := 0 }
    (mkUser 1 "alice" "pw:secret" 0 none) rfl rfl (by decide) (Or.inr (by decide))
  exact ⟨⟨h.1, h.2.1⟩, by decide, by decide, by decide, by decide⟩

theorem activeSessionFilter_iff (userID : ObjectID) (h : String) (s : UserSession) :
    activeSessionFilter userID h s = true ↔
      s.UserID = userID ∧ s.Token = h ∧ s.RevokedAt = none := by
  simp [activeSessionFilter, and_assoc]

/-- When `Protected` calls the downstream handler, the request carries an accepted
access token and the secret of a stored session of the account named in the token
that is not revoked. -/
theorem Protected_next_only_if (X : Ext) (db : DB) (c : Ctx) (env : ProtectedEnv)
    (loc : Locals) (sid : ObjectID) (h : Protected X db c env = .next loc sid) :
    accessTokenOf X c ≠ "" ∧ presentedSecret c ≠ "" ∧
    ∃ claims session,
      ValidateAccessToken X (accessTokenOf X c) env.now = some claims ∧
      session ∈ db.usersessions ∧ session.RevokedAt = none ∧
      session.Token = X.HashToken (presentedSecret c) ∧
      session.UserID = claimedOwner X claims ∧ sid = session.ID ∧
      loc.userObjectID = claimedOwner X claims ∧
      loc.sessionHash = X.HashToken (presentedSecret c) ∧
      loc.role = claims.User.Role := by
  unfold Protected at h
  simp only [] at h
  split at h
  · cases h
  rename_i htok
  split at h
  · cases h
  rename_i claims hclaims
  split at h
  · cases h
  rename_i hsecret
  split at h
  · cases h
  rename_i session hsession
  obtain ⟨hmem, hf, _⟩ := FindOne_ok _ _ _ _ hsession
  rw [activeSessionFilter_iff] at hf
  simp only [Gate.next.injEq] at h
  obtain ⟨hloc, hsid⟩ := h
  subst hloc
  exact ⟨htok, hsecret, claims, session, hclaims, hmem, hf.2.2, hf.2.1, hf.1, hsid.symm,
    rfl, rfl, rfl⟩

/-- Every response `Protected` sends itself is a 401. -/
theorem Protected_reject_401 (X : Ext) (db : DB) (c : Ctx) (env : ProtectedEnv) (r : Response)
    (h : Protected X db c env = .reject r) : r.status = 401 := by
  unfold Protected at h
  simp only [] at h
  repeat' split at h
  all_goals first
    | (simp only [Gate.reject.injEq] at h; subst h; rfl)
    | cases h

/-- With a missing or rejected access token `Protected` answers 401 and sets no cookie. -/
theorem Protected_bad_token (X : Ext) (db : DB) (c : Ctx) (env : ProtectedEnv)
    (h : accessTokenOf X c = "" ∨ ValidateAccessToken X (accessTokenOf X c) env.now = none) :
    ∃ r, Protected X db c env = .reject r ∧ r.status = 401 ∧ r.cookies = [] := by
  unfold Protected
  simp only []
  by_cases htok : accessTokenOf X c = ""
  · simp only [htok, if_true]
    exact ⟨_, rfl, rfl, rfl⟩
  · rcases h with h | h
    · exact absurd h htok
    · simp only [htok, if_false, h]
      exact ⟨_, rfl, rfl, rfl⟩

/-- With an accepted access token, and the session secret missing or no stored
session that is owned by the account of the token, carries the hash of the secret
and is not revoked, `Protected` answers 401 and clears the auth cookies. -/
theorem Protected_no_session (X : Ext) (db : DB) (c : Ctx) (env : ProtectedEnv)
    (claims : UserClaims) (htok : accessTokenOf X c ≠ "")
    (hclaims : ValidateAccessToken X (accessTokenOf X c) env.now = some claims)
    (hno : presentedSecret c = "" ∨ ∀ s ∈ db.usersessions,
      ¬ (s.UserID = claimedOwner X claims ∧ s.Token = X.HashToken (presentedSecret c) ∧
         s.RevokedAt = none)) :
    ∃ r, Protected X db c env = .reject r ∧ r.status = 401 ∧
      r.cookies = ClearAuthCookies X env.cookieTime := by
  unfold Protected
  simp only [htok, if_false, hclaims]
  by_cases hsecret : presentedSecret c = ""
  · simp only [hsecret, if_true]
    exact ⟨_, rfl, rfl, rfl⟩
  · simp only [hsecret, if_false]
    have hnone : ∀ s ∈ db.usersessions, activeSessionFilter
        ((X.ObjectIDFromHex claims.User.ID).getD NilObjectID)
        (X.HashToken (presentedSecret c)) s = false := by
      intro s hs
      rcases hno with h | h
      · exact absurd h hsecret
      · cases hf : activeSessionFilter ((X.ObjectIDFromHex claims.User.ID).getD NilObjectID)
            (X.HashToken (presentedSecret c)) s with
        | false => rfl
        | true => exact absurd ((activeSessionFilter_iff _ _ _).mp hf) (h s hs)
    obtain ⟨e, he⟩ := FindOne_error env.findFails _ _ hnone
    rw [he]
    exact ⟨_, rfl, rfl, rfl⟩

/-- With an accepted access token and the secret of a stored, not revoked session of
the account of the token, `Protected` calls the downstream handler, unless the
session lookup fails. -/
theorem Protected_next_if (X : Ext) (db : DB) (c : Ctx) (env : ProtectedEnv)
    (claims : UserClaims) (s : UserSession) (htok : accessTokenOf X c ≠ "")
    (hclaims : ValidateAccessToken X (accessTokenOf X c) env.now = some claims)
    (hsecret : presentedSecret c ≠ "") (hs : s ∈ db.usersessions)
    (howner : s.UserID = claimedOwner X claims)
    (htoken : s.Token = X.HashToken (presentedSecret c)) (hrev : s.RevokedAt = none)
    (hfind : env.findFails = false) :
    ∃ loc sid, Protected X db c env = .next loc sid := by
  unfold Protected
  simp only [htok, if_false, hclaims, hsecret]
  have hsome : (db.usersessions.find? (activeSessionFilter
      ((X.ObjectIDFromHex claims.User.ID).getD NilObjectID)
      (X.HashToken (presentedSecret c)))).isSome := by
    rw [List.find?_isSome]
    exact ⟨s, hs, (activeSessionFilter_iff _ _ _).mpr ⟨howner, htoken, hrev⟩⟩
  obtain ⟨d, hd⟩ := Option.isSome_iff_exists.mp hsome
  simp only [FindOne, hfind, hd, Bool.false_eq_true, if_false]
  exact ⟨_, _, rfl⟩

/-- C6, counterexample. A request that carries no session secret and either no
access token at all or an access token that is not accepted is answered 401 by
`Protected` without any cookie being cleared. -/
theorem c6_counterexample :
    presentedSecret ({ } : Ctx) = "" ∧
    (∃ r, Protected plainExt sessionDB { } (protectedEnvAt 100) = .reject r ∧
      r.status = 401 ∧ r.cookies = [] ∧ r.cookies ≠ ClearAuthCookies plainExt 100) ∧
    presentedSecret ({ accessCookie := "expired" } : Ctx) = "" ∧
    (∃ r, Protected plainExt sessionDB { accessCookie := "expired" } (protectedEnvAt 100)
        = .reject r ∧ r.status = 401 ∧ r.cookies = [] ∧
      r.cookies ≠ ClearAuthCookies plainExt 100) := by
  refine ⟨by decide, ⟨ErrorResponse 401 "Unauthorized: No access token", by decide, rfl, rfl,
    by decide⟩, by decide, ErrorResponse 401 "Unauthorized: Invalid token", by decide, rfl, rfl,
    by decide⟩

/-- C6, amended. `Protected` passes a request to the downstream handler only if it
carries a non-empty access token that `ValidateAccessToken` accepts, a non-empty
session secret, and the store holds a session with `revoked_at` unset, token
`HashToken(secret)` and owner the account identifier of the token's claims (and it
does pass then, unless the lookup fails); in every other case it answers 401 without
calling the handler. It clears the auth cookies when the access token is accepted
and the session secret is missing or no such session is found; a request rejected
for its access token gets no cookie. -/
theorem c6_protected_gate (X : Ext) (db : DB) (c : Ctx) (env : ProtectedEnv) :
    (∀ loc sid, Protected X db c env = .next loc sid →
      accessTokenOf X c ≠ "" ∧ presentedSecret c ≠ "" ∧
      ∃ claims session,
        ValidateAccessToken X (accessTokenOf X c) env.now = some claims ∧
        session ∈ db.usersessions ∧ session.RevokedAt = none ∧
        session.Token = X.HashToken (presentedSecret c) ∧
        session.UserID = claimedOwner X claims ∧ sid = session.ID ∧
        loc.userObjectID = claimedOwner X claims ∧
        loc.sessionHash = X.HashToken (presentedSecret c) ∧
        loc.role = claims.User.Role) ∧
    (∀ r, Protected X db c env = .reject r → r.status = 401) ∧
    (∀ claims, accessTokenOf X c ≠ "" →
      ValidateAccessToken X (accessTokenOf X c) env.now = some claims →
      (presentedSecret c = "" ∨ ∀ s ∈ db.usersessions,
        ¬ (s.UserID = claimedOwner X claims ∧ s.Token = X.HashToken (presentedSecret c) ∧
           s.RevokedAt = none)) →
      ∃ r, Protected X db c env = .reject r ∧ r.status = 401 ∧
        r.cookies = ClearAuthCookies X env.cookieTime) ∧
    ((accessTokenOf X c = "" ∨ ValidateAccessToken X (accessTokenOf X c) env.now = none) →
      ∃ r, Protected X db c env = .reject r ∧ r.status = 401 ∧ r.cookies = []) ∧
    (∀ claims s, accessTokenOf X c ≠ "" →
      ValidateAccessToken X (accessTokenOf X c) env.now = some claims →
      presentedSecret c ≠ "" → s ∈ db.usersessions → s.UserID = claimedOwner X claims →
      s.Token = X.HashToken (presentedSecret c) → s.RevokedAt = none →
      env.findFails = false → ∃ loc sid, Protected X db c env = .next loc sid) :=
  ⟨fun loc sid h => Protected_next_only_if X db c env loc sid h,
   fun r h => Protected_reject_401 X db c env r h,
   fun claims htok hclaims hno => Protected_no_session X db c env claims htok hclaims hno,
   fun h => Protected_bad_token X db c env h,
   fun claims s htok hclaims hsecret hs howner htoken hrev hfind =>
     Protected_next_if X db c env claims s htok hclaims hsecret hs howner htoken hrev hfind⟩

/-- C6 at sample requests of `alice`: with her active session the handler is called;
with her revoked session the answer is a 401 that clears the cookies. -/
theorem c6_witness :
    (∃ loc sid, Protected plainExt sessionDB
      { Authorization := "Bearer access:alice", sessionCookie := "s1" } (protectedEnvAt 100)
        = .next loc sid) ∧
    (∃ r, Protected plainExt sessionDB
      { Authorization := "Bearer access:alice", sessionCookie := "s2" } (protectedEnvAt 100)
        = .reject r ∧ r.status = 401 ∧ r.cookies = ClearAuthCookies plainExt 100) := by
  have h := c6_protected_gate plainExt sessionDB
    { Authorization := "Bearer access:alice", sessionCookie := "s2" } (protectedEnvAt 100)
  have h1 := (c6_protected_gate plainExt sessionDB
    { Authorization := "Bearer access:alice", sessionCookie := "s1" } (protectedEnvAt 100)).2.2.2.2
    { User := { ID := "f", Role := "user", Username := "alice" }, ExpiresAt := 0, IssuedAt := 0 }
    (mkSession 11 1 "sha:s1" none) (by decide) (by decide) (by decide) (by decide) (by decide)
    (by decide) rfl rfl
  exact ⟨h1, h.2.2.1
    { User := { ID := "f", Role := "user", Username := "alice" }, ExpiresAt := 0, IssuedAt := 0 }
    (by decide) (by decide) (Or.inr (by decide))⟩

/-- Whatever happens after it, step 5 of `Login` leaves the accounts as its reset
update leaves them. -/
theorem loginSuccess_users (X : Ext) (db : DB) (env : LoginEnv) (ip userAgent : String)
    (u : User) (rememberMe : Bool) :
    (loginSuccess X db env ip userAgent u rememberMe).2.users =
      UpdateOne (env.fails .updateReset) (fun x => x.ID == u.ID)
        (fun x => { x with FailedLoginAttempts := 0, LockoutUntil := none }) db.users := by
  unfold loginSuccess
  simp only []
  repeat' split
  all_goals rfl

theorem dateGt_false_iff (field : Option Time) (now : Time) :
    dateGt field now = false ↔ ∀ t, field = some t → t ≤ now := by
  cases field with
  | none => simp [dateGt]
  | some v => simp [dateGt]

/-- C9. A `Login` with the correct password for an account that is not locked at the
request time (`lockout_until` unset or not after `now`), from an address that is not
locked, stores `failed_login_attempts = 0` and `lockout_until = null` for that
account, whatever the stored values were (the account lookup and the reset update
succeeding). -/
theorem c9_success_resets_counter (X : Ext) (db : DB) (c : Ctx) (req : LoginRequest)
    (env : LoginEnv) (u : User)
    (hmem : u ∈ db.users) (hids : (db.users.map (·.ID)).Nodup)
    (hnames : (db.users.map (·.Username)).Nodup)
    (hname : loginHandle X req = u.Username) (hhandle : u.Username ≠ "")
    (hpw : req.Password ≠ "") (hcheck : X.CheckPasswordHash req.Password u.Password = true)
    (hnl : ∀ t, u.LockoutUntil = some t → t ≤ env.now)
    (hip : noIpLock db.loginattempts (GetClientIP c) env.now)
    (hf1 : env.fails .findUser = false) (hf2 : env.fails .updateReset = false) :
    FindOne false (fun x => x.ID == u.ID) (Login X db c (some req) env).2.users
      = .ok { u with FailedLoginAttempts := 0, LockoutUntil := none } := by
  have hfindN := find_of_mem_nodup (fun x : User => x.Username) db.users u hmem hnames
  have hfindI := find_of_mem_nodup (fun x : User => x.ID) db.users u hmem hids
  have hstep := Login_reaches_account X db c req env u hname hhandle hpw hip hfindN hf1
  rw [(dateGt_false_iff _ _).mpr hnl] at hstep
  simp only [hcheck, Bool.not_true, if_false, Bool.false_eq_true] at hstep
  rw [hstep, loginSuccess_users]
  simp only [UpdateOne, hf2, Bool.false_eq_true, if_false]
  have hmem2 := mem_updateFirst (fun x : User => x.ID == u.ID)
    (fun x => { x with FailedLoginAttempts := 0, LockoutUntil := none }) db.users u hfindI
  have hids2 := map_updateFirst (fun x : User => x.ID) (fun x : User => x.ID == u.ID)
    (fun x => { x with FailedLoginAttempts := 0, LockoutUntil := none }) (by intro a; rfl)
    db.users
  have hfinal := find_of_mem_nodup (fun x : User => x.ID) _ _ hmem2 (by rw [hids2]; exact hids)
  simp only [FindOne, Bool.false_eq_true, if_false]
  rw [hfinal]

/-- C9 at a sample request: `bob`, with three failures counted and a lockout that
ended at instant 500, logs in at instant 600. -/
theorem c9_witness :
    FindOne false (fun x => x.ID == 2)
      (Login plainExt sampleDB { IP := "1.2.3.4" }
        (some { Username := "Bob", Password := "hunter22", RememberMe := true })
        (loginEnvAt 600 "s")).2.users
      = .ok (mkUser 2 "bob" "pw:hunter22" 0 none) :=
  c9_success_resets_counter plainExt sampleDB { IP := "1.2.3.4" }
    { Username := "Bob", Password := "hunter22", RememberMe := true } (loginEnvAt 600 "s")
    (mkUser 2 "bob" "pw:hunter22" 3 (some 500))
    (by decide) (by decide) (by decide) (by decide) (by decide) (by decide) (by decide)
    (by decide) (by decide) rfl rfl

/-! ## Sessions across operations -/

theorem sameSession_refl (s : UserSession) : sameSession s s :=
  ⟨rfl, rfl, rfl, fun _ h => h⟩

theorem forall2_sameSession_refl (l : List UserSession) : List.Forall₂ sameSession l l := by
  induction l with
  | nil => exact List.Forall₂.nil
  | cons a rest ih => exact List.Forall₂.cons (sameSession_refl a) ih

theorem forall2_updateFirst (p : UserSession → Bool) (g : UserSession → UserSession)
    (l : List UserSession) (h : ∀ d, l.find? p = some d → sameSession d (g d)) :
    List.Forall₂ sameSession l (updateFirst p g l) := by
  induction l with
  | nil => exact List.Forall₂.nil
  | cons a rest ih =>
    simp only [updateFirst]
    by_cases hp : p a = true
    · rw [if_pos hp]
      exact List.Forall₂.cons (h a (List.find?_cons_of_pos _ hp)) (forall2_sameSession_refl _)
    · rw [if_neg hp]
      refine List.Forall₂.cons (sameSession_refl a) (ih ?_)
      intro d hd
      exact h d (by rw [List.find?_cons_of_neg _ hp]; exact hd)

theorem forall2_UpdateOne (fail : Bool) (p : UserSession → Bool) (g : UserSession → UserSession)
    (l : List UserSession) (h : ∀ d, l.find? p = some d → sameSession d (g d)) :
    List.Forall₂ sameSession l (UpdateOne fail p g l) := by
  unfold UpdateOne
  split
  · exact forall2_sameSession_refl l
  · exact forall2_updateFirst p g l h

theorem forall2_UpdateMany (fail : Bool) (p : UserSession → Bool) (g : UserSession → UserSession)
    (l : List UserSession) (h : ∀ d, p d = true → sameSession d (g d)) :
    List.Forall₂ sameSession l (UpdateMany fail p g l) := by
  unfold UpdateMany
  split
  · exact forall2_sameSession_refl l
  · induction l with
    | nil => exact List.Forall₂.nil
    | cons a rest ih =>
      rw [List.map_cons]
      refine List.Forall₂.cons ?_ ih
      by_cases hp : p a = true
      · rw [if_pos hp]; exact h a hp
      · rw [if_neg hp]; exact sameSession_refl a

theorem sameSession_touch (t : Time) (s : UserSession) :
    sameSession s { s with LastActiveTime := t } :=
  ⟨rfl, rfl, rfl, fun _ h => h⟩

theorem sameSession_revokeAt (now : Time) (s : UserSession) (h : s.RevokedAt = none) :
    sameSession s (revokeAt now s) :=
  ⟨rfl, rfl, rfl, fun t ht => by rw [h] at ht; cases ht⟩

/-- `Login` leaves the stored sessions as they are, or appends one session that is
not revoked and whose token is the hash of the random secret. -/
theorem Login_sessions (X : Ext) (db : DB) (c : Ctx) (body : Option LoginRequest)
    (env : LoginEnv) :
    (Login X db c body env).2.usersessions = db.usersessions ∨
    ∃ secret s, env.randomToken = some secret ∧ s.Token = X.HashToken secret ∧
      s.RevokedAt = none ∧
      (Login X db c body env).2.usersessions = db.usersessions ++ [s] := by
  unfold Login loginUnknownUser loginLocked loginWrongPassword loginSuccess
  simp only []
  repeat' split
  all_goals first
    | (left; rfl)
    | (right; rename_i secret hsecret _; exact ⟨secret, _, hsecret, rfl, rfl, rfl⟩)

theorem Refresh_sessions (X : Ext) (db : DB) (c : Ctx) (env : RefreshEnv) :
    List.Forall₂ sameSession db.usersessions (Refresh X db c env).2.usersessions := by
  unfold Refresh
  simp only []
  repeat' split
  all_goals first
    | exact forall2_sameSession_refl _
    | exact forall2_UpdateOne _ _ _ _ (fun d _ => sameSession_touch _ d)

theorem touchSession_sessions (fail : Bool) (sessID : ObjectID) (t : Time) (db : DB) :
    List.Forall₂ sameSession db.usersessions (touchSession fail sessID t db).usersessions :=
  forall2_UpdateOne _ _ _ _ (fun d _ => sameSession_touch _ d)

theorem logoutFilter_revoked (h : String) (d : UserSession) (hd : logoutFilter h d = true) :
    d.RevokedAt = none := by
  simp only [logoutFilter, Bool.and_eq_true, Option.isNone_iff_eq_none] at hd
  exact hd.2

theorem Logout_sessions (X : Ext) (db : DB) (c : Ctx) (env : LogoutEnv) :
    List.Forall₂ sameSession db.usersessions (Logout X db c env).2.usersessions := by
  unfold Logout
  simp only []
  repeat' split
  all_goals first
    | exact forall2_sameSession_refl _
    | exact forall2_UpdateOne _ _ _ _ (fun d hd =>
        sameSession_revokeAt _ d (logoutFilter_revoked _ d (List.find?_some hd)))

theorem RevokeSession_sessions (X : Ext) (db : DB) (sessionIDHex : String) (loc : Locals)
    (env : RevokeSessionEnv) :
    List.Forall₂ sameSession db.usersessions
      (RevokeSession X db sessionIDHex loc env).2.usersessions := by
  unfold RevokeSession
  simp only []
  split
  · exact forall2_sameSession_refl _
  split
  · exact forall2_sameSession_refl _
  · exact forall2_sameSession_refl _
  rename_i session hsession
  dsimp only
  split
  · rename_i hrev
    refine forall2_UpdateOne _ _ _ _ (fun d hd => sameSession_revokeAt _ d ?_)
    unfold FindOne at hsession
    split at hsession
    · cases hsession
    · rw [hd] at hsession
      simp only [Except.ok.injEq] at hsession
      subst hsession
      simpa using hrev
  · exact forall2_sameSession_refl _

theorem UpdatePassword_sessions (X : Ext) (db : DB) (body : Option UpdatePasswordRequest)
    (loc : Locals) (env : UpdatePasswordEnv) :
    List.Forall₂ sameSession db.usersessions
      (UpdatePassword X db body loc env).2.usersessions := by
  unfold UpdatePassword
  simp only []
  repeat' split
  all_goals first
    | exact forall2_sameSession_refl _
    | exact forall2_UpdateMany _ _ _ _ (fun d hd => sameSession_revokeAt _ d (by
        simp only [otherSessionsFilter, Bool.and_eq_true, Option.isNone_iff_eq_none] at hd
        exact hd.1.2))

theorem DeleteAccount_sessions (X : Ext) (db : DB) (body : Option DeleteAccountRequest)
    (loc : Locals) (env : DeleteAccountEnv) :
    List.Forall₂ sameSession db.usersessions
      (DeleteAccount X db body loc env).2.usersessions := by
  unfold DeleteAccount
  simp only []
  repeat' split
  all_goals first
    | exact forall2_sameSession_refl _
    | skip
  dsimp only
  refine forall2_UpdateMany _ (ownSessionsFilter _) _ _ (fun d hd => sameSession_revokeAt _ d ?_)
  simp only [ownSessionsFilter, Bool.and_eq_true, Option.isNone_iff_eq_none] at hd
  exact hd.2

/-- The sessions after an operation are the sessions before it, each possibly
updated but with its identity and any revocation kept, followed by the sessions the
operation inserted, which carry one of its new tokens. -/
theorem Op.run_sessions (X : Ext) (db : DB) (op : Op) :
    ∃ kept added, (op.run X db).usersessions = kept ++ added ∧
      List.Forall₂ sameSession db.usersessions kept ∧
      ∀ a ∈ added, a.Token ∈ op.newTokens X := by
  cases op with
  | login c body env =>
    rcases Login_sessions X db c body env with h | ⟨secret, s, hsecret, htok, _, h⟩
    · exact ⟨db.usersessions, [], by simpa [Op.run] using h, forall2_sameSession_refl _,
        by simp⟩
    · refine ⟨db.usersessions, [s], by simpa [Op.run] using h, forall2_sameSession_refl _, ?_⟩
      intro a ha
      rw [List.mem_singleton.mp ha]
      simp [Op.newTokens, hsecret, htok]
  | refresh c env =>
    exact ⟨_, [], by simp [Op.run], Refresh_sessions X db c env, by simp⟩
  | touch fail sessID t =>
    exact ⟨_, [], by simp [Op.run], touchSession_sessions fail sessID t db, by simp⟩
  | logout c env =>
    exact ⟨_, [], by simp [Op.run], Logout_sessions X db c env, by simp⟩
  | revokeSession sessionIDHex loc env =>
    exact ⟨_, [], by simp [Op.run], RevokeSession_sessions X db sessionIDHex loc env, by simp⟩
  | updatePassword body loc env =>
    exact ⟨_, [], by simp [Op.run], UpdatePassword_sessions X db body loc env, by simp⟩
  | deleteAccount body loc env =>
    exact ⟨_, [], by simp [Op.run], DeleteAccount_sessions X db body loc env, by simp⟩

theorem forall2_getElem {R : UserSession → UserSession → Prop} (l l' : List UserSession)
    (h : List.Forall₂ R l l') (i : Nat) (s : UserSession) (hs : l[i]? = some s) :
    ∃ s', l'[i]? = some s' ∧ R s s' := by
  induction h generalizing i with
  | nil => simp at hs
  | cons hab _ ih =>
    cases i with
    | zero =>
      simp only [List.getElem?_cons_zero, Option.some.injEq] at hs
      subst hs
      exact ⟨_, by simp, hab⟩
    | succ j =>
      simp only [List.getElem?_cons_succ] at hs
      obtain ⟨s', h1, h2⟩ := ih j hs
      exact ⟨s', by simpa using h1, h2⟩

theorem forall2_mem_right {R : UserSession → UserSession → Prop} (l l' : List UserSession)
    (h : List.Forall₂ R l l') (s' : UserSession) (hs : s' ∈ l') : ∃ s ∈ l, R s s' := by
  induction h with
  | nil => cases hs
  | cons hab _ ih =>
    rcases List.mem_cons.mp hs with h1 | h1
    · subst h1
      exact ⟨_, List.mem_cons_self _ _, hab⟩
    · obtain ⟨s, hs1, hs2⟩ := ih h1
      exact ⟨s, List.mem_cons_of_mem _ hs1, hs2⟩

/-- C10. Revocation is terminal: for each of `Login`, `Refresh`, the touch done by
`Protected`, `Logout`, `RevokeSession`, `UpdatePassword` and `DeleteAccount`, a
session that is stored with `revoked_at` set before the operation is stored at the
same place afterwards, with the same identifier, owner and token and the same
`revoked_at`. -/
theorem c10_revocation_terminal (X : Ext) (db : DB) (op : Op) (i : Nat) (s : UserSession)
    (t : Time) (hs : db.usersessions[i]? = some s) (hrev : s.RevokedAt = some t) :
    ∃ s', (op.run X db).usersessions[i]? = some s' ∧ s'.ID = s.ID ∧ s'.UserID = s.UserID ∧
      s'.Token = s.Token ∧ s'.RevokedAt = some t := by
  obtain ⟨kept, added, heq, hkept, _⟩ := Op.run_sessions X db op
  obtain ⟨s', hs', hsame⟩ := forall2_getElem _ _ hkept i s hs
  refine ⟨s', ?_, hsame.1, hsame.2.1, hsame.2.2.1, hsame.2.2.2 t hrev⟩
  rw [heq]
  have hlt : i < kept.length := by
    by_contra hge
    rw [List.getElem?_eq_none (not_lt.mp hge)] at hs'
    cases hs'
  rw [List.getElem?_append_left hlt]
  exact hs'

/-- C10 at a sample operation: `alice` asks to revoke her session 12, revoked at
instant 40 already; it keeps that instant. -/
theorem c10_witness :
    ∃ s', (Op.run plainExt sessionDB
        (.revokeSession "ffffffffffff" aliceLocals (revokeEnvAt 100))).usersessions[1]?
        = some s' ∧
      s'.ID = 12 ∧ s'.UserID = 1 ∧ s'.Token = "sha:s2" ∧ s'.RevokedAt = some 40 :=
  c10_revocation_terminal plainExt sessionDB
    (.revokeSession "ffffffffffff" aliceLocals (revokeEnvAt 100)) 1
    (mkSession 12 1 "sha:s2" (some 40)) 40 rfl rfl

/-- An operation that stores no new session with token hash `h` keeps the sessions
with that token revoked. -/
theorem noActive_run (X : Ext) (db : DB) (op : Op) (h : String)
    (hno : noActive db.usersessions h) (hfresh : h ∉ op.newTokens X) :
    noActive (op.run X db).usersessions h := by
  obtain ⟨kept, added, heq, hkept, hadded⟩ := Op.run_sessions X db op
  intro s' hs' htok
  rw [heq] at hs'
  rcases List.mem_append.mp hs' with hk | ha
  · obtain ⟨s, hs, hsame⟩ := forall2_mem_right _ _ hkept s' hk
    have hrev := hno s hs (by rw [← hsame.2.2.1]; exact htok)
    cases hr : s.RevokedAt with
    | none => exact absurd hr hrev
    | some t => rw [hsame.2.2.2 t hr]; simp
  · exact absurd (htok ▸ hadded s' ha) hfresh

theorem noActive_runOps (X : Ext) (ops : List Op) (h : String) :
    ∀ db : DB, noActive db.usersessions h → (∀ op ∈ ops, h ∉ op.newTokens X) →
      noActive (runOps X db ops).usersessions h := by
  induction ops with
  | nil => intro db hno _; exact hno
  | cons op rest ih =>
    intro db hno hfresh
    have h1 := noActive_run X db op h hno (hfresh op (List.mem_cons_self _ _))
    exact ih (op.run X db) h1 (fun o ho => hfresh o (List.mem_cons_of_mem _ ho))

/-- With no active session for the hash of the presented secret, `Protected`
answers 401. -/
theorem Protected_noActive (X : Ext) (db : DB) (c : Ctx) (env : ProtectedEnv)
    (hno : noActive db.usersessions (X.HashToken (presentedSecret c))) :
    ∃ r, Protected X db c env = .reject r ∧ r.status = 401 := by
  cases hp : Protected X db c env with
  | reject r => exact ⟨r, rfl, Protected_reject_401 X db c env r hp⟩
  | next loc sid =>
    obtain ⟨_, _, claims, session, _, hmem, hrev, htok, _⟩ :=
      Protected_next_only_if X db c env loc sid hp
    exact absurd hrev (hno session hmem htok)

/-- With no active session for the hash of the presented secret, `Refresh` answers
401 and issues nothing. -/
theorem Refresh_noActive (X : Ext) (db : DB) (c : Ctx) (env : RefreshEnv)
    (hno : noActive db.usersessions (X.HashToken (presentedSecret c))) :
    (Refresh X db c env).1.status = 401 ∧ issuesNothing (Refresh X db c env).1 := by
  unfold Refresh
  simp only []
  split
  · exact ⟨rfl, issuesNothing_error _ _⟩
  split
  · exact ⟨rfl, issuesNothing_error _ _⟩
  split
  · exact ⟨rfl, issuesNothing_error _ _⟩
  split
  · exact ⟨rfl, issuesNothing_error _ _⟩
  rename_i user huser
  split
  · exact ⟨rfl, issuesNothing_cleared _ _ _ _⟩
  have hnone : ∀ s ∈ db.usersessions,
      activeSessionFilter user.ID (X.HashToken (presentedSecret c)) s = false := by
    intro s hs
    cases hf : activeSessionFilter user.ID (X.HashToken (presentedSecret c)) s with
    | false => rfl
    | true =>
      have := (activeSessionFilter_iff _ _ _).mp hf
      exact absurd this.2.2 (hno s hs this.2.1)
  obtain ⟨e, he⟩ := FindOne_error (env.fails .findSession) _ _ hnone
  rw [he]
  exact ⟨rfl, issuesNothing_cleared _ _ _ _⟩

theorem updateFirst_none_left {α : Type} (p : α → Bool) (g : α → α) (l : List α)
    (hcount : l.countP p ≤ 1) (hg : ∀ d, p (g d) = false) :
    ∀ a ∈ updateFirst p g l, p a = false := by
  induction l with
  | nil => intro a ha; cases ha
  | cons x rest ih =>
    intro a ha
    simp only [updateFirst] at ha
    by_cases hp : p x = true
    · rw [if_pos hp] at ha
      rw [List.countP_cons_of_pos _ _ hp] at hcount
      have hzero : rest.countP p = 0 := by omega
      rcases List.mem_cons.mp ha with h | h
      · rw [h]; exact hg x
      · have := (List.countP_eq_zero.mp hzero) a h
        simpa using this
    · rw [if_neg hp] at ha
      rw [List.countP_cons_of_neg _ _ hp] at hcount
      rcases List.mem_cons.mp ha with h | h
      · rw [h]; simpa using hp
      · exact ih hcount a h

/-- After a `Logout` that presents a secret and whose update succeeds, no session
with the hash of that secret is active, when at most one was before. -/
theorem Logout_noActive (X : Ext) (db : DB) (c : Ctx) (env : LogoutEnv)
    (hsecret : presentedSecret c ≠ "") (hupd : env.updateFails = false)
    (huniq : db.usersessions.countP (logoutFilter (X.HashToken (presentedSecret c))) ≤ 1) :
    noActive (Logout X db c env).2.usersessions (X.HashToken (presentedSecret c)) := by
  have hkey : (Logout X db c env).2.usersessions =
      updateFirst (logoutFilter (X.HashToken (presentedSecret c))) (revokeAt env.now)
        db.usersessions := by
    unfold presentedSecret at hsecret ⊢
    unfold Logout
    by_cases hc : c.sessionCookie = ""
    · rw [if_pos hc] at hsecret
      simp [hc, hsecret, UpdateOne, hupd]
    · simp [hc, UpdateOne, hupd]
  rw [hkey]
  intro s hs htok
  have := updateFirst_none_left _ (revokeAt env.now) db.usersessions huniq
    (by intro d; simp [logoutFilter, revokeAt]) s hs
  simp only [logoutFilter, htok, beq_self_eq_true, Bool.true_and] at this
  intro hnone
  rw [hnone] at this
  simp at this

/-- C7. After `Logout` is called with session secret `s` (the `session_token`
cookie, else the `X-Session-Token` header) and its update succeeds, every later
`Protected` request and every later `Refresh` that presents `s` is answered 401,
whatever access or refresh token it carries and whatever operations ran in between
(at most one active session carrying the hash of `s` at logout, and no later `Login`
drawing a secret with that hash). -/
theorem c7_logout_invalidates_secret (X : Ext) (db : DB) (c : Ctx) (env : LogoutEnv)
    (ops : List Op) (hsecret : presentedSecret c ≠ "") (hupd : env.updateFails = false)
    (huniq : db.usersessions.countP (logoutFilter (X.HashToken (presentedSecret c))) ≤ 1)
    (hfresh : ∀ op ∈ ops, X.HashToken (presentedSecret c) ∉ op.newTokens X) :
    ∀ c' : Ctx, presentedSecret c' = presentedSecret c →
      (∀ env', ∃ r, Protected X (runOps X (Logout X db c env).2 ops) c' env' = .reject r ∧
        r.status = 401) ∧
      (∀ env', (Refresh X (runOps X (Logout X db c env).2 ops) c' env').1.status = 401 ∧
        issuesNothing (Refresh X (runOps X (Logout X db c env).2 ops) c' env').1) := by
  intro c' hc'
  have hno := noActive_runOps X ops _ _ (Logout_noActive X db c env hsecret hupd huniq) hfresh
  rw [← hc'] at hno
  exact ⟨fun env' => Protected_noActive X _ c' env' hno,
         fun env' => Refresh_noActive X _ c' env' hno⟩

/-- C7 at a sample run: `alice` logs out with secret `s1` (header), then `bob` logs
in; a request with her valid access token and `s1`, and a refresh with her valid
refresh token and `s1`, are answered 401. -/
theorem c7_witness :
    (∃ r, Protected plainExt
        (runOps plainExt (Logout plainExt sessionDB { XSessionToken := "s1" } (logoutEnvAt 100)).2
          [.login { IP := "1.2.3.4" }
            (some { Username := "bob", Password := "hunter22", RememberMe := false })
            (loginEnvAt 200 "s9")])
        { Authorization := "Bearer access:alice", sessionCookie := "s1" } (protectedEnvAt 300)
        = .reject r ∧ r.status = 401) ∧
    (Refresh plainExt
        (runOps plainExt (Logout plainExt sessionDB { XSessionToken := "s1" } (logoutEnvAt 100)).2
          [.login { IP := "1.2.3.4" }
            (some { Username := "bob", Password := "hunter22", RememberMe := false })
            (loginEnvAt 200 "s9")])
        { refreshCookie := "refresh:f", sessionCookie := "s1" } (refreshEnvAt 300)).1.status
      = 401 := by
  have h := c7_logout_invalidates_secret plainExt sessionDB { XSessionToken := "s1" }
    (logoutEnvAt 100)
    [.login { IP := "1.2.3.4" }
      (some { Username := "bob", Password := "hunter22", RememberMe := false })
      (loginEnvAt 200 "s9")]
    (by decide) rfl (by decide) (by decide)
  exact ⟨(h { Authorization := "Bearer access:alice", sessionCookie := "s1" } (by decide)).1
      (protectedEnvAt 300),
    ((h { refreshCookie := "refresh:f", sessionCookie := "s1" } (by decide)).2
      (refreshEnvAt 300)).1⟩

/-- An `UpdatePassword` answered 200 found the caller's account and ran the
revocation of step 3. -/
theorem UpdatePassword_ok (X : Ext) (db : DB) (body : Option UpdatePasswordRequest)
    (loc : Locals) (env : UpdatePasswordEnv)
    (h200 : (UpdatePassword X db body loc env).1.status = 200) :
    (UpdatePassword X db body loc env).2.usersessions =
      UpdateMany (env.fails .revokeSessions)
        (otherSessionsFilter loc.userObjectID loc.sessionHash) (revokeAt env.now)
        db.usersessions := by
  unfold UpdatePassword at h200 ⊢
  simp only [] at h200 ⊢
  split at h200
  · simp [ErrorResponse] at h200
  split at h200
  · simp [ErrorResponse] at h200
  rename_i user huser
  obtain ⟨_, huid, _⟩ := FindOne_ok _ _ _ _ huser
  simp only [beq_iff_eq] at huid
  split at h200
  · simp [ErrorResponse] at h200
  split at h200
  · simp [ErrorResponse] at h200
  split at h200
  · simp [ErrorResponse] at h200
  split at h200
  · simp [ErrorResponse] at h200
  rename_i h1 h2 h3 h4
  simp only [huser, h1, h2, h3, h4, if_false, huid, Bool.false_eq_true]

theorem otherSessionsFilter_iff (userID : ObjectID) (h : String) (s : UserSession) :
    otherSessionsFilter userID h s = true ↔
      s.UserID = userID ∧ s.RevokedAt = none ∧ s.Token ≠ h := by
  simp [otherSessionsFilter, and_assoc]

theorem forall2_map_if (p : UserSession → Bool) (g : UserSession → UserSession)
    (R : UserSession → UserSession → Prop) (l : List UserSession)
    (h : ∀ s, R s (if p s = true then g s else s)) :
    List.Forall₂ R l (l.map (fun a => if p a = true then g a else a)) := by
  induction l with
  | nil => exact List.Forall₂.nil
  | cons a rest ih => exact List.Forall₂.cons (h a) ih

/-- C8. After an `UpdatePassword` answered 200 whose revocation update succeeded:
every session of the caller's account whose token differs from the caller's session
hash has `revoked_at` set; every session carrying the caller's session hash (the
caller's own) and every session of another account is exactly as before; and any
later `Refresh` that presents the secret of one of the account's other sessions is
answered 401 and issues nothing, whatever operations ran in between (that token
being held by sessions of the caller's account only, and no later `Login` drawing a
secret with the same hash). -/
theorem c8_password_change_revokes_others (X : Ext) (db : DB)
    (body : Option UpdatePasswordRequest) (loc : Locals) (env : UpdatePasswordEnv)
    (h200 : (UpdatePassword X db body loc env).1.status = 200)
    (hf : env.fails .revokeSessions = false) :
    (∀ s' ∈ (UpdatePassword X db body loc env).2.usersessions,
      s'.UserID = loc.userObjectID → s'.Token ≠ loc.sessionHash → s'.RevokedAt ≠ none) ∧
    List.Forall₂ (fun s s' => sameSession s s' ∧
        (s.Token = loc.sessionHash ∨ s.UserID ≠ loc.userObjectID → s' = s))
      db.usersessions (UpdatePassword X db body loc env).2.usersessions ∧
    (∀ s' ∈ (UpdatePassword X db body loc env).2.usersessions,
      s'.UserID = loc.userObjectID → s'.Token ≠ loc.sessionHash →
      (∀ a ∈ db.usersessions, a.Token = s'.Token → a.UserID = loc.userObjectID) →
      ∀ ops : List Op, (∀ op ∈ ops, s'.Token ∉ op.newTokens X) →
      ∀ (c : Ctx) (env' : RefreshEnv), X.HashToken (presentedSecret c) = s'.Token →
        (Refresh X (runOps X (UpdatePassword X db body loc env).2 ops) c env').1.status = 401 ∧
        issuesNothing
          (Refresh X (runOps X (UpdatePassword X db body loc env).2 ops) c env').1) := by
  have hs := UpdatePassword_ok X db body loc env h200
  simp only [UpdateMany, hf, Bool.false_eq_true, if_false] at hs
  have h1 : ∀ s' ∈ (UpdatePassword X db body loc env).2.usersessions,
      s'.UserID = loc.userObjectID → s'.Token ≠ loc.sessionHash → s'.RevokedAt ≠ none := by
    intro s' hs' huid htok
    rw [hs] at hs'
    obtain ⟨s, _, hss⟩ := List.mem_map.mp hs'
    by_cases hp : otherSessionsFilter loc.userObjectID loc.sessionHash s = true
    · rw [if_pos hp] at hss
      rw [← hss]; simp [revokeAt]
    · rw [if_neg hp] at hss
      subst hss
      intro hnone
      exact hp ((otherSessionsFilter_iff _ _ _).mpr ⟨huid, hnone, htok⟩)
  have h2 : List.Forall₂ (fun s s' => sameSession s s' ∧
        (s.Token = loc.sessionHash ∨ s.UserID ≠ loc.userObjectID → s' = s))
      db.usersessions (UpdatePassword X db body loc env).2.usersessions := by
    rw [hs]
    apply forall2_map_if
    intro s
    by_cases hp : otherSessionsFilter loc.userObjectID loc.sessionHash s = true
    · rw [if_pos hp]
      have hp' := (otherSessionsFilter_iff _ _ _).mp hp
      refine ⟨sameSession_revokeAt _ s hp'.2.1, ?_⟩
      intro h
      rcases h with h | h
      · exact absurd h hp'.2.2
      · exact absurd hp'.1 h
    · rw [if_neg hp]
      exact ⟨sameSession_refl s, fun _ => rfl⟩
  refine ⟨h1, h2, ?_⟩
  intro s' hs' huid htok honly ops hfresh c env' hc
  have hno : noActive (UpdatePassword X db body loc env).2.usersessions s'.Token := by
    intro a' ha' hatok
    obtain ⟨a, ha, hsame, _⟩ := forall2_mem_right _ _ h2 a' ha'
    have hau : a'.UserID = loc.userObjectID := by
      rw [hsame.2.1]
      exact honly a ha (by rw [← hsame.2.2.1]; exact hatok)
    exact h1 a' ha' hau (by rw [hatok]; exact htok)
  have hno2 := noActive_runOps X ops _ _ hno hfresh
  rw [← hc] at hno2
  exact Refresh_noActive X _ c env' hno2

/-- C8 at a sample run: `alice`, on session `s1`, changes her password at instant
100; her session `s4` is revoked, `s1` and the session of `bob` stay, and a refresh
with `s4` is answered 401. -/
theorem c8_witness :
    (UpdatePassword plainExt multiDB
        (some { CurrentPassword := "secret", NewPassword := "newsecret" }) aliceLocals
        (updatePasswordEnvAt 100)).2.usersessions
      = [mkSession 11 1 "sha:s1" none, mkSession 12 1 "sha:s2" (some 40),
         revokeAt 100 (mkSession 13 1 "sha:s4" none), mkSession 21 2 "sha:s3" none] ∧
    (Refresh plainExt
        (UpdatePassword plainExt multiDB
          (some { CurrentPassword := "secret", NewPassword := "newsecret" }) aliceLocals
          (updatePasswordEnvAt 100)).2
        { refreshCookie := "refresh:f", sessionCookie := "s4" } (refreshEnvAt 200)).1.status
      = 401 := by
  have h := c8_password_change_revokes_others plainExt multiDB
    (some { CurrentPassword := "secret", NewPassword := "newsecret" }) aliceLocals
    (updatePasswordEnvAt 100) (by decide) rfl
  exact ⟨by decide,
    (h.2.2 (revokeAt 100 (mkSession 13 1 "sha:s4" none)) (by decide) rfl (by decide)
      (by decide) [] (by simp) { refreshCookie := "refresh:f", sessionCookie := "s4" }
      (refreshEnvAt 200) rfl).1⟩

/-! ## Login, branch by branch -/

/-- Handler `Login` as its branches: what it returns on each. -/
theorem Login_by_path (X : Ext) (db : DB) (c : Ctx) (body : Option LoginRequest)
    (env : LoginEnv) :
    Login X db c body env =
      match loginPath X db c body env with
      | .badBody => (ErrorResponse 400 "Invalid request body", db)
      | .missingCredentials => (ErrorResponse 400 "Username dan password wajib diisi", db)
      | .ipLocked lock =>
        ({ status := 429,
           body := [("ok", .atom (.bool false)),
                    ("msg", .atom (.str
                      "Form login sementara dinonaktifkan untuk IP ini. Coba lagi nanti.")),
                    ("lockout", .obj [("type", .str "ip"),
                                      ("until", .ofTimePtr lock.LockoutUntil)])] }, db)
      | .unknownUser handle => loginUnknownUser db env (GetClientIP c) c.UserAgent handle
      | .accountLocked user => loginLocked db env (GetClientIP c) c.UserAgent user
      | .wrongPassword user => loginWrongPassword db env (GetClientIP c) c.UserAgent user
      | .correctPassword user rememberMe =>
        loginSuccess X db env (GetClientIP c) c.UserAgent user rememberMe := by
  unfold Login loginPath loginHandle
  cases body with
  | none => rfl
  | some req =>
    simp only []
    by_cases hc : ToLower X (SanitizeString req.Username 120) = "" ∨ req.Password = ""
    · simp only [hc, if_true]
    · simp only [hc, if_false]
      cases hl : FindOneSortDesc (env.fails .findIpLock) (ipLockFilter (GetClientIP c) env.now)
          (·.AttemptTime) db.loginattempts with
      | ok lock => simp only []
      | error e =>
        simp only []
        cases hu : FindOne (env.fails .findUser)
            (fun u => u.Username == ToLower X (SanitizeString req.Username 120)) db.users with
        | error e2 => simp only []
        | ok user =>
          simp only []
          cases hd : dateGt user.LockoutUntil env.now <;>
            cases hp : X.CheckPasswordHash req.Password user.Password <;>
            simp only [Bool.false_eq_true, if_false, if_true, Bool.not_true, Bool.not_false]

/-! ## RevokeSession, twice -/

theorem find_of_mem_nodup_filter {α β : Type} [DecidableEq β] (f : α → β) (p : α → Bool)
    (l : List α) (s : α) (hmem : s ∈ l) (hnd : (l.map f).Nodup) (hp : p s = true)
    (hkey : ∀ x, p x = true → f x = f s) : l.find? p = some s := by
  induction l with
  | nil => cases hmem
  | cons a rest ih =>
    rw [List.map_cons, List.nodup_cons] at hnd
    by_cases has : a = s
    · subst has
      rw [List.find?_cons_of_pos _ hp]
    · have hs : s ∈ rest := by
        rcases List.mem_cons.mp hmem with h | h
        · exact absurd h.symm has
        · exact h
      have hpa : ¬ p a = true := by
        intro hpa
        apply hnd.1
        rw [hkey a hpa]
        exact List.mem_map_of_mem f hs
      rw [List.find?_cons_of_neg _ hpa]
      exact ih hs hnd.2

/-- The response and the collections of `RevokeSession` when its lookup returns the
session `s`. -/
theorem RevokeSession_found (X : Ext) (db : DB) (sessionIDHex : String) (loc : Locals)
    (env : RevokeSessionEnv) (sid : ObjectID) (s : UserSession)
    (hid : X.ObjectIDFromHex sessionIDHex = some sid)
    (hf : env.fails .findSession = false)
    (hfind : db.usersessions.find? (fun x => x.ID == sid && x.UserID == loc.userObjectID)
      = some s) :
    (RevokeSession X db sessionIDHex loc env).1.status = 200 ∧
    (RevokeSession X db sessionIDHex loc env).1.body =
      [("ok", .atom (.bool true)),
       ("isCurrent", .atom (.bool (loc.sessionHash != "" && s.Token == loc.sessionHash))),
       ("msg", .atom (.str (if (loc.sessionHash != "" && s.Token == loc.sessionHash) = true
          then "Sesi ini ditutup. Anda perlu login kembali." else "Sesi berhasil diakhiri.")))] ∧
    (RevokeSession X db sessionIDHex loc env).2 =
      (if s.RevokedAt.isNone = true then
        { db with usersessions := UpdateOne (env.fails .update)
                    (fun x => x.ID == sid && x.UserID == loc.userObjectID) (revokeAt env.now)
                    db.usersessions }
       else db) := by
  unfold RevokeSession
  simp only [hid, FindOne, hf, hfind, Bool.false_eq_true, if_false]
  exact ⟨trivial, trivial, trivial⟩

/-- C11, amended. `RevokeSession`, invoked by the owner on one of their sessions
right after a `RevokeSession` call of the owner on it (so that it is revoked),
leaves every collection unchanged (the session keeps the `revoked_at` it had) and
answers 200 with `ok = true`; `isCurrent` and `msg` are decided by comparing the
token of the session with the session hash of the caller of this call, so the body
is the one of the first call whenever both calls come with the same session hash. -/
theorem c11_revoke_session_again (X : Ext) (db : DB) (sessionIDHex : String)
    (loc loc2 : Locals) (env1 env2 : RevokeSessionEnv) (s : UserSession)
    (hmem : s ∈ db.usersessions) (hids : (db.usersessions.map (·.ID)).Nodup)
    (hid : X.ObjectIDFromHex sessionIDHex = some s.ID)
    (howner : s.UserID = loc.userObjectID) (howner2 : loc2.userObjectID = loc.userObjectID)
    (hf1 : ∀ k, env1.fails k = false) (hf2 : env2.fails .findSession = false) :
    (∃ s1 t, s1 ∈ (RevokeSession X db sessionIDHex loc env1).2.usersessions ∧
      s1.ID = s.ID ∧ s1.Token = s.Token ∧ s1.RevokedAt = some t ∧
      (∀ t0, s.RevokedAt = some t0 → t = t0)) ∧
    (RevokeSession X (RevokeSession X db sessionIDHex loc env1).2 sessionIDHex loc2 env2).2
      = (RevokeSession X db sessionIDHex loc env1).2 ∧
    (RevokeSession X (RevokeSession X db sessionIDHex loc env1).2 sessionIDHex loc2 env2).1.status
      = 200 ∧
    (RevokeSession X (RevokeSession X db sessionIDHex loc env1).2 sessionIDHex loc2 env2).1.body
      = [("ok", .atom (.bool true)),
         ("isCurrent", .atom (.bool (loc2.sessionHash != "" && s.Token == loc2.sessionHash))),
         ("msg", .atom (.str (if (loc2.sessionHash != "" && s.Token == loc2.sessionHash) = true
            then "Sesi ini ditutup. Anda perlu login kembali."
            else "Sesi berhasil diakhiri.")))] ∧
    (loc2.sessionHash = loc.sessionHash →
      (RevokeSession X (RevokeSession X db sessionIDHex loc env1).2 sessionIDHex loc2
        env2).1.body = (RevokeSession X db sessionIDHex loc env1).1.body) := by
  have hp : (fun x : UserSession => x.ID == s.ID && x.UserID == loc.userObjectID) s = true := by
    simp [howner]
  have hkey : ∀ x : UserSession,
      (fun x : UserSession => x.ID == s.ID && x.UserID == loc.userObjectID) x = true →
      x.ID = s.ID := by
    intro x hx
    simp only [Bool.and_eq_true, beq_iff_eq] at hx
    exact hx.1
  have hfind := find_of_mem_nodup_filter (fun x : UserSession => x.ID) _ db.usersessions s hmem
    hids hp hkey
  obtain ⟨_, hb1, hd1⟩ := RevokeSession_found X db sessionIDHex loc env1 s.ID s hid (hf1 _) hfind
  -- the session after the first call
  have hstate : ∃ s1 t, s1 ∈ (RevokeSession X db sessionIDHex loc env1).2.usersessions ∧
      s1.ID = s.ID ∧ s1.UserID = s.UserID ∧ s1.Token = s.Token ∧ s1.RevokedAt = some t ∧
      (∀ t0, s.RevokedAt = some t0 → t = t0) ∧
      ((RevokeSession X db sessionIDHex loc env1).2.usersessions.map (·.ID)).Nodup := by
    rw [hd1]
    cases hr : s.RevokedAt with
    | none =>
      simp only [Option.isNone_none, if_true, UpdateOne, hf1, Bool.false_eq_true, if_false]
      refine ⟨revokeAt env1.now s, env1.now, mem_updateFirst _ _ _ _ hfind, rfl, rfl, rfl, rfl,
        (fun t0 h0 => by cases h0), ?_⟩
      rw [map_updateFirst (fun x : UserSession => x.ID) _ _ (by intro a; rfl)]
      exact hids
    | some t =>
      simp only [Option.isNone_some, Bool.false_eq_true, if_false]
      exact ⟨s, t, hmem, rfl, rfl, rfl, hr, (fun t0 h0 => by cases h0; rfl), hids⟩
  obtain ⟨s1, t, hs1, hs1id, hs1u, hs1tok, hs1rev, hfirst, hids1⟩ := hstate
  have hp1 : (fun x : UserSession => x.ID == s.ID && x.UserID == loc2.userObjectID) s1 = true := by
    simp [hs1id, hs1u, howner, howner2]
  have hkey1 : ∀ x : UserSession,
      (fun x : UserSession => x.ID == s.ID && x.UserID == loc2.userObjectID) x = true →
      x.ID = s1.ID := by
    intro x hx
    simp only [Bool.and_eq_true, beq_iff_eq] at hx
    rw [hs1id]; exact hx.1
  have hfind1 := find_of_mem_nodup_filter (fun x : UserSession => x.ID) _ _ s1 hs1 hids1 hp1 hkey1
  obtain ⟨hst2, hb2, hd2⟩ := RevokeSession_found X (RevokeSession X db sessionIDHex loc env1).2
    sessionIDHex loc2 env2 s.ID s1 hid hf2 hfind1
  have hnone : s1.RevokedAt.isNone = false := by rw [hs1rev]; rfl
  rw [hnone] at hd2
  simp only [Bool.false_eq_true, if_false] at hd2
  rw [hs1tok] at hb2
  refine ⟨⟨s1, t, hs1, hs1id, hs1tok, hs1rev, hfirst⟩, hd2, hst2, hb2, ?_⟩
  intro hsame
  rw [hb2, hb1, hsame]

/-- C11, counterexample. `alice` has the active sessions 11 (secret `s1`) and 13
(secret `s4`). On session `s1` she revokes session 11: `isCurrent` is true. On
session `s4` she then asks to revoke the revoked session 11 again: `isCurrent` is
false and `msg` is another one. A request that presents `s1` again does not get to
the handler: `Protected` answers 401. -/
theorem c11_counterexample :
    (RevokeSession plainExt multiDB "fffffffffff" aliceLocals (revokeEnvAt 100)).1.field
        "isCurrent" = some (.atom (.bool true)) ∧
    (RevokeSession plainExt
        (RevokeSession plainExt multiDB "fffffffffff" aliceLocals (revokeEnvAt 100)).2
        "fffffffffff" aliceLocals4 (revokeEnvAt 200)).1.field "isCurrent"
      = some (.atom (.bool false)) ∧
    (RevokeSession plainExt multiDB "fffffffffff" aliceLocals (revokeEnvAt 100)).1.field "msg"
      ≠ (RevokeSession plainExt
          (RevokeSession plainExt multiDB "fffffffffff" aliceLocals (revokeEnvAt 100)).2
          "fffffffffff" aliceLocals4 (revokeEnvAt 200)).1.field "msg" ∧
    (∃ r, Protected plainExt
        (RevokeSession plainExt multiDB "fffffffffff" aliceLocals (revokeEnvAt 100)).2
        { Authorization := "Bearer access:alice", sessionCookie := "s1" } (protectedEnvAt 200)
        = .reject r ∧ r.status = 401) := by
  refine ⟨by decide, by decide, by decide, ?_⟩
  exact ⟨{ ErrorResponse 401 "Unauthorized: Session revoked or invalid" with
           cookies := ClearAuthCookies plainExt 200 }, by decide, rfl⟩

/-- C11 at a sample run: `alice` revokes her session 13 from session `s1` at
instant 100 and asks again at instant 200: nothing changes the second time, session
13 keeps `revoked_at = 100`, and both answers have the same body. -/
theorem c11_witness :
    (RevokeSession plainExt
        (RevokeSession plainExt multiDB "fffffffffffff" aliceLocals (revokeEnvAt 100)).2
        "fffffffffffff" aliceLocals (revokeEnvAt 200)).2
      = (RevokeSession plainExt multiDB "fffffffffffff" aliceLocals (revokeEnvAt 100)).2 ∧
    (RevokeSession plainExt
        (RevokeSession plainExt multiDB "fffffffffffff" aliceLocals (revokeEnvAt 100)).2
        "fffffffffffff" aliceLocals (revokeEnvAt 200)).1.body
      = (RevokeSession plainExt multiDB "fffffffffffff" aliceLocals (revokeEnvAt 100)).1.body ∧
    (RevokeSession plainExt multiDB "fffffffffffff" aliceLocals (revokeEnvAt 100)).2.usersessions
      = [mkSession 11 1 "sha:s1" none, mkSession 12 1 "sha:s2" (some 40),
         revokeAt 100 (mkSession 13 1 "sha:s4" none), mkSession 21 2 "sha:s3" none] := by
  have h := c11_revoke_session_again plainExt multiDB "fffffffffffff" aliceLocals aliceLocals
    (revokeEnvAt 100) (revokeEnvAt 200) (mkSession 13 1 "sha:s4" none)
    (by decide) (by decide) (by decide) rfl rfl (fun _ => rfl) rfl
  exact ⟨h.2.1, h.2.2.2.2 rfl, by decide⟩

/-! ## The session round trip -/

theorem sameButActivity_refl (a : UserSession) : sameButActivity a a :=
  ⟨rfl, rfl, rfl, rfl, rfl, rfl, rfl⟩

theorem forall2_sameButActivity_refl (l : List UserSession) :
    List.Forall₂ sameButActivity l l := by
  induction l with
  | nil => exact List.Forall₂.nil
  | cons a rest ih => exact List.Forall₂.cons (sameButActivity_refl a) ih

/-- The touch update changes `last_active_time` only. -/
theorem touch_sameButActivity (fail : Bool) (p : UserSession → Bool) (t : Time)
    (l : List UserSession) :
    List.Forall₂ sameButActivity l
      (UpdateOne fail p (fun s => { s with LastActiveTime := t }) l) := by
  unfold UpdateOne
  split
  · exact forall2_sameButActivity_refl l
  · induction l with
    | nil => exact List.Forall₂.nil
    | cons a rest ih =>
      simp only [updateFirst]
      split
      · exact List.Forall₂.cons ⟨rfl, rfl, rfl, rfl, rfl, rfl, rfl⟩
          (forall2_sameButActivity_refl _)
      · exact List.Forall₂.cons (sameButActivity_refl a) ih

theorem activeSessionFilter_congr (u : ObjectID) (h : String) (a b : UserSession)
    (hab : sameButActivity a b) : activeSessionFilter u h b = activeSessionFilter u h a := by
  unfold activeSessionFilter
  rw [hab.2.1, hab.2.2.1, hab.2.2.2.2.2.2]

/-- The session lookup of `Protected` and `Refresh` returns the session at the same
place when sessions differ in `last_active_time` only. -/
theorem find_active_congr (u : ObjectID) (h : String) (l l' : List UserSession)
    (hl : List.Forall₂ sameButActivity l l') (s : UserSession)
    (hs : l.find? (activeSessionFilter u h) = some s) :
    ∃ s', l'.find? (activeSessionFilter u h) = some s' ∧ sameButActivity s s' := by
  induction hl with
  | nil => simp at hs
  | @cons a b l1 l2 hab _ ih =>
    by_cases hp : activeSessionFilter u h a = true
    · rw [List.find?_cons_of_pos _ hp] at hs
      have has : a = s := by simpa using hs
      exact ⟨b, List.find?_cons_of_pos _ (by rw [activeSessionFilter_congr u h a b hab]; exact hp),
        has ▸ hab⟩
    · rw [List.find?_cons_of_neg _ hp] at hs
      obtain ⟨s', h1, h2⟩ := ih hs
      refine ⟨s', ?_, h2⟩
      rw [List.find?_cons_of_neg _ (by rw [activeSessionFilter_congr u h a b hab]; exact hp)]
      exact h1

/-- A session appended to sessions none of which carries its token is the one the
lookup by its owner and token returns. -/
theorem find_active_appended (old : List UserSession) (sess : UserSession)
    (hfresh : ∀ x ∈ old, x.Token ≠ sess.Token) (hrev : sess.RevokedAt = none) :
    (old ++ [sess]).find? (activeSessionFilter sess.UserID sess.Token) = some sess := by
  induction old with
  | nil => simp [activeSessionFilter, hrev]
  | cons a rest ih =>
    have ha : ¬ activeSessionFilter sess.UserID sess.Token a = true := by
      intro h
      exact hfresh a (List.mem_cons_self _ _) ((activeSessionFilter_iff _ _ _).mp h).2.1
    rw [List.cons_append, List.find?_cons_of_neg _ ha]
    exact ih (fun x hx => hfresh x (List.mem_cons_of_mem _ hx))

/-- A step 5 that answers 200 drew a random secret and stored a session for it. -/
theorem loginSuccess_ok (X : Ext) (db : DB) (env : LoginEnv) (ip userAgent : String)
    (user : User) (rememberMe : Bool)
    (h200 : (loginSuccess X db env ip userAgent user rememberMe).1.status = 200) :
    ∃ secret, env.randomToken = some secret ∧
      (loginSuccess X db env ip userAgent user rememberMe).1.field "session_token"
        = some (.atom (.str secret)) ∧
      (loginSuccess X db env ip userAgent user rememberMe).2.usersessions
        = db.usersessions ++
          [{ ID := env.newID .insertSession, UserID := user.ID, Token := X.HashToken secret,
             IPAddress := ip, UserAgent := userAgent, LoginTime := env.now,
             LastActiveTime := env.now, RevokedAt := none }] ∧
      (∀ k ∈ (loginSuccess X db env ip userAgent user rememberMe).1.cookies,
        k.Name = "session_token" → k.Value = secret) := by
  unfold loginSuccess at h200 ⊢
  simp only [] at h200 ⊢
  split at h200
  · simp [ErrorResponse] at h200
  rename_i access haccess
  split at h200
  · simp [ErrorResponse] at h200
  rename_i refresh hrefresh
  split at h200
  · simp [ErrorResponse] at h200
  rename_i secret hsecret
  split at h200
  · simp [ErrorResponse] at h200
  rename_i hins
  refine ⟨secret, hsecret, ?_⟩
  simp only [haccess, hrefresh, hsecret, hins, Bool.false_eq_true, if_false]
  refine ⟨by simp [Response.field], trivial, ?_⟩
  intro k hk hname
  simp only [SetAuthCookies, List.mem_cons, List.mem_singleton, List.not_mem_nil, or_false] at hk
  rcases hk with h | h | h
  · rw [h] at hname; simp at hname
  · rw [h] at hname; simp at hname
  · rw [h]

/-- A `Login` answered 200 went through step 5. -/
theorem Login_ok_path (X : Ext) (db : DB) (c : Ctx) (body : Option LoginRequest)
    (env : LoginEnv) (h200 : (Login X db c body env).1.status = 200) :
    ∃ user rememberMe, loginPath X db c body env = .correctPassword user rememberMe ∧
      Login X db c body env
        = loginSuccess X db env (GetClientIP c) c.UserAgent user rememberMe := by
  have hp := Login_by_path X db c body env
  cases hpath : loginPath X db c body env with
  | badBody => rw [hpath] at hp; rw [hp] at h200; simp [ErrorResponse] at h200
  | missingCredentials => rw [hpath] at hp; rw [hp] at h200; simp [ErrorResponse] at h200
  | ipLocked lock => rw [hpath] at hp; rw [hp] at h200; simp at h200
  | unknownUser handle =>
    rw [hpath] at hp; rw [hp] at h200
    simp only [loginUnknownUser] at h200
    split at h200 <;> simp [ErrorResponse] at h200
  | accountLocked user => rw [hpath] at hp; rw [hp] at h200; simp [loginLocked] at h200
  | wrongPassword user =>
    rw [hpath] at hp; rw [hp] at h200
    simp only [loginWrongPassword] at h200
    split at h200 <;> simp at h200
  | correctPassword user rememberMe =>
    rw [hpath] at hp
    exact ⟨user, rememberMe, rfl, hp⟩

/-- When the session lookup of `Protected` finds session `s`, the request goes on
with the identifier of `s`. -/
theorem Protected_finds (X : Ext) (db : DB) (c : Ctx) (env : ProtectedEnv)
    (claims : UserClaims) (s : UserSession) (htok : accessTokenOf X c ≠ "")
    (hclaims : ValidateAccessToken X (accessTokenOf X c) env.now = some claims)
    (hsecret : presentedSecret c ≠ "") (hfind : env.findFails = false)
    (hs : db.usersessions.find? (activeSessionFilter (claimedOwner X claims)
      (X.HashToken (presentedSecret c))) = some s) :
    ∃ loc, Protected X db c env = .next loc s.ID := by
  unfold Protected
  unfold claimedOwner at hs
  simp only [htok, if_false, hclaims, hsecret, FindOne, hfind, hs, Bool.false_eq_true]
  exact ⟨_, rfl⟩

/-- When the lookups of `Refresh` do not fail, the account exists and the session
lookup finds session `s`, the request is not answered 401, and a 200 leaves the
collections as the touch of `s` leaves them. -/
theorem Refresh_finds (X : Ext) (db : DB) (c : Ctx) (env : RefreshEnv)
    (claims : RefreshClaims) (uid : ObjectID) (s : UserSession)
    (hrefresh : presentedRefresh c ≠ "")
    (hclaims : ValidateRefreshToken X (presentedRefresh c) env.now = some claims)
    (hid : X.ObjectIDFromHex claims.UserID = some uid)
    (huser : ∃ u ∈ db.users, u.ID = uid)
    (hf1 : env.fails .findUser = false) (hf2 : env.fails .findSession = false)
    (hsecret : presentedSecret c ≠ "")
    (hs : db.usersessions.find? (activeSessionFilter uid
      (X.HashToken (presentedSecret c))) = some s) :
    (Refresh X db c env).1.status ≠ 401 ∧
    ((Refresh X db c env).1.status = 200 →
      (Refresh X db c env).2 = touchSession (env.fails .touch) s.ID env.touchTime db) := by
  obtain ⟨u, humem, huid⟩ := huser
  have hsome : (db.users.find? (fun x => x.ID == uid)).isSome := by
    rw [List.find?_isSome]
    exact ⟨u, humem, by simp [huid]⟩
  obtain ⟨user, huser⟩ := Option.isSome_iff_exists.mp hsome
  have hu : user.ID = uid := by
    have := List.find?_some huser
    simpa using this
  unfold Refresh
  simp only [hrefresh, if_false, hclaims, hid, FindOne, hf1, hf2, huser, hsecret, hu, hs,
    Bool.false_eq_true]
  split
  · exact ⟨by simp [ErrorResponse], fun h => by simp [ErrorResponse] at h⟩
  split
  · exact ⟨by simp [ErrorResponse], fun h => by simp [ErrorResponse] at h⟩
  exact ⟨by simp, fun _ => rfl⟩

/-- A `Refresh` request that is not answered 401 presented the secret of a stored,
not revoked session of the account its refresh token names. -/
theorem Refresh_passes_only_if (X : Ext) (db : DB) (c : Ctx) (env : RefreshEnv)
    (h : (Refresh X db c env).1.status ≠ 401) :
    ∃ claims uid session,
      ValidateRefreshToken X (presentedRefresh c) env.now = some claims ∧
      X.ObjectIDFromHex claims.UserID = some uid ∧
      session ∈ db.usersessions ∧ session.UserID = uid ∧
      session.Token = X.HashToken (presentedSecret c) ∧ session.RevokedAt = none := by
  unfold Refresh at h
  simp only [] at h
  split at h
  · exact absurd rfl h
  split at h
  · exact absurd rfl h
  rename_i claims hclaims
  split at h
  · exact absurd rfl h
  rename_i userID huserID
  split at h
  · exact absurd rfl h
  rename_i user huser
  split at h
  · exact absurd rfl h
  split at h
  · exact absurd rfl h
  rename_i session hsession
  obtain ⟨_, huid, _⟩ := FindOne_ok _ _ _ _ huser
  obtain ⟨hsmem, hsf, _⟩ := FindOne_ok _ _ _ _ hsession
  rw [activeSessionFilter_iff] at hsf
  simp only [beq_iff_eq] at huid
  exact ⟨claims, userID, session, hclaims, huserID, hsmem, by rw [hsf.1, huid], hsf.2.1,
    hsf.2.2⟩

/-- A touch at an instant not before the stored `last_active_time` of the session it
names decreases no `last_active_time`. -/
theorem touch_monotone (fail : Bool) (sid : ObjectID) (t : Time) (l : List UserSession)
    (hclock : ∀ x ∈ l, x.ID = sid → x.LastActiveTime ≤ t) :
    List.Forall₂ (fun a b => a.LastActiveTime ≤ b.LastActiveTime) l
      (UpdateOne fail (fun s => s.ID == sid) (fun s => { s with LastActiveTime := t }) l) := by
  have hrefl : ∀ l : List UserSession,
      List.Forall₂ (fun a b : UserSession => a.LastActiveTime ≤ b.LastActiveTime) l l := by
    intro l
    induction l with
    | nil => exact List.Forall₂.nil
    | cons a rest ih => exact List.Forall₂.cons (le_refl _) ih
  unfold UpdateOne
  cases fail with
  | true => exact hrefl l
  | false =>
    simp only [Bool.false_eq_true, if_false]
    induction l with
    | nil => exact List.Forall₂.nil
    | cons a rest ih =>
      simp only [updateFirst]
      split
      · rename_i ha
        exact List.Forall₂.cons
          (hclock a (List.mem_cons_self _ _) (by simpa using ha)) (hrefl rest)
      · exact List.Forall₂.cons (le_refl _)
          (ih (fun x hx => hclock x (List.mem_cons_of_mem _ hx)))

/-- An update that keeps the identifiers keeps every identifier stored. -/
theorem UpdateOne_keeps_id (fail : Bool) (p : User → Bool) (g : User → User)
    (hg : ∀ a, (g a).ID = (a).ID) (l : List User) (u : User) (hu : u ∈ l) :
    ∃ v ∈ UpdateOne fail p g l, v.ID = u.ID := by
  have hmap : (UpdateOne fail p g l).map (·.ID) = l.map (·.ID) := by
    unfold UpdateOne
    split
    · rfl
    · exact map_updateFirst _ p g hg l
  have : u.ID ∈ (UpdateOne fail p g l).map (·.ID) := by
    rw [hmap]; exact List.mem_map_of_mem _ hu
  obtain ⟨v, hv, hid⟩ := List.mem_map.mp this
  exact ⟨v, hv, hid⟩

/-- Step 5 of `Login` is reached for an account that is stored. -/
theorem loginPath_correct_mem (X : Ext) (db : DB) (c : Ctx) (body : Option LoginRequest)
    (env : LoginEnv) (user : User) (rememberMe : Bool)
    (h : loginPath X db c body env = .correctPassword user rememberMe) : user ∈ db.users := by
  unfold loginPath at h
  repeat' split at h
  all_goals first
    | (cases h; exact (FindOne_ok _ _ _ _ (by assumption)).1)
    | cases h

/-- C12. Round trip. A `Login` answered 200 (its random secret non-empty and its
hash not yet the token of a stored session) returns a secret `s` in `session_token`
and appends exactly one session, whose token is `HashToken s` and which is not
revoked. On the collections it leaves, and on those collections after any touch of
that session, `Protected` (accepted access token of the account, secret `s`, lookup
not failing) goes on with the identifier of that very session, and `Refresh`
(accepted refresh token of the account, secret `s`, lookups not failing) is not
answered 401 and, when it answers 200, touches that very session. A touch at an
instant not before the stored `last_active_time` of the session decreases no
`last_active_time` and changes nothing else of any session. On any collections, a
request whose secret hashes to the token of no stored non-revoked session of the
account its token names is answered 401 by `Protected` and by `Refresh`. -/
theorem c12_session_round_trip (X : Ext) (db : DB) (c : Ctx) (body : Option LoginRequest)
    (env : LoginEnv)
    (h200 : (Login X db c body env).1.status = 200)
    (hfresh : ∀ secret, env.randomToken = some secret →
      secret ≠ "" ∧ ∀ x ∈ db.usersessions, x.Token ≠ X.HashToken secret) :
    ∃ secret sess,
      (Login X db c body env).1.field "session_token" = some (.atom (.str secret)) ∧
      (Login X db c body env).2.usersessions = db.usersessions ++ [sess] ∧
      sess.Token = X.HashToken secret ∧ sess.RevokedAt = none ∧
      (∀ dbv, (dbv = (Login X db c body env).2 ∨
               ∃ fail t, dbv = touchSession fail sess.ID t (Login X db c body env).2) →
        (∀ (pc : Ctx) (penv : ProtectedEnv) (claims : UserClaims),
          accessTokenOf X pc ≠ "" →
          ValidateAccessToken X (accessTokenOf X pc) penv.now = some claims →
          claimedOwner X claims = sess.UserID → presentedSecret pc = secret →
          penv.findFails = false →
          ∃ loc, Protected X dbv pc penv = .next loc sess.ID) ∧
        (∀ (rc : Ctx) (renv : RefreshEnv) (claims : RefreshClaims),
          presentedRefresh rc ≠ "" →
          ValidateRefreshToken X (presentedRefresh rc) renv.now = some claims →
          X.ObjectIDFromHex claims.UserID = some sess.UserID → presentedSecret rc = secret →
          renv.fails .findUser = false → renv.fails .findSession = false →
          (Refresh X dbv rc renv).1.status ≠ 401 ∧
          ((Refresh X dbv rc renv).1.status = 200 →
            (Refresh X dbv rc renv).2
              = touchSession (renv.fails .touch) sess.ID renv.touchTime dbv))) ∧
      (∀ (fail : Bool) (t : Time),
        List.Forall₂ sameButActivity (Login X db c body env).2.usersessions
          (touchSession fail sess.ID t (Login X db c body env).2).usersessions ∧
        ((∀ x ∈ (Login X db c body env).2.usersessions,
            x.ID = sess.ID → x.LastActiveTime ≤ t) →
          List.Forall₂ (fun a b => a.LastActiveTime ≤ b.LastActiveTime)
            (Login X db c body env).2.usersessions
            (touchSession fail sess.ID t (Login X db c body env).2).usersessions)) ∧
      (∀ (db2 : DB) (pc : Ctx) (penv : ProtectedEnv),
        (∀ claims, ValidateAccessToken X (accessTokenOf X pc) penv.now = some claims →
          ∀ s ∈ db2.usersessions, ¬ (s.UserID = claimedOwner X claims ∧
            s.Token = X.HashToken (presentedSecret pc) ∧ s.RevokedAt = none)) →
        ∃ r, Protected X db2 pc penv = .reject r ∧ r.status = 401) ∧
      (∀ (db2 : DB) (rc : Ctx) (renv : RefreshEnv),
        (∀ claims uid, ValidateRefreshToken X (presentedRefresh rc) renv.now = some claims →
          X.ObjectIDFromHex claims.UserID = some uid →
          ∀ s ∈ db2.usersessions, ¬ (s.UserID = uid ∧
            s.Token = X.HashToken (presentedSecret rc) ∧ s.RevokedAt = none)) →
        (Refresh X db2 rc renv).1.status = 401) := by
  obtain ⟨user, rememberMe, hpath, hlogin⟩ := Login_ok_path X db c body env h200
  rw [hlogin] at h200
  obtain ⟨secret, hrand, hfield, hsess, _⟩ :=
    loginSuccess_ok X db env (GetClientIP c) c.UserAgent user rememberMe h200
  obtain ⟨hne, hnew⟩ := hfresh secret hrand
  have humem := loginPath_correct_mem X db c body env user rememberMe hpath
  have husers := loginSuccess_users X db env (GetClientIP c) c.UserAgent user rememberMe
  rw [hlogin]
  generalize loginSuccess X db env (GetClientIP c) c.UserAgent user rememberMe = out at *
  let sess : UserSession :=
    { ID := env.newID .insertSession, UserID := user.ID, Token := X.HashToken secret,
      IPAddress := GetClientIP c, UserAgent := c.UserAgent, LoginTime := env.now,
      LastActiveTime := env.now, RevokedAt := none }
  have hfind0 : out.2.usersessions.find? (activeSessionFilter sess.UserID sess.Token)
      = some sess := by
    rw [hsess]
    exact find_active_appended db.usersessions sess hnew rfl
  have huser0 : ∃ u ∈ out.2.users, u.ID = user.ID := by
    rw [husers]
    exact UpdateOne_keeps_id _ _ _ (by intro a; rfl) db.users user humem
  refine ⟨secret, sess, hfield, hsess, rfl, rfl, ?_, ?_, ?_, ?_⟩
  · intro dbv hdbv
    have hfindv : ∃ s, dbv.usersessions.find? (activeSessionFilter sess.UserID sess.Token)
        = some s ∧ s.ID = sess.ID := by
      rcases hdbv with h | ⟨fail, t, h⟩
      · rw [h]; exact ⟨sess, hfind0, rfl⟩
      · rw [h]
        obtain ⟨s, h1, h2⟩ := find_active_congr sess.UserID sess.Token _ _
          (touch_sameButActivity fail (fun s => s.ID == sess.ID) t out.2.usersessions)
          sess hfind0
        exact ⟨s, h1, h2.1⟩
    have huserv : ∃ u ∈ dbv.users, u.ID = user.ID := by
      rcases hdbv with h | ⟨fail, t, h⟩
      · rw [h]; exact huser0
      · rw [h]; exact huser0
    obtain ⟨s, hs, hsid⟩ := hfindv
    constructor
    · intro pc penv claims htok hclaims howner hsecret hff
      rw [← hsid]
      refine Protected_finds X dbv pc penv claims s htok hclaims (by rw [hsecret]; exact hne)
        hff ?_
      rw [howner, hsecret]; exact hs
    · intro rc renv claims hrefresh hclaims hid hsecret hf1 hf2
      rw [← hsid]
      refine Refresh_finds X dbv rc renv claims sess.UserID s hrefresh hclaims hid huserv
        hf1 hf2 (by rw [hsecret]; exact hne) ?_
      rw [hsecret]; exact hs
  · intro fail t
    exact ⟨touch_sameButActivity fail _ t _, fun hclock => touch_monotone fail _ t _ hclock⟩
  · intro db2 pc penv hno
    cases hg : Protected X db2 pc penv with
    | reject r => exact ⟨r, rfl, Protected_reject_401 X db2 pc penv r hg⟩
    | next loc sid =>
      obtain ⟨_, _, claims, session, hclaims, hmem, hrev, htoken, howner, _⟩ :=
        Protected_next_only_if X db2 pc penv loc sid hg
      exact absurd ⟨howner, htoken, hrev⟩ (hno claims hclaims session hmem)
  · intro db2 rc renv hno
    by_contra h
    obtain ⟨claims, uid, session, hclaims, hid, hmem, howner, htoken, hrev⟩ :=
      Refresh_passes_only_if X db2 rc renv h
    exact hno claims uid hclaims hid session hmem ⟨howner, htoken, hrev⟩

/-- C12 at a sample run: `alice` logs in at instant 100 and is given the secret `s9`;
the session stored for it has identifier 100, and `Protected` finds that session for
the secret both right after the login and after a touch at instant 150, while the
never-issued secret `s8` is answered 401. -/
theorem c12_witness :
    (Login plainExt sessionDB { IP := "1.2.3.4" }
      (some { Username := "alice", Password := "secret", RememberMe := false })
      (loginEnvAt 100 "s9")).1.status = 200 ∧
    (∃ loc, Protected plainExt
      (Login plainExt sessionDB { IP := "1.2.3.4" }
        (some { Username := "alice", Password := "secret", RememberMe := false })
        (loginEnvAt 100 "s9")).2
      { Authorization := "Bearer access:alice", sessionCookie := "s9" } (protectedEnvAt 120)
        = .next loc 100) ∧
    (∃ loc, Protected plainExt
      (touchSession false 100 150 (Login plainExt sessionDB { IP := "1.2.3.4" }
        (some { Username := "alice", Password := "secret", RememberMe := false })
        (loginEnvAt 100 "s9")).2)
      { Authorization := "Bearer access:alice", sessionCookie := "s9" } (protectedEnvAt 200)
        = .next loc 100) ∧
    (∃ r, Protected plainExt
      (Login plainExt sessionDB { IP := "1.2.3.4" }
        (some { Username := "alice", Password := "secret", RememberMe := false })
        (loginEnvAt 100 "s9")).2
      { Authorization := "Bearer access:alice", sessionCookie := "s8" } (protectedEnvAt 120)
        = .reject r ∧ r.status = 401) := by
  obtain ⟨secret, sess, hfield, hsess, _, _, hval, _, hno, _⟩ :=
    c12_session_round_trip plainExt sessionDB { IP := "1.2.3.4" }
      (some { Username := "alice", Password := "secret", RememberMe := false })
      (loginEnvAt 100 "s9") (by decide)
      (by intro secret h; cases h; exact ⟨by decide, by decide⟩)
  have hsecret : secret = "s9" := by
    have h0 : (Login plainExt sessionDB { IP := "1.2.3.4" }
        (some { Username := "alice", Password := "secret", RememberMe := false })
        (loginEnvAt 100 "s9")).1.field "session_token" = some (.atom (.str "s9")) := by decide
    rw [h0] at hfield
    simpa using hfield.symm
  have hs : sess = aliceSession9 := by
    have h0 : (Login plainExt sessionDB { IP := "1.2.3.4" }
        (some { Username := "alice", Password := "secret", RememberMe := false })
        (loginEnvAt 100 "s9")).2.usersessions = sessionDB.usersessions ++ [aliceSession9] := by
      decide
    rw [h0] at hsess
    simpa using (List.append_cancel_left hsess).symm
  subst hsecret
  subst hs
  refine ⟨by decide, ?_, ?_, ?_⟩
  · exact (hval _ (Or.inl rfl)).1
      { Authorization := "Bearer access:alice", sessionCookie := "s9" } (protectedEnvAt 120)
      aliceClaims (by decide) (by decide) (by decide) (by decide) rfl
  · exact (hval _ (Or.inr ⟨false, 150, rfl⟩)).1
      { Authorization := "Bearer access:alice", sessionCookie := "s9" } (protectedEnvAt 200)
      aliceClaims (by decide) (by decide) (by decide) (by decide) rfl
  · exact hno _ { Authorization := "Bearer access:alice", sessionCookie := "s8" }
      (protectedEnvAt 120) (by
        intro claims hclaims
        have hc : claims = aliceClaims := by
          have h0 : ValidateAccessToken plainExt (accessTokenOf plainExt
              { Authorization := "Bearer access:alice", sessionCookie := "s8" })
              (protectedEnvAt 120).now = some aliceClaims := by decide
          rw [h0] at hclaims
          simpa using hclaims.symm
        subst hc
        decide)

/-! ## A failed IP-lock lookup -/

/-- C13, counterexample. Address 1.2.3.4 is locked until 5000. At instant 100 the
IP-lock lookup fails: a request from that address with the password of `alice` is
answered 200 with tokens and a new session, where the same request with a working
lookup is answered 429. -/
theorem c13_counterexample :
    (∃ a ∈ lockedDB.loginattempts, activeIpLock "1.2.3.4" 100 a) ∧
    (ipLookupDownEnv 100 "s9").fails .findIpLock = true ∧
    (Login plainExt lockedDB { IP := "1.2.3.4" }
      (some { Username := "alice", Password := "secret", RememberMe := false })
      (ipLookupDownEnv 100 "s9")).1.status = 200 ∧
    (Login plainExt lockedDB { IP := "1.2.3.4" }
      (some { Username := "alice", Password := "secret", RememberMe := false })
      (ipLookupDownEnv 100 "s9")).1.field "access_token"
        = some (.atom (.str "access:alice")) ∧
    (Login plainExt lockedDB { IP := "1.2.3.4" }
      (some { Username := "alice", Password := "secret", RememberMe := false })
      (ipLookupDownEnv 100 "s9")).1.field "session_token" = some (.atom (.str "s9")) ∧
    (Login plainExt lockedDB { IP := "1.2.3.4" }
      (some { Username := "alice", Password := "secret", RememberMe := false })
      (ipLookupDownEnv 100 "s9")).2.usersessions = [aliceSession9] ∧
    (Login plainExt lockedDB { IP := "1.2.3.4" }
      (some { Username := "alice", Password := "secret", RememberMe := false })
      (loginEnvAt 100 "s9")).1.status = 429 := by
  refine ⟨⟨mkAttempt "1.2.3.4" "ip_locked" 20 (some 5000), by decide, rfl, rfl, 5000, rfl,
    by decide⟩, by decide, by decide, by decide, by decide, by decide, by decide⟩

/-- C13, amended. When the IP-lock lookup of step 1 fails, `Login` (credentials
present) treats the address as not locked, whatever locks are stored: it never
answers from step 1 and goes on with the account lookup, then the lock check, the
password check and the issue of tokens and session of steps 2 to 5. -/
theorem c13_failed_ip_lookup_goes_on (X : Ext) (db : DB) (c : Ctx) (req : LoginRequest)
    (env : LoginEnv) (hfail : env.fails .findIpLock = true)
    (huser : loginHandle X req ≠ "") (hpw : req.Password ≠ "") :
    (∀ lock, loginPath X db c (some req) env ≠ .ipLocked lock) ∧
    Login X db c (some req) env =
      match FindOne (env.fails .findUser) (fun u => u.Username == loginHandle X req)
          db.users with
      | .error _ => loginUnknownUser db env (GetClientIP c) c.UserAgent (loginHandle X req)
      | .ok user =>
        if dateGt user.LockoutUntil env.now then
          loginLocked db env (GetClientIP c) c.UserAgent user
        else if !X.CheckPasswordHash req.Password user.Password then
          loginWrongPassword db env (GetClientIP c) c.UserAgent user
        else loginSuccess X db env (GetClientIP c) c.UserAgent user req.RememberMe := by
  constructor
  · intro lock h
    unfold loginPath at h
    simp only [huser, hpw, or_self, if_false, FindOneSortDesc, hfail, if_true] at h
    repeat' split at h
    all_goals cases h
  · unfold loginHandle at huser ⊢
    simp only [Login, huser, hpw, or_self, if_false, FindOneSortDesc, hfail, if_true]

/-- C13 at a sample run: with the IP-lock lookup failing, the request of `alice`
from the locked address 1.2.3.4 is served by step 5. -/
theorem c13_witness :
    (ipLookupDownEnv 100 "s9").fails .findIpLock = true ∧
    Login plainExt lockedDB { IP := "1.2.3.4" }
      (some { Username := "alice", Password := "secret", RememberMe := false })
      (ipLookupDownEnv 100 "s9")
      = loginSuccess plainExt lockedDB (ipLookupDownEnv 100 "s9") "1.2.3.4" ""
          (mkUser 1 "alice" "pw:secret" 0 none) false := by
  refine ⟨by decide, ?_⟩
  rw [(c13_failed_ip_lookup_goes_on plainExt lockedDB { IP := "1.2.3.4" }
    { Username := "alice", Password := "secret", RememberMe := false }
    (ipLookupDownEnv 100 "s9") (by decide) (by decide) (by decide)).2]
  rfl

/-! ## The login-attempt ledger -/

/-- C14, counterexample. A request from the locked address 1.2.3.4 is answered 429
by step 1 and appends no record; the fifth unknown-user attempt of an address within
the hour is answered 429 and appends two records, `user_not_found` and `ip_locked`. -/
theorem c14_counterexample :
    (Login plainExt lockedDB { IP := "1.2.3.4" }
      (some { Username := "alice", Password := "secret", RememberMe := false })
      (loginEnvAt 100 "s9")).1.status = 429 ∧
    (Login plainExt lockedDB { IP := "1.2.3.4" }
      (some { Username := "alice", Password := "secret", RememberMe := false })
      (loginEnvAt 100 "s9")).2.loginattempts = lockedDB.loginattempts ∧
    (Login plainExt unknownDB { IP := "1.2.3.4" }
      (some { Username := "mallory", Password := "x", RememberMe := false })
      (loginEnvAt (Hour + 10) "s9")).1.status = 429 ∧
    (Login plainExt unknownDB { IP := "1.2.3.4" }
      (some { Username := "mallory", Password := "x", RememberMe := false })
      (loginEnvAt (Hour + 10) "s9")).2.loginattempts.length
        = unknownDB.loginattempts.length + 2 ∧
    ((Login plainExt unknownDB { IP := "1.2.3.4" }
      (some { Username := "mallory", Password := "x", RememberMe := false })
      (loginEnvAt (Hour + 10) "s9")).2.loginattempts.drop unknownDB.loginattempts.length).map
        (·.Outcome) = ["user_not_found", "ip_locked"] := by
  refine ⟨by decide, by decide, by decide, by decide, by decide⟩

/-- C14, amended. With every persistence call succeeding, `Login` appends to the
ledger: nothing when the body is not parsed, a credential is missing or step 1 finds
an active IP lock; one `user_not_found` record when the account is unknown, followed
by an `ip_locked` record exactly when the answer is the 429 of the escalation; one
`locked` record when the account is locked; one `invalid_password` record when the
password is wrong; one `success` record when a correct password is answered 200, and
nothing when it is answered 500. Nothing else of the ledger changes. -/
theorem c14_ledger_records (X : Ext) (db : DB) (c : Ctx) (body : Option LoginRequest)
    (env : LoginEnv) (hf : ∀ k, env.fails k = false) :
    ∃ added, (Login X db c body env).2.loginattempts = db.loginattempts ++ added ∧
      match loginPath X db c body env with
      | .badBody => added = []
      | .missingCredentials => added = []
      | .ipLocked _ => added = []
      | .unknownUser _ =>
        ((Login X db c body env).1.status = 401 ∧ added.map (·.Outcome) = ["user_not_found"]) ∨
        ((Login X db c body env).1.status = 429 ∧
          added.map (·.Outcome) = ["user_not_found", "ip_locked"])
      | .accountLocked _ => added.map (·.Outcome) = ["locked"]
      | .wrongPassword _ => added.map (·.Outcome) = ["invalid_password"]
      | .correctPassword _ _ =>
        ((Login X db c body env).1.status = 200 ∧ added.map (·.Outcome) = ["success"]) ∨
        ((Login X db c body env).1.status = 500 ∧ added = []) := by
  rw [Login_by_path X db c body env]
  cases loginPath X db c body env with
  | badBody => exact ⟨[], by simp, rfl⟩
  | missingCredentials => exact ⟨[], by simp, rfl⟩
  | ipLocked lock => exact ⟨[], by simp, rfl⟩
  | unknownUser handle =>
    simp only [loginUnknownUser, InsertOne, hf, Bool.false_eq_true, if_false]
    split
    · exact ⟨_, List.append_assoc _ _ _, Or.inr ⟨rfl, rfl⟩⟩
    · exact ⟨[_], rfl, Or.inl ⟨rfl, rfl⟩⟩
  | accountLocked user =>
    simp only [loginLocked, InsertOne, hf, Bool.false_eq_true, if_false]
    exact ⟨[_], rfl, rfl⟩
  | wrongPassword user =>
    simp only [loginWrongPassword, InsertOne, hf, Bool.false_eq_true, if_false]
    exact ⟨[_], rfl, rfl⟩
  | correctPassword user rememberMe =>
    simp only [loginSuccess, InsertOne, hf, Bool.false_eq_true, if_false]
    split
    · exact ⟨[], by simp, Or.inr ⟨rfl, rfl⟩⟩
    split
    · exact ⟨[], by simp, Or.inr ⟨rfl, rfl⟩⟩
    split
    · exact ⟨[], by simp, Or.inr ⟨rfl, rfl⟩⟩
    exact ⟨[_], rfl, Or.inl ⟨rfl, rfl⟩⟩

/-- C14 at a sample run: a wrong password for `alice` appends one record. -/
theorem c14_witness :
    (∀ k, (loginEnvAt 100 "s9").fails k = false) ∧
    ∃ added, (Login plainExt sampleDB { IP := "1.2.3.4" }
        (some { Username := "alice", Password := "guess", RememberMe := false })
        (loginEnvAt 100 "s9")).2.loginattempts = sampleDB.loginattempts ++ added ∧
      added.map (·.Outcome) = ["invalid_password"] := by
  refine ⟨fun _ => rfl, ?_⟩
  have h := c14_ledger_records plainExt sampleDB { IP := "1.2.3.4" }
    (some { Username := "alice", Password := "guess", RememberMe := false })
    (loginEnvAt 100 "s9") (fun _ => rfl)
  have hp : loginPath plainExt sampleDB { IP := "1.2.3.4" }
      (some { Username := "alice", Password := "guess", RememberMe := false })
      (loginEnvAt 100 "s9") = .wrongPassword (mkUser 1 "alice" "pw:secret" 0 none) := by
    decide
  rw [hp] at h
  exact h

/-! ## The wrong-password step -/

/-- Step 4 of `Login` is reached for an account that is stored. -/
theorem loginPath_wrong_mem (X : Ext) (db : DB) (c : Ctx) (body : Option LoginRequest)
    (env : LoginEnv) (user : User)
    (h : loginPath X db c body env = .wrongPassword user) : user ∈ db.users := by
  unfold loginPath at h
  repeat' split at h
  all_goals first
    | (cases h; exact (FindOne_ok _ _ _ _ (by assumption)).1)
    | cases h

/-- C15, counterexample. `alice` has nine failures counted; a wrong password at
instant 100 brings the counter to 10 and locks the account (answer 423, account
locked until ten minutes later), and the record appended for the attempt has outcome
`invalid_password`, not `locked`. -/
theorem c15_counterexample :
    (Login plainExt nineDB { IP := "1.2.3.4" }
      (some { Username := "alice", Password := "guess", RememberMe := false })
      (loginEnvAt 100 "s9")).1.status = 423 ∧
    (Login plainExt nineDB { IP := "1.2.3.4" }
      (some { Username := "alice", Password := "guess", RememberMe := false })
      (loginEnvAt 100 "s9")).2.users
        = [mkUser 1 "alice" "pw:secret" 0 (some (100 + 10 * Minute))] ∧
    (Login plainExt nineDB { IP := "1.2.3.4" }
      (some { Username := "alice", Password := "guess", RememberMe := false })
      (loginEnvAt 100 "s9")).2.loginattempts.map (·.Outcome) = ["invalid_password"] ∧
    ("invalid_password" : String) ≠ "locked" := by
  refine ⟨by decide, by decide, by decide, by decide⟩

/-- C15, amended. The record appended for a wrong-password attempt (the insert
succeeding) has outcome `invalid_password` whether or not the attempt locks the
account. When the attempt brings the counter to 10 or more, the answer is 423 and the
record carries `lockout_until = now + 10 min` and `attempts_remaining = 0`; otherwise
the answer is 401 and the record carries no `lockout_until`. -/
theorem c15_wrong_password_record (X : Ext) (db : DB) (c : Ctx) (body : Option LoginRequest)
    (env : LoginEnv) (user : User)
    (hpath : loginPath X db c body env = .wrongPassword user)
    (hins : env.fails .insertInvalid = false) :
    ∃ r, (Login X db c body env).2.loginattempts = db.loginattempts ++ [r] ∧
      r.Outcome = "invalid_password" ∧ r.UserID = some user.ID ∧ r.AttemptTime = env.now ∧
      (wrapInt64 (user.FailedLoginAttempts + 1) ≥ 10 →
        (Login X db c body env).1.status = 423 ∧
        r.LockoutUntil = some (env.now + 10 * Minute) ∧ r.AttemptsRemaining = some 0) ∧
      (wrapInt64 (user.FailedLoginAttempts + 1) < 10 →
        (Login X db c body env).1.status = 401 ∧ r.LockoutUntil = none) := by
  rw [Login_by_path X db c body env, hpath]
  simp only [loginWrongPassword, InsertOne, hins, Bool.false_eq_true, if_false]
  refine ⟨_, rfl, rfl, rfl, rfl, ?_, ?_⟩
  · intro h
    simp only [h, decide_True, if_true]
    exact ⟨trivial, trivial, trivial⟩
  · intro h
    have h2 : ¬ (wrapInt64 (user.FailedLoginAttempts + 1) ≥ 10) := by omega
    simp only [h2, decide_False, if_false, Bool.false_eq_true]
    exact ⟨trivial, trivial⟩

/-- C15 at a sample run: the tenth wrong password for `alice`. -/
theorem c15_witness :
    loginPath plainExt nineDB { IP := "1.2.3.4" }
      (some { Username := "alice", Password := "guess", RememberMe := false })
      (loginEnvAt 100 "s9") = .wrongPassword (mkUser 1 "alice" "pw:secret" 9 none) ∧
    ∃ r, (Login plainExt nineDB { IP := "1.2.3.4" }
        (some { Username := "alice", Password := "guess", RememberMe := false })
        (loginEnvAt 100 "s9")).2.loginattempts = nineDB.loginattempts ++ [r] ∧
      r.Outcome = "invalid_password" ∧ r.LockoutUntil = some (100 + 10 * Minute) := by
  obtain ⟨r, h1, h2, _, _, h3, _⟩ := c15_wrong_password_record plainExt nineDB
    { IP := "1.2.3.4" } (some { Username := "alice", Password := "guess", RememberMe := false })
    (loginEnvAt 100 "s9") (mkUser 1 "alice" "pw:secret" 9 none) (by decide) rfl
  exact ⟨by decide, r, h1, h2, (h3 (by decide)).2.1⟩

/-! ## The failure counter -/

/-- After an update by identifier that succeeds, of a stored document, in a
collection with unique identifiers, the lookup by that identifier returns the
updated document. -/
theorem find_updated_by_id (g : User → User) (hg : ∀ a, (g a).ID = a.ID) (l : List User)
    (u : User) (hmem : u ∈ l) (hids : (l.map (·.ID)).Nodup) :
    FindOne false (fun x => x.ID == u.ID) (UpdateOne false (fun x => x.ID == u.ID) g l)
      = .ok (g u) := by
  have hfindI := find_of_mem_nodup (fun x : User => x.ID) l u hmem hids
  have hmem2 := mem_updateFirst (fun x : User => x.ID == u.ID) g l u hfindI
  have hids2 := map_updateFirst (fun x : User => x.ID) (fun x : User => x.ID == u.ID) g hg l
  have hfinal := find_of_mem_nodup (fun x : User => x.ID) _ _ hmem2 (by rw [hids2]; exact hids)
  simp only [hg] at hfinal
  simp only [FindOne, UpdateOne, Bool.false_eq_true, if_false]
  rw [hfinal]

/-- Step 4 of `Login` is reached for an account that is not locked at the request
time. -/
theorem loginPath_wrong_unlocked (X : Ext) (db : DB) (c : Ctx) (body : Option LoginRequest)
    (env : LoginEnv) (user : User)
    (h : loginPath X db c body env = .wrongPassword user) :
    dateGt user.LockoutUntil env.now = false := by
  unfold loginPath at h
  repeat' split at h
  all_goals first
    | (cases h; simpa using (by assumption : ¬ dateGt _ _ = true))
    | cases h

/-- C16. With unique account identifiers: a wrong-password `Login` (reached only for
an account not locked at the request time) on an account with stored counter `c`,
the update succeeding, stores for that account the counter `c + 1` (in 64-bit
arithmetic) when that is below 10 and 0 otherwise, together with a lockout of ten
minutes in the second case; for `c` in the range where `c + 1` does not overflow
the stored counter is `c + 1` when `c + 1 < 10` and 0 otherwise. A `Login` with the
correct password, the update succeeding, stores counter 0 and no lockout. On every
other path (body not parsed, credential missing, IP lock, unknown account, locked
account) the accounts are left as they were. -/
theorem c16_counter_transitions (X : Ext) (db : DB) (c : Ctx) (body : Option LoginRequest)
    (env : LoginEnv) (hids : (db.users.map (·.ID)).Nodup) :
    match loginPath X db c body env with
    | .wrongPassword user =>
      dateGt user.LockoutUntil env.now = false ∧
      (env.fails .updateFailed = false →
        FindOne false (fun x => x.ID == user.ID) (Login X db c body env).2.users
          = .ok { user with
              FailedLoginAttempts :=
                if wrapInt64 (user.FailedLoginAttempts + 1) < 10 then
                  wrapInt64 (user.FailedLoginAttempts + 1)
                else 0,
              LockoutUntil :=
                if wrapInt64 (user.FailedLoginAttempts + 1) < 10 then user.LockoutUntil
                else some (env.now + 10 * Minute) } ∧
        (-9223372036854775808 ≤ user.FailedLoginAttempts →
          user.FailedLoginAttempts < 9223372036854775807 →
          ∃ stored,
            FindOne false (fun x => x.ID == user.ID) (Login X db c body env).2.users
              = .ok stored ∧
            stored.FailedLoginAttempts =
              if user.FailedLoginAttempts + 1 < 10 then user.FailedLoginAttempts + 1 else 0))
    | .correctPassword user _ =>
      env.fails .updateReset = false →
        FindOne false (fun x => x.ID == user.ID) (Login X db c body env).2.users
          = .ok { user with FailedLoginAttempts := 0, LockoutUntil := none }
    | .badBody => (Login X db c body env).2.users = db.users
    | .missingCredentials => (Login X db c body env).2.users = db.users
    | .ipLocked _ => (Login X db c body env).2.users = db.users
    | .unknownUser _ => (Login X db c body env).2.users = db.users
    | .accountLocked _ => (Login X db c body env).2.users = db.users := by
  have hlogin := Login_by_path X db c body env
  cases hpath : loginPath X db c body env with
  | badBody => rw [hpath] at hlogin; simp only [hlogin]
  | missingCredentials => rw [hpath] at hlogin; simp only [hlogin]
  | ipLocked lock => rw [hpath] at hlogin; simp only [hlogin]
  | unknownUser handle =>
    rw [hpath] at hlogin
    simp only [hlogin, loginUnknownUser]
    split <;> rfl
  | accountLocked user => rw [hpath] at hlogin; simp only [hlogin, loginLocked]
  | wrongPassword user =>
    rw [hpath] at hlogin
    have hmem := loginPath_wrong_mem X db c body env user hpath
    refine ⟨loginPath_wrong_unlocked X db c body env user hpath, ?_⟩
    intro hf
    have hstored : FindOne false (fun x => x.ID == user.ID) (Login X db c body env).2.users
        = .ok { user with
            FailedLoginAttempts :=
              if wrapInt64 (user.FailedLoginAttempts + 1) < 10 then
                wrapInt64 (user.FailedLoginAttempts + 1)
              else 0,
            LockoutUntil :=
              if wrapInt64 (user.FailedLoginAttempts + 1) < 10 then user.LockoutUntil
              else some (env.now + 10 * Minute) } := by
      simp only [hlogin, loginWrongPassword, hf]
      by_cases hlt : wrapInt64 (user.FailedLoginAttempts + 1) < 10
      · have hge : ¬ (wrapInt64 (user.FailedLoginAttempts + 1) ≥ 10) := by omega
        simp only [hlt, hge, decide_False, if_true, if_false, Bool.false_eq_true]
        exact find_updated_by_id _ (by intro a; rfl) db.users user hmem hids
      · have hge : wrapInt64 (user.FailedLoginAttempts + 1) ≥ 10 := by omega
        simp only [hlt, hge, decide_True, if_true, if_false]
        exact find_updated_by_id _ (by intro a; rfl) db.users user hmem hids
    refine ⟨hstored, ?_⟩
    intro h1 h2
    refine ⟨_, hstored, ?_⟩
    simp only [wrapInt64_small _ (show -9223372036854775808 ≤ user.FailedLoginAttempts + 1 by
      omega) (show user.FailedLoginAttempts + 1 < 9223372036854775808 by omega)]
  | correctPassword user rememberMe =>
    rw [hpath] at hlogin
    intro hf
    have hmem := loginPath_correct_mem X db c body env user rememberMe hpath
    rw [hlogin, loginSuccess_users, hf]
    exact find_updated_by_id _ (by intro a; rfl) db.users user hmem hids

/-- C16 at a sample run: the fourth wrong password for `bob`, whose lockout ended
at instant 500, stores counter 4. -/
theorem c16_witness :
    (sampleDB.users.map (·.ID)).Nodup ∧
    FindOne false (fun x => x.ID == 2)
      (Login plainExt sampleDB { IP := "1.2.3.4" }
        (some { Username := "bob", Password := "guess", RememberMe := false })
        (loginEnvAt 600 "s9")).2.users
      = .ok (mkUser 2 "bob" "pw:hunter22" 4 (some 500)) := by
  have h := c16_counter_transitions plainExt sampleDB { IP := "1.2.3.4" }
    (some { Username := "bob", Password := "guess", RememberMe := false })
    (loginEnvAt 600 "s9") (by decide)
  have hp : loginPath plainExt sampleDB { IP := "1.2.3.4" }
      (some { Username := "bob", Password := "guess", RememberMe := false })
      (loginEnvAt 600 "s9") = .wrongPassword (mkUser 2 "bob" "pw:hunter22" 3 (some 500)) := by
    decide
  rw [hp] at h
  exact ⟨by decide, (h.2 rfl).1⟩

/-! ## Deleting an account -/

/-- C17, evaluation. The admin handler `DeleteUser` on the account of `alice`
(identifier 1, hex `f`) answers 200 and removes the account, and leaves every
session as it was: session 11 of `alice` is still not revoked, and `Protected` still
lets a request with her access token and the secret `s1` through. `DeleteAccount` by
`alice` herself on the same collections revokes session 11 and `Protected` answers
that request 401. -/
theorem c17_admin_delete_keeps_sessions :
    (DeleteUser plainExt sessionDB "f" false).1.status = 200 ∧
    (DeleteUser plainExt sessionDB "f" false).2.users = [mkUser 2 "bob" "pw:hunter22" 0 none] ∧
    (DeleteUser plainExt sessionDB "f" false).2.usersessions = sessionDB.usersessions ∧
    mkSession 11 1 "sha:s1" none ∈ (DeleteUser plainExt sessionDB "f" false).2.usersessions ∧
    (mkSession 11 1 "sha:s1" none).RevokedAt = none ∧
    Protected plainExt (DeleteUser plainExt sessionDB "f" false).2
      { Authorization := "Bearer access:alice", sessionCookie := "s1" } (protectedEnvAt 200)
        = .next aliceLocals 11 ∧
    (DeleteAccount plainExt sessionDB (some { Password := "secret" }) aliceLocals
      (deleteEnvAt 100)).1.status = 200 ∧
    (DeleteAccount plainExt sessionDB (some { Password := "secret" }) aliceLocals
      (deleteEnvAt 100)).2.usersessions
        = [revokeAt 100 (mkSession 11 1 "sha:s1" none), mkSession 12 1 "sha:s2" (some 40),
           mkSession 21 2 "sha:s3" none] ∧
    (Protected plainExt
      (DeleteAccount plainExt sessionDB (some { Password := "secret" }) aliceLocals
        (deleteEnvAt 100)).2
      { Authorization := "Bearer access:alice", sessionCookie := "s1" }
      (protectedEnvAt 200)).response.map (·.status) = some 401 := by
  refine ⟨by decide, by decide, by decide, by decide, by decide, by decide, by decide,
    by decide, by decide⟩

/-! ## The frame of Refresh -/

/-- A `Refresh` answered 200 found a stored, not revoked session for the presented
secret, touched the session with that identifier and set the cookies with the
presented secret. -/
theorem Refresh_ok (X : Ext) (db : DB) (c : Ctx) (env : RefreshEnv)
    (h200 : (Refresh X db c env).1.status = 200) :
    ∃ (claims : RefreshClaims) (session : UserSession) (access refresh : String),
      session ∈ db.usersessions ∧ session.Token = X.HashToken (presentedSecret c) ∧
      session.RevokedAt = none ∧
      (Refresh X db c env).2 = touchSession (env.fails .touch) session.ID env.touchTime db ∧
      (Refresh X db c env).1.cookies
        = SetAuthCookies X env.cookieTime access refresh (presentedSecret c)
            claims.RememberMe := by
  unfold Refresh at h200 ⊢
  simp only [] at h200 ⊢
  split at h200
  · simp [ErrorResponse] at h200
  rename_i hrefresh
  split at h200
  · simp [ErrorResponse] at h200
  rename_i claims hclaims
  split at h200
  · simp [ErrorResponse] at h200
  rename_i userID huserID
  split at h200
  · simp [ErrorResponse] at h200
  rename_i user huser
  split at h200
  · simp [ErrorResponse] at h200
  rename_i hsecret
  split at h200
  · simp [ErrorResponse] at h200
  rename_i session hsession
  split at h200
  · simp [ErrorResponse] at h200
  rename_i access haccess
  split at h200
  · simp [ErrorResponse] at h200
  rename_i refresh hrefreshTok
  obtain ⟨hsmem, hsf, _⟩ := FindOne_ok _ _ _ _ hsession
  rw [activeSessionFilter_iff] at hsf
  simp only [hrefresh, if_false, hclaims, huserID, huser, hsecret, hsession, haccess,
    hrefreshTok]
  exact ⟨claims, session, access, refresh, hsmem, hsf.2.1, hsf.2.2, rfl, rfl⟩

/-- In a collection with unique identifiers, an update by the identifier of a stored
document changes that document at most. -/
theorem forall2_update_by_id (fail : Bool) (g : UserSession → UserSession)
    (l : List UserSession) (s : UserSession) (hmem : s ∈ l)
    (hids : (l.map (·.ID)).Nodup) :
    List.Forall₂ (fun a b => b = a ∨ (a = s ∧ b = g a)) l
      (UpdateOne fail (fun x => x.ID == s.ID) g l) := by
  have huniq : ∀ a ∈ l, a.ID = s.ID → a = s := fun a ha hid =>
    List.inj_on_of_nodup_map hids ha hmem hid
  have hrefl : ∀ l : List UserSession,
      List.Forall₂ (fun a b => b = a ∨ (a = s ∧ b = g a)) l l := by
    intro l
    induction l with
    | nil => exact List.Forall₂.nil
    | cons a rest ih => exact List.Forall₂.cons (Or.inl rfl) ih
  unfold UpdateOne
  cases fail with
  | true => exact hrefl l
  | false =>
    simp only [Bool.false_eq_true, if_false]
    clear hmem hids
    induction l with
    | nil => exact List.Forall₂.nil
    | cons a rest ih =>
      simp only [updateFirst]
      split
      · rename_i ha
        exact List.Forall₂.cons
          (Or.inr ⟨huniq a (List.mem_cons_self _ _) (by simpa using ha), rfl⟩) (hrefl rest)
      · exact List.Forall₂.cons (Or.inl rfl)
          (ih (fun x hx => huniq x (List.mem_cons_of_mem _ hx)))

/-- C18. A `Refresh` answered 200, on sessions with unique identifiers, validated a
stored, not revoked session whose token is the hash of the presented secret; it
leaves as many sessions as there were, each at its place and unchanged, except that
the validated session may have got `last_active_time` set to the touch instant;
it changes no other collection; and the `session_token` cookie it sets carries the
presented secret. -/
theorem c18_refresh_frame (X : Ext) (db : DB) (c : Ctx) (env : RefreshEnv)
    (h200 : (Refresh X db c env).1.status = 200)
    (hids : (db.usersessions.map (·.ID)).Nodup) :
    ∃ session, session ∈ db.usersessions ∧
      session.Token = X.HashToken (presentedSecret c) ∧ session.RevokedAt = none ∧
      (Refresh X db c env).2.usersessions.length = db.usersessions.length ∧
      List.Forall₂
        (fun a b => b = a ∨ (a = session ∧ b = { a with LastActiveTime := env.touchTime }))
        db.usersessions (Refresh X db c env).2.usersessions ∧
      (Refresh X db c env).2.users = db.users ∧
      (Refresh X db c env).2.loginattempts = db.loginattempts ∧
      (Refresh X db c env).2.registrationattempts = db.registrationattempts ∧
      (Refresh X db c env).2.relapselogs = db.relapselogs ∧
      (∃ k ∈ (Refresh X db c env).1.cookies, k.Name = "session_token") ∧
      (∀ k ∈ (Refresh X db c env).1.cookies,
        k.Name = "session_token" → k.Value = presentedSecret c) := by
  obtain ⟨claims, session, access, refresh, hmem, htoken, hrev, hdb, hcookies⟩ :=
    Refresh_ok X db c env h200
  have hall := forall2_update_by_id (env.fails .touch)
    (fun s => { s with LastActiveTime := env.touchTime }) db.usersessions session hmem hids
  refine ⟨session, hmem, htoken, hrev, ?_, ?_, ?_, ?_, ?_, ?_, ?_, ?_⟩
  · rw [hdb]; exact hall.length_eq.symm
  · rw [hdb]; exact hall
  · rw [hdb]; rfl
  · rw [hdb]; rfl
  · rw [hdb]; rfl
  · rw [hdb]; rfl
  · rw [hcookies]
    simp only [SetAuthCookies]
    exact ⟨_, List.mem_cons_of_mem _ (List.mem_cons_of_mem _ (List.mem_cons_self _ _)), rfl⟩
  · rw [hcookies]
    intro k hk hname
    simp only [SetAuthCookies, List.mem_cons, List.mem_singleton, List.not_mem_nil,
      or_false] at hk
    rcases hk with h | h | h
    · rw [h] at hname; simp at hname
    · rw [h] at hname; simp at hname
    · rw [h]

/-- C18 at a sample run: `alice` refreshes with the secret `s1` at instant 300. -/
theorem c18_witness :
    (Refresh plainExt sessionDB { refreshCookie := "refresh:f", sessionCookie := "s1" }
      (refreshEnvAt 300)).1.status = 200 ∧
    (sessionDB.usersessions.map (·.ID)).Nodup ∧
    (Refresh plainExt sessionDB { refreshCookie := "refresh:f", sessionCookie := "s1" }
      (refreshEnvAt 300)).2.usersessions.length = 3 ∧
    (∀ k ∈ (Refresh plainExt sessionDB { refreshCookie := "refresh:f", sessionCookie := "s1" }
        (refreshEnvAt 300)).1.cookies, k.Name = "session_token" → k.Value = "s1") := by
  obtain ⟨session, _, _, _, hlen, _, _, _, _, _, _, hcookie⟩ :=
    c18_refresh_frame plainExt sessionDB
      { refreshCookie := "refresh:f", sessionCookie := "s1" } (refreshEnvAt 300)
      (by decide) (by decide)
  exact ⟨by decide, by decide, hlen, hcookie⟩

/-! ## The lock responses -/

/-- C19, evaluation. `alice` has nine failures counted; a wrong password at instant
100 locks the account and is answered 423 with `lockout` being the bare timestamp
`100 + 10 min`: the body has no `lockout.until`. The other lock responses of `Login`
carry it, strictly after the request time: the 429 of step 1 (address locked until
5000, request at 100), the 429 of the unknown-user escalation (request at
`Hour + 10`, lock until an hour later) and the 423 of step 3 (`bob` locked until 500,
request at 100). -/
theorem c19_lock_response_shapes :
    (Login plainExt nineDB { IP := "1.2.3.4" }
      (some { Username := "alice", Password := "guess", RememberMe := false })
      (loginEnvAt 100 "s9")).1.status = 423 ∧
    (Login plainExt nineDB { IP := "1.2.3.4" }
      (some { Username := "alice", Password := "guess", RememberMe := false })
      (loginEnvAt 100 "s9")).1.field "lockout" = some (.atom (.time (100 + 10 * Minute))) ∧
    (Login plainExt nineDB { IP := "1.2.3.4" }
      (some { Username := "alice", Password := "guess", RememberMe := false })
      (loginEnvAt 100 "s9")).1.lockoutUntil = none ∧
    (Login plainExt lockedDB { IP := "1.2.3.4" }
      (some { Username := "alice", Password := "secret", RememberMe := false })
      (loginEnvAt 100 "s9")).1.status = 429 ∧
    (Login plainExt lockedDB { IP := "1.2.3.4" }
      (some { Username := "alice", Password := "secret", RememberMe := false })
      (loginEnvAt 100 "s9")).1.lockoutUntil = some (.time 5000) ∧
    (Login plainExt unknownDB { IP := "1.2.3.4" }
      (some { Username := "mallory", Password := "x", RememberMe := false })
      (loginEnvAt (Hour + 10) "s9")).1.status = 429 ∧
    (Login plainExt unknownDB { IP := "1.2.3.4" }
      (some { Username := "mallory", Password := "x", RememberMe := false })
      (loginEnvAt (Hour + 10) "s9")).1.lockoutUntil = some (.time (Hour + 10 + 1 * Hour)) ∧
    (Login plainExt sampleDB { IP := "1.2.3.4" }
      (some { Username := "bob", Password := "hunter22", RememberMe := false })
      (loginEnvAt 100 "s9")).1.status = 423 ∧
    (Login plainExt sampleDB { IP := "1.2.3.4" }
      (some { Username := "bob", Password := "hunter22", RememberMe := false })
      (loginEnvAt 100 "s9")).1.lockoutUntil = some (.time 500) ∧
    (100 : Time) < 5000 ∧ Hour + 10 < Hour + 10 + 1 * Hour ∧ (100 : Time) < 500 := by
  refine ⟨by decide, by decide, by decide, by decide, by decide, by decide, by decide,
    by decide, by decide, by decide, by decide, by decide⟩

/-! ## The attempts that remain -/

/-- C20. For a wrong-password attempt on an account whose stored counter is `c`, the
`attemptsRemaining` member of the response and the `attempts_remaining` of the record
appended to the ledger (the insert succeeding) are the same number, which is
`max 0 (10 - (c + 1))` computed in 64-bit arithmetic, and is `max 0 (10 - (c + 1))`
itself for every `c` with `0 ≤ c` for which `c + 1` does not overflow. -/
theorem c20_attempts_remaining (X : Ext) (db : DB) (c : Ctx) (body : Option LoginRequest)
    (env : LoginEnv) (user : User)
    (hpath : loginPath X db c body env = .wrongPassword user)
    (hins : env.fails .insertInvalid = false) :
    ∃ v r, (Login X db c body env).1.field "attemptsRemaining" = some (.atom (.num v)) ∧
      (Login X db c body env).2.loginattempts = db.loginattempts ++ [r] ∧
      r.AttemptsRemaining = some v ∧
      v = max 0 (wrapInt64 (10 - wrapInt64 (user.FailedLoginAttempts + 1))) ∧
      (0 ≤ user.FailedLoginAttempts → user.FailedLoginAttempts < 9223372036854775807 →
        v = max 0 (10 - (user.FailedLoginAttempts + 1))) := by
  rw [Login_by_path X db c body env, hpath]
  simp only [loginWrongPassword, InsertOne, hins, Bool.false_eq_true, if_false]
  refine ⟨_, _, rfl, rfl, rfl, ?_, ?_⟩
  · have hfr : -9223372036854775808 ≤ wrapInt64 (user.FailedLoginAttempts + 1) ∧
        wrapInt64 (user.FailedLoginAttempts + 1) < 9223372036854775808 := by
      unfold wrapInt64; omega
    generalize wrapInt64 (user.FailedLoginAttempts + 1) = f at hfr ⊢
    have hr : -9223372036854775808 ≤ wrapInt64 (10 - f) := by unfold wrapInt64; omega
    by_cases h : f ≥ 10
    · have hs : wrapInt64 (10 - f) = 10 - f := by unfold wrapInt64; omega
      simp only [h, decide_True, if_true, hs]
      omega
    · simp only [h, decide_False, Bool.false_eq_true, if_false]
      split <;> omega
  · intro h0 hmax
    have hw : wrapInt64 (user.FailedLoginAttempts + 1) = user.FailedLoginAttempts + 1 :=
      wrapInt64_small _ (by omega) (by omega)
    have hw2 : wrapInt64 (10 - (user.FailedLoginAttempts + 1))
        = 10 - (user.FailedLoginAttempts + 1) := wrapInt64_small _ (by omega) (by omega)
    simp only [hw, hw2]
    by_cases h : user.FailedLoginAttempts + 1 ≥ 10
    · simp only [h, decide_True, if_true]
      omega
    · simp only [h, decide_False, Bool.false_eq_true, if_false]
      split <;> omega

/-- C20 at a sample run: `bob` has three failures counted; the fourth wrong password
leaves six attempts. -/
theorem c20_witness :
    loginPath plainExt sampleDB { IP := "1.2.3.4" }
      (some { Username := "bob", Password := "guess", RememberMe := false })
      (loginEnvAt 600 "s9") = .wrongPassword (mkUser 2 "bob" "pw:hunter22" 3 (some 500)) ∧
    (Login plainExt sampleDB { IP := "1.2.3.4" }
      (some { Username := "bob", Password := "guess", RememberMe := false })
      (loginEnvAt 600 "s9")).1.field "attemptsRemaining" = some (.atom (.num 6)) := by
  obtain ⟨v, r, h1, _, _, _, h5⟩ := c20_attempts_remaining plainExt sampleDB
    { IP := "1.2.3.4" } (some { Username := "bob", Password := "guess", RememberMe := false })
    (loginEnvAt 600 "s9") (mkUser 2 "bob" "pw:hunter22" 3 (some 500)) (by decide) rfl
  have hv : v = 6 := h5 (by decide) (by decide)
  rw [hv] at h1
  exact ⟨by decide, h1⟩

/-! ## Lifetimes of tokens and cookies -/

theorem trunc_second_bounds (t : Int) :
    t - 1000000000 < t - t % 1000000000 ∧ t - t % 1000000000 ≤ t := by
  omega

/-- Truncation to the second loses less than a second. -/
theorem NewNumericDate_bounds (t : Time) :
    t - Second < NewNumericDate t ∧ NewNumericDate t ≤ t :=
  trunc_second_bounds t

/-- C21. `GenerateAccessToken` called at instant `now` signs claims whose `exp` is
`now + 15 min` truncated to the second; `GenerateRefreshToken` signs claims whose
`exp` is `now + 7 days`, or `now + 30 days` when `rememberMe` is set, truncated to
the second (so each expiry is at most one second short of the lifetime).
`SetAuthCookies` called at instant `cookieNow` sets exactly three cookies:
`access_token` on path `/` expiring at `cookieNow + 15 min`, `refresh_token` on path
`/api/auth/refresh` expiring at `cookieNow + 7 days`, or `+ 30 days` with
`rememberMe`, and `session_token` on path `/` expiring at `cookieNow + 24 h`, or
`+ 30 days` with `rememberMe`. The lifetimes are 900, 604800, 2592000 and 86400
seconds. -/
theorem c21_token_and_cookie_lifetimes (X : Ext) (user : User) (userID : ObjectID)
    (rememberMe : Bool) (now cookieNow : Time) (a r s : String) :
    (∃ cl, GenerateAccessToken X user now = X.signAccess cl ∧
      cl.ExpiresAt = NewNumericDate (now + 15 * Minute) ∧
      now + 15 * Minute - Second < cl.ExpiresAt ∧ cl.ExpiresAt ≤ now + 15 * Minute) ∧
    (∃ cl, GenerateRefreshToken X userID rememberMe now = X.signRefresh cl ∧
      cl.RememberMe = rememberMe ∧
      cl.ExpiresAt
        = NewNumericDate (now + if rememberMe then 30 * (24 * Hour) else 7 * (24 * Hour)) ∧
      (now + (if rememberMe then 30 * (24 * Hour) else 7 * (24 * Hour))) - Second
        < cl.ExpiresAt ∧
      cl.ExpiresAt ≤ now + if rememberMe then 30 * (24 * Hour) else 7 * (24 * Hour)) ∧
    (∃ ca cr cs, SetAuthCookies X cookieNow a r s rememberMe = [ca, cr, cs] ∧
      ca.Name = "access_token" ∧ ca.Value = a ∧ ca.Path = "/" ∧
      ca.Expires = cookieNow + 15 * Minute ∧
      cr.Name = "refresh_token" ∧ cr.Value = r ∧ cr.Path = "/api/auth/refresh" ∧
      cr.Expires
        = cookieNow + (if rememberMe then 30 * (24 * Hour) else 7 * (24 * Hour)) ∧
      cs.Name = "session_token" ∧ cs.Value = s ∧ cs.Path = "/" ∧
      cs.Expires = cookieNow + (if rememberMe then 30 * (24 * Hour) else 24 * Hour)) ∧
    15 * Minute = 900 * Second ∧ 7 * (24 * Hour) = 604800 * Second ∧
    30 * (24 * Hour) = 2592000 * Second ∧ 24 * Hour = 86400 * Second ∧
    Second = 1000000000 := by
  refine ⟨⟨_, rfl, rfl, NewNumericDate_bounds _⟩, ⟨_, rfl, rfl, ?_, ?_⟩, ?_,
    by decide, by decide, by decide, by decide, by decide⟩
  · cases rememberMe <;> rfl
  · cases rememberMe
    · exact NewNumericDate_bounds _
    · exact NewNumericDate_bounds _
  · cases rememberMe
    · exact ⟨_, _, _, rfl, rfl, rfl, rfl, rfl, rfl, rfl, rfl, rfl, rfl, rfl, rfl, rfl⟩
    · exact ⟨_, _, _, rfl, rfl, rfl, rfl, rfl, rfl, rfl, rfl, rfl, rfl, rfl, rfl, rfl⟩

/-! ## The username pattern -/

theorem char_range_iff (c : Char) (lo hi : Char) :
    (lo ≤ c ∧ c ≤ hi) ↔ (lo.toNat ≤ c.toNat ∧ c.toNat ≤ hi.toNat) := by
  simp only [Char.le_def, Char.toNat, UInt32.le_def]
  rfl

theorem char_eq_iff (c d : Char) : c = d ↔ c.toNat = d.toNat := by
  constructor
  · intro h; rw [h]
  · intro h
    exact Char.ext (UInt32.ext h)

/-- Class `[a-z0-9]` holds the lowercase ASCII letters and the digits. -/
theorem classLowerDigit_iff (c : Char) :
    classLowerDigit c = true ↔ ('a' ≤ c ∧ c ≤ 'z') ∨ ('0' ≤ c ∧ c ≤ '9') := by
  rw [char_range_iff, char_range_iff]
  simp only [classLowerDigit, Bool.or_eq_true, Bool.and_eq_true, decide_eq_true_eq]
  rfl

/-- Class `[a-z0-9._@]` holds the lowercase ASCII letters, the digits and the three
signs. -/
theorem classUsername_iff (c : Char) :
    classUsername c = true ↔
      ('a' ≤ c ∧ c ≤ 'z') ∨ ('0' ≤ c ∧ c ≤ '9') ∨ c = '.' ∨ c = '_' ∨ c = '@' := by
  rw [char_range_iff, char_range_iff, char_eq_iff c '.', char_eq_iff c '_', char_eq_iff c '@']
  simp only [classUsername, Bool.or_eq_true, Bool.and_eq_true, decide_eq_true_eq, beq_iff_eq,
    or_assoc]
  rfl

/-- A bounded repetition of a class can use up a text exactly when the text is no
longer than the bound and all in the class. -/
theorem upTo_cls_full (p : Char → Bool) (n : Nat) (s : List Char) :
    (((Regex.cls p).upTo n).rests s).any List.isEmpty = true ↔
      s.length ≤ n ∧ ∀ c ∈ s, p c = true := by
  induction n generalizing s with
  | zero =>
    cases s with
    | nil => simp [Regex.upTo, Regex.rests]
    | cons c cs => simp [Regex.upTo, Regex.rests]
  | succ n ih =>
    cases s with
    | nil => simp [Regex.upTo, Regex.rests]
    | cons c cs =>
      by_cases hp : p c = true
      · have := ih cs
        simp only [Regex.upTo, Regex.rests, hp, if_true, List.flatMap_cons, List.flatMap_nil,
          List.append_nil, List.any_append, List.any_cons, List.any_nil, List.isEmpty_cons,
          Bool.or_false, List.length_cons, Nat.add_le_add_iff_right, List.mem_cons,
          forall_eq_or_imp, true_and] at this ⊢
        exact this
      · simp [Regex.upTo, Regex.rests, hp]


/-- The pattern of `ValidateUsername`, on the characters of a text. -/
theorem ValidateUsername_chars (s : List Char) :
    ValidateUsername ⟨s⟩ = true ↔
      ∃ c cs, s = c :: cs ∧ classLowerDigit c = true ∧ cs.length ≤ 29 ∧
        ∀ x ∈ cs, classUsername x = true := by
  unfold ValidateUsername Regex.MatchString
  cases s with
  | nil => simp [Regex.rests]
  | cons c cs =>
    by_cases hc : classLowerDigit c = true
    · have h := upTo_cls_full classUsername 29 cs
      simp only [Regex.rests, hc, if_true, List.flatMap_cons, List.flatMap_nil,
        List.append_nil] at h ⊢
      rw [h]
      constructor
      · intro hh; exact ⟨c, cs, rfl, hc, hh.1, hh.2⟩
      · rintro ⟨c', cs', heq, _, h1, h2⟩
        cases heq
        exact ⟨h1, h2⟩
    · constructor
      · intro hh
        simp [Regex.rests, hc] at hh
      · rintro ⟨c', cs', heq, h0, _, _⟩
        cases heq
        exact absurd h0 hc

/-- C26. `ValidateUsername u` is true exactly when `u` has between 1 and 30
characters, its first character is a lowercase ASCII letter or a digit and every
other character is a lowercase ASCII letter, a digit, `.`, `_` or `@`; a text that
ends in a newline is not accepted; and `usernameRegex`, which `Register` matches
usernames against, accepts exactly the same texts. -/
theorem c26_validate_username (u : String) :
    (ValidateUsername u = true ↔ describedUsername u) ∧
    ValidateUsername ⟨u.data ++ ['\n']⟩ = false ∧
    usernameRegex.MatchString u = ValidateUsername u := by
  refine ⟨?_, ?_, rfl⟩
  · have h := ValidateUsername_chars u.data
    rw [show (⟨u.data⟩ : String) = u from rfl] at h
    rw [h]
    unfold describedUsername
    rw [show u.length = u.data.length from rfl]
    constructor
    · rintro ⟨c, cs, heq, h0, h1, h2⟩
      rw [heq]
      refine ⟨by simp, by simp only [List.length_cons]; omega, ?_, ?_⟩
      · intro c' hc'
        simp only [List.head?_cons, Option.some.injEq] at hc'
        rw [← hc']
        exact (classLowerDigit_iff c).mp h0
      · intro x hx
        exact (classUsername_iff x).mp (h2 x hx)
    · rintro ⟨h1, h30, hhead, htail⟩
      cases hd : u.data with
      | nil => rw [hd] at h1; simp at h1
      | cons c cs =>
        rw [hd] at h30 hhead htail
        refine ⟨c, cs, rfl, (classLowerDigit_iff c).mpr (hhead c rfl), ?_, ?_⟩
        · simp only [List.length_cons] at h30; omega
        · intro x hx
          exact (classUsername_iff x).mpr (htail x hx)
  · cases hv : ValidateUsername ⟨u.data ++ ['\n']⟩ with
    | false => rfl
    | true =>
      exfalso
      obtain ⟨c, cs, heq, h0, _, h2⟩ := (ValidateUsername_chars _).mp hv
      cases hd : u.data with
      | nil =>
        rw [hd] at heq
        simp only [List.nil_append, List.cons.injEq] at heq
        rw [← heq.1] at h0
        exact absurd h0 (by decide)
      | cons d ds =>
        rw [hd] at heq
        simp only [List.cons_append, List.cons.injEq] at heq
        have hmem : '\n' ∈ cs := by rw [← heq.2]; simp
        exact absurd (h2 _ hmem) (by decide)

/-! ## Streaks -/

theorem truncInt64_nonneg (x : ℚ) (h : 0 ≤ x) : 0 ≤ truncInt64 x := by
  unfold truncInt64
  rw [if_pos h]
  exact Rat.le_floor.mpr (by exact_mod_cast h)

theorem clamp_nonneg (x : Int) (h : 0 ≤ x) :
    0 ≤ (if x < -9223372036854775808 then (-9223372036854775808 : Int)
         else if 9223372036854775807 < x then 9223372036854775807 else x) := by
  split
  · omega
  · split <;> omega

theorem Sub_nonneg (t u : Time) (h : u ≤ t) : 0 ≤ Sub t u :=
  clamp_nonneg (t - u) (Int.sub_nonneg_of_le h)

theorem gapsOf_length (Seconds : Int → ℚ) (l : List Time) :
    (gapsOf Seconds l).length = l.length - 1 := by
  induction l with
  | nil => rfl
  | cons a rest ih =>
    cases rest with
    | nil => rfl
    | cons b rest2 =>
      simp only [gapsOf, List.length_cons] at ih ⊢
      omega

theorem gapsOf_nonneg (Seconds : Int → ℚ) (hsec : ∀ d, 0 ≤ d → 0 ≤ Seconds d)
    (l : List Time) (hl : l.Sorted (· ≤ ·)) : ∀ g ∈ gapsOf Seconds l, 0 ≤ g := by
  induction l with
  | nil => intro g hg; cases hg
  | cons a rest ih =>
    cases rest with
    | nil => intro g hg; cases hg
    | cons b rest2 =>
      intro g hg
      simp only [gapsOf, List.mem_cons] at hg
      have hab : a ≤ b := List.rel_of_sorted_cons hl b (List.mem_cons_self _ _)
      rcases hg with h | h
      · rw [h]
        exact truncInt64_nonneg _ (hsec _ (Sub_nonneg b a hab))
      · exact ih (List.Sorted.of_cons hl) g h

/-- The loop that keeps the greatest value seen, started at `acc`. -/
theorem foldl_longest (l : List Int) (acc : Int) :
    acc ≤ l.foldl (fun longest streak => if streak > longest then streak else longest) acc ∧
    (∀ x ∈ l, x ≤ l.foldl (fun longest streak => if streak > longest then streak else longest)
      acc) ∧
    (l.foldl (fun longest streak => if streak > longest then streak else longest) acc = acc ∨
     l.foldl (fun longest streak => if streak > longest then streak else longest) acc ∈ l) := by
  induction l generalizing acc with
  | nil => exact ⟨le_refl _, (fun x hx => by cases hx), Or.inl rfl⟩
  | cons a rest ih =>
    simp only [List.foldl_cons]
    obtain ⟨h1, h2, h3⟩ := ih (if a > acc then a else acc)
    refine ⟨?_, ?_, ?_⟩
    · refine le_trans ?_ h1
      split <;> omega
    · intro x hx
      rcases List.mem_cons.mp hx with h | h
      · rw [h]
        refine le_trans ?_ h1
        split <;> omega
      · exact h2 x h
    · rcases h3 with h | h
      · by_cases hgt : a > acc
        · right
          rw [h, if_pos hgt]
          exact List.mem_cons_self _ _
        · left
          rw [h, if_neg hgt]
      · right
        exact List.mem_cons_of_mem _ h

/-- C30. Whenever `Duration.Seconds` gives a non-negative number for a non-negative
duration, for every streak start, list of relapses and instant `now`,
`calculateStreaks` returns a `currentStreak` that is at least 0, as many historical
streaks as there are relapses, each at least 0, and a `computedLongest` that is one
of `currentStreak` and the historical streaks and is at least each of them. -/
theorem c30_calculate_streaks (Seconds : Int → ℚ) (hsec : ∀ d, 0 ≤ d → 0 ≤ Seconds d)
    (streakStart : Time) (relapses : List RelapseLog) (now : Time) :
    0 ≤ (calculateStreaks Seconds streakStart relapses now).1 ∧
    (calculateStreaks Seconds streakStart relapses now).2.2.length = relapses.length ∧
    (∀ h ∈ (calculateStreaks Seconds streakStart relapses now).2.2, 0 ≤ h) ∧
    (calculateStreaks Seconds streakStart relapses now).2.1 ∈
      (calculateStreaks Seconds streakStart relapses now).1 ::
        (calculateStreaks Seconds streakStart relapses now).2.2 ∧
    (∀ x ∈ (calculateStreaks Seconds streakStart relapses now).1 ::
        (calculateStreaks Seconds streakStart relapses now).2.2,
      x ≤ (calculateStreaks Seconds streakStart relapses now).2.1) := by
  simp only [calculateStreaks]
  generalize hcur : truncInt64 (max 0 (Seconds (Sub now
    (match relapses.map (·.RelapseTime) with
     | first :: _ => latestOf first (relapses.map (·.RelapseTime))
     | [] => streakStart)))) = cur
  have hcur0 : 0 ≤ cur := by
    rw [← hcur]
    exact truncInt64_nonneg _ (le_max_left _ _)
  generalize hhist : gapsOf Seconds
    ((streakStart :: relapses.map (·.RelapseTime)).insertionSort (· ≤ ·)) = hist
  have hlen : hist.length = relapses.length := by
    rw [← hhist, gapsOf_length, List.length_insertionSort]
    simp
  have hnn : ∀ h ∈ hist, 0 ≤ h := by
    rw [← hhist]
    exact gapsOf_nonneg Seconds hsec _ (List.sorted_insertionSort _ _)
  obtain ⟨h1, h2, h3⟩ := foldl_longest (hist ++ [cur]) 0
  refine ⟨hcur0, hlen, hnn, ?_, ?_⟩
  · rcases h3 with h | h
    · have hle : cur ≤ 0 := by
        have := h2 cur (by simp)
        rw [h] at this
        exact this
      have hc : cur = 0 := le_antisymm hle hcur0
      rw [h, hc]
      exact List.mem_cons_self _ _
    · rcases List.mem_append.mp h with h' | h'
      · exact List.mem_cons_of_mem _ h'
      · simp only [List.mem_singleton] at h'
        rw [h']
        exact List.mem_cons_self _ _
  · intro x hx
    apply h2
    rcases List.mem_cons.mp hx with h | h
    · rw [h]; simp
    · exact List.mem_append_left _ h

/-- C30 at a sample: streak started at instant 0, relapses at 50 s and at 20 s, read
at 80 s, with the exact number of seconds for `Duration.Seconds`. -/
theorem c30_witness :
    (∀ d : Int, 0 ≤ d → 0 ≤ exactSeconds d) ∧
    (calculateStreaks exactSeconds 0
      [{ ID := 1, UserID := 1, RelapseTime := 50 * Second, RelapseNote := none,
         CreatedAt := 0, UpdatedAt := 0 },
       { ID := 2, UserID := 1, RelapseTime := 20 * Second, RelapseNote := none,
         CreatedAt := 0, UpdatedAt := 0 }] (80 * Second)).2.2.length = 2 :=
  have hsec : ∀ d : Int, 0 ≤ d → 0 ≤ exactSeconds d := fun d hd =>
    div_nonneg (by exact_mod_cast hd) (by norm_num)
  ⟨hsec, (c30_calculate_streaks exactSeconds hsec 0 _ (80 * Second)).2.1⟩

/-! ## The access token Protected reads -/

theorem byteLen_pos (t : String) (ht : t ≠ "") : 1 ≤ byteLen t := by
  unfold byteLen
  cases hd : t.data with
  | nil => exact absurd (String.ext hd) ht
  | cons c cs =>
    have := Char.utf8Size_pos c
    simp only [List.map_cons, List.sum_cons]
    omega

/-- The characters of a scheme that is `bearer` in any mix of cases. -/
theorem isBearer_chars (scheme : String) (hs : isBearer scheme) :
    ∃ c1 c2 c3 c4 c5 c6, scheme.data = [c1, c2, c3, c4, c5, c6] ∧
      (c1 = 'B' ∨ c1 = 'b') ∧ (c2 = 'E' ∨ c2 = 'e') ∧ (c3 = 'A' ∨ c3 = 'a') ∧
      (c4 = 'R' ∨ c4 = 'r') ∧ (c5 = 'E' ∨ c5 = 'e') ∧ (c6 = 'R' ∨ c6 = 'r') := by
  unfold isBearer at hs
  generalize scheme.data = l at hs
  cases hs with
  | cons h1 hs =>
  cases hs with
  | cons h2 hs =>
  cases hs with
  | cons h3 hs =>
  cases hs with
  | cons h4 hs =>
  cases hs with
  | cons h5 hs =>
  cases hs with
  | cons h6 hs =>
  cases hs
  exact ⟨_, _, _, _, _, _, rfl, h1, h2, h3, h4, h5, h6⟩

/-- With a header made of the scheme `bearer` in any mix of cases, one blank and a
non-empty token, step 1 of `Protected` takes the token of the header. -/
theorem accessTokenOf_bearer (X : Ext)
    (hup : ∀ ch : Char, ch.isAlpha = true → X.upperRune ch = ch.toUpper)
    (c : Ctx) (scheme t : String) (hs : isBearer scheme) (ht : t ≠ "")
    (hauth : c.Authorization = scheme ++ " " ++ t) : accessTokenOf X c = t := by
  obtain ⟨c1, c2, c3, c4, c5, c6, hdata, h1, h2, h3, h4, h5, h6⟩ := isBearer_chars scheme hs
  have hheader : c.Authorization = ⟨[c1, c2, c3, c4, c5, c6, ' '] ++ t.data⟩ := by
    rw [hauth]
    apply String.ext
    simp [hdata]
  have k1 : c1.utf8Size = 1 ∧ X.upperRune c1 = 'B' := by
    rcases h1 with rfl | rfl <;> exact ⟨by decide, by rw [hup _ (by decide)]; decide⟩
  have k2 : c2.utf8Size = 1 ∧ X.upperRune c2 = 'E' := by
    rcases h2 with rfl | rfl <;> exact ⟨by decide, by rw [hup _ (by decide)]; decide⟩
  have k3 : c3.utf8Size = 1 ∧ X.upperRune c3 = 'A' := by
    rcases h3 with rfl | rfl <;> exact ⟨by decide, by rw [hup _ (by decide)]; decide⟩
  have k4 : c4.utf8Size = 1 ∧ X.upperRune c4 = 'R' := by
    rcases h4 with rfl | rfl <;> exact ⟨by decide, by rw [hup _ (by decide)]; decide⟩
  have k5 : c5.utf8Size = 1 ∧ X.upperRune c5 = 'E' := by
    rcases h5 with rfl | rfl <;> exact ⟨by decide, by rw [hup _ (by decide)]; decide⟩
  have k6 : c6.utf8Size = 1 ∧ X.upperRune c6 = 'R' := by
    rcases h6 with rfl | rfl <;> exact ⟨by decide, by rw [hup _ (by decide)]; decide⟩
  have kb : (' ' : Char).utf8Size = 1 := by decide
  have hlen : byteLen c.Authorization = 7 + byteLen t := by
    rw [hheader]
    simp only [byteLen, List.cons_append, List.nil_append, List.map_cons, List.sum_cons,
      k1.1, k2.1, k3.1, k4.1, k5.1, k6.1, kb]
    omega
  have hto : sliceTo c.Authorization 6 = ⟨[c1, c2, c3, c4, c5, c6]⟩ := by
    rw [hheader]
    simp [sliceTo, takeBytes, k1.1, k2.1, k3.1, k4.1, k5.1, k6.1, kb]
  have hfrom : sliceFrom c.Authorization 7 = t := by
    rw [hheader]
    apply String.ext
    simp only [sliceFrom, List.cons_append, List.nil_append, dropBytes, k1.1, k2.1, k3.1, k4.1,
      k5.1, k6.1, kb]
    cases t.data <;> rfl
  have hupper : ToUpper X (sliceTo c.Authorization 6) = "BEARER" := by
    rw [hto]
    apply String.ext
    simp only [ToUpper, List.map_cons, List.map_nil, k1.2, k2.2, k3.2, k4.2, k5.2, k6.2]
  have hpos := byteLen_pos t ht
  unfold accessTokenOf
  simp only [hlen, hupper, hfrom]
  rw [if_pos ⟨by omega, trivial⟩]

/-- C24. When the `Authorization` header is the scheme `bearer` in any mix of
upper and lower case, one blank and a non-empty token `t` (`unicode.ToUpper` acting
on ASCII letters as ASCII upper-casing), `Protected` reads `t` as the access token
whatever the `access_token` cookie holds: replacing the cookie by any other value
changes nothing of the outcome, and when `t` is not accepted the request is answered
401, also when the cookie holds a token that would be accepted. -/
theorem c24_bearer_header_first (X : Ext)
    (hup : ∀ ch : Char, ch.isAlpha = true → X.upperRune ch = ch.toUpper)
    (db : DB) (c : Ctx) (env : ProtectedEnv) (scheme t : String)
    (hs : isBearer scheme) (ht : t ≠ "")
    (hauth : c.Authorization = scheme ++ " " ++ t) :
    accessTokenOf X c = t ∧
    (∀ cookie, Protected X db { c with accessCookie := cookie } env = Protected X db c env) ∧
    (ValidateAccessToken X t env.now = none →
      ∀ cookie, ∃ r, Protected X db { c with accessCookie := cookie } env = .reject r ∧
        r.status = 401 ∧ r.cookies = []) := by
  have h1 := accessTokenOf_bearer X hup c scheme t hs ht hauth
  have h2 : ∀ cookie, accessTokenOf X { c with accessCookie := cookie } = t := fun cookie =>
    accessTokenOf_bearer X hup { c with accessCookie := cookie } scheme t hs ht hauth
  refine ⟨h1, ?_, ?_⟩
  · intro cookie
    unfold Protected
    rw [h1, h2 cookie]
    rfl
  · intro hbad cookie
    exact Protected_bad_token X db { c with accessCookie := cookie } env
      (Or.inr (by rw [h2 cookie]; exact hbad))

/-- C24 at a sample request: the header `bEaReR expired` comes with a cookie that
holds the accepted token of `alice` and the secret of her session; the request is
answered 401. -/
theorem c24_witness :
    isBearer "bEaReR" ∧
    (∃ loc sid, Protected plainExt sessionDB
      { accessCookie := "access:alice", sessionCookie := "s1" } (protectedEnvAt 100)
        = .next loc sid) ∧
    (∃ r, Protected plainExt sessionDB
      { Authorization := "bEaReR expired", accessCookie := "access:alice",
        sessionCookie := "s1" } (protectedEnvAt 100) = .reject r ∧ r.status = 401) := by
  have hb : isBearer "bEaReR" :=
    List.Forall₂.cons (Or.inr (by decide)) (List.Forall₂.cons (Or.inl rfl)
      (List.Forall₂.cons (Or.inr (by decide)) (List.Forall₂.cons (Or.inl rfl)
        (List.Forall₂.cons (Or.inr (by decide)) (List.Forall₂.cons (Or.inl rfl)
          List.Forall₂.nil)))))
  obtain ⟨r, hr, h401, _⟩ := (c24_bearer_header_first plainExt (fun _ _ => rfl) sessionDB
    { Authorization := "bEaReR expired", sessionCookie := "s1" } (protectedEnvAt 100)
    "bEaReR" "expired" hb (by decide) (by decide)).2.2 (by decide) "access:alice"
  exact ⟨hb, ⟨aliceLocals, 11, by decide⟩, r, hr, h401⟩

/-! ## AdminOnly -/

/-- C25. `AdminOnly` calls the downstream handler exactly when the role stored in the
request is the text `admin`; in every other case, also when no role is stored, it
sends a response of its own, which is a 403. After `Protected` let a request
through, the stored role is the one of the access token, so the request passes
`AdminOnly` exactly when that role is `admin`. -/
theorem c25_admin_only (role : Option String) :
    (AdminOnly role = none ↔ role = some "admin") ∧
    (AdminOnly role = none ∨
      ∃ r, AdminOnly role = some r ∧ r.status = 403 ∧ role ≠ some "admin") ∧
    (AdminOnly none).map (·.status) = some 403 ∧
    (∀ (X : Ext) (db : DB) (c : Ctx) (env : ProtectedEnv) (loc : Locals) (sid : ObjectID),
      Protected X db c env = .next loc sid →
      ∃ claims, ValidateAccessToken X (accessTokenOf X c) env.now = some claims ∧
        (AdminOnly (some loc.role) = none ↔ claims.User.Role = "admin")) := by
  have hiff : ∀ ro : Option String, AdminOnly ro = none ↔ ro = some "admin" := by
    intro ro
    unfold AdminOnly
    by_cases h : ro = some "admin"
    · simp [h]
    · simp [h]
  refine ⟨hiff role, ?_, by decide, ?_⟩
  · by_cases h : role = some "admin"
    · exact Or.inl ((hiff role).mpr h)
    · right
      unfold AdminOnly
      rw [if_pos h]
      exact ⟨_, rfl, rfl, h⟩
  · intro X db c env loc sid hnext
    obtain ⟨_, _, claims, _, hclaims, _, _, _, _, _, _, _, hrole⟩ :=
      Protected_next_only_if X db c env loc sid hnext
    refine ⟨claims, hclaims, ?_⟩
    rw [hiff, hrole]
    simp

/-! ## RevokeSession on a session of another account -/

/-- An update of the first match leaves every document that does not satisfy the
filter as it was, at its place. -/
theorem forall2_UpdateOne_filter (fail : Bool) (p : UserSession → Bool)
    (g : UserSession → UserSession) (l : List UserSession) :
    List.Forall₂ (fun a b => p a = false → b = a) l (UpdateOne fail p g l) := by
  have hrefl : ∀ l : List UserSession,
      List.Forall₂ (fun a b : UserSession => p a = false → b = a) l l := by
    intro l
    induction l with
    | nil => exact List.Forall₂.nil
    | cons a rest ih => exact List.Forall₂.cons (fun _ => rfl) ih
  unfold UpdateOne
  cases fail with
  | true => exact hrefl l
  | false =>
    simp only [Bool.false_eq_true, if_false]
    induction l with
    | nil => exact List.Forall₂.nil
    | cons a rest ih =>
      simp only [updateFirst]
      split
      · rename_i ha
        exact List.Forall₂.cons (fun hf => by rw [ha] at hf; cases hf) (hrefl rest)
      · exact List.Forall₂.cons (fun _ => rfl) ih

/-- C28. `RevokeSession` called with an identifier under which no session of the
caller is stored (the session behind it, if any, belongs to another account) leaves
every collection as it was and answers 404, or 500 when the lookup itself fails. On
any collections and for any identifier, `RevokeSession` leaves every session that is
not owned by the caller as it was, at its place. -/
theorem c28_revoke_foreign_session (X : Ext) (db : DB) (sessionIDHex : String)
    (loc : Locals) (env : RevokeSessionEnv) (sid : ObjectID)
    (hid : X.ObjectIDFromHex sessionIDHex = some sid)
    (hno : ∀ s ∈ db.usersessions, s.ID = sid → s.UserID ≠ loc.userObjectID) :
    (RevokeSession X db sessionIDHex loc env).2 = db ∧
    (RevokeSession X db sessionIDHex loc env).1.status
      = (if env.fails .findSession then 500 else 404) ∧
    (RevokeSession X db sessionIDHex loc env).1.cookies = [] ∧
    (∀ (db2 : DB) (hex2 : String) (loc2 : Locals) (env2 : RevokeSessionEnv),
      List.Forall₂ (fun a b => a.UserID ≠ loc2.userObjectID → b = a) db2.usersessions
        (RevokeSession X db2 hex2 loc2 env2).2.usersessions) := by
  have hnone : db.usersessions.find? (fun s => s.ID == sid && s.UserID == loc.userObjectID)
      = none := by
    rw [List.find?_eq_none]
    intro s hs
    simp only [Bool.and_eq_true, beq_iff_eq, not_and]
    exact hno s hs
  refine ⟨?_, ?_, ?_, ?_⟩
  · unfold RevokeSession
    simp only [hid, FindOne, hnone]
    cases env.fails .findSession <;> rfl
  · unfold RevokeSession
    simp only [hid, FindOne, hnone]
    cases env.fails .findSession <;> rfl
  · unfold RevokeSession
    simp only [hid, FindOne, hnone]
    cases env.fails .findSession <;> rfl
  · intro db2 hex2 loc2 env2
    have hrefl : ∀ l : List UserSession,
        List.Forall₂ (fun a b : UserSession => a.UserID ≠ loc2.userObjectID → b = a) l l := by
      intro l
      induction l with
      | nil => exact List.Forall₂.nil
      | cons a rest ih => exact List.Forall₂.cons (fun _ => rfl) ih
    unfold RevokeSession
    simp only []
    repeat' split
    all_goals first
      | exact hrefl _
      | (refine List.Forall₂.imp ?_ (forall2_UpdateOne_filter _ _ _ _)
         intro a b hab hne
         apply hab
         simp only [Bool.and_eq_false_iff, beq_eq_false_iff_ne, ne_eq]
         exact Or.inr hne)

/-- C28 at a sample request: `alice` asks to revoke session 21 (hex of 21 letters
`f`), which is a session of `bob`. -/
theorem c28_witness :
    (RevokeSession plainExt sessionDB "fffffffffffffffffffff" aliceLocals (revokeEnvAt 100)).2
      = sessionDB ∧
    (RevokeSession plainExt sessionDB "fffffffffffffffffffff" aliceLocals
      (revokeEnvAt 100)).1.status = 404 := by
  have h := c28_revoke_foreign_session plainExt sessionDB "fffffffffffffffffffff" aliceLocals
    (revokeEnvAt 100) 21 (by decide) (by decide)
  exact ⟨h.1, h.2.1⟩

/-! ## Register -/

theorem blockFilter_iff (ip : String) (now : Time) (a : RegistrationAttempt) :
    blockFilter ip now a = true ↔ activeBlock ip now a := by
  unfold blockFilter activeBlock dateGt
  cases a.BlockedUntil with
  | none => simp
  | some t => simp [and_assoc]

/-- A `Register` request whose input fails a check on the fields is answered 400 and
changes nothing. -/
theorem Register_invalid (X : Ext) (db : DB) (c : Ctx) (req : RegisterRequest)
    (env : RegisterEnv) (h : invalidInput X req) :
    (Register X db c (some req) env).1.status = 400 ∧
    (Register X db c (some req) env).2 = db := by
  unfold invalidInput registerUsername at h
  unfold Register
  simp only []
  split
  · exact ⟨rfl, rfl⟩
  rename_i h1
  split
  · exact ⟨rfl, rfl⟩
  rename_i h2
  split
  · exact ⟨rfl, rfl⟩
  rename_i h3
  exfalso
  rcases h with h | h | h | h | h
  · exact h1 (Or.inl h)
  · exact h1 (Or.inr (Or.inl h))
  · exact h1 (Or.inr (Or.inr h))
  · rw [h] at h2; exact h2 rfl
  · exact h3 h

/-- A `Register` request whose input passes the checks on the fields goes on with
steps 1 to 4. -/
theorem Register_valid (X : Ext) (db : DB) (c : Ctx) (req : RegisterRequest)
    (env : RegisterEnv) (h : ¬ invalidInput X req) :
    Register X db c (some req) env =
      registerLimits X db env (GetClientIP c) (SanitizeString req.Nickname 120)
        (registerUsername X req) req.Password (SanitizeString req.LanguagePref 10) := by
  unfold invalidInput registerUsername at h
  simp only [not_or] at h
  obtain ⟨h1, h2, h3, h4, h5⟩ := h
  have h4t : usernameRegex.MatchString (ToLower X (SanitizeString req.Username 30)) = true := by
    simpa using h4
  unfold Register registerUsername
  simp only [h1, h2, h3, h4t, h5, or_self, if_false, Bool.not_true, Bool.false_eq_true]

/-- Without an active block of the address the lookup of step 1 returns an error. -/
theorem findBlock_error (fail : Bool) (ip : String) (now : Time)
    (ledger : List RegistrationAttempt) (h : ∀ a ∈ ledger, ¬ activeBlock ip now a) :
    ∃ e, FindOneSortDesc fail (blockFilter ip now) (·.AttemptTime) ledger = .error e := by
  apply FindOneSortDesc_error
  intro a ha
  cases hb : blockFilter ip now a with
  | false => rfl
  | true => exact absurd ((blockFilter_iff ip now a).mp hb) (h a ha)

/-- What steps 3 and 4 of `Register` answer and leave, case by case. -/
theorem registerCreate_cases (X : Ext) (db : DB) (env : RegisterEnv)
    (ip nickname username password languagePref : String) :
    ((registerCreate X db env ip nickname username password languagePref).1.status ≠ 200 ∧
      (registerCreate X db env ip nickname username password languagePref).2 = db) ∨
    ((registerCreate X db env ip nickname username password languagePref).1.status = 200 ∧
      (∀ u ∈ db.users, u.Username ≠ username) ∧
      ∃ u, (registerCreate X db env ip nickname username password languagePref).2.users
          = db.users ++ [u] ∧
        u.Username = username ∧ u.FailedLoginAttempts = 0 ∧ u.LockoutUntil = none ∧
        u.Role = (if CanAutoAdmin X env.adminEmails username then "admin" else "user") ∧
        (registerCreate X db env ip nickname username password languagePref).2.usersessions
          = db.usersessions ∧
        (registerCreate X db env ip nickname username password languagePref).2.loginattempts
          = db.loginattempts) := by
  unfold registerCreate
  simp only []
  split
  · exact Or.inl ⟨by simp [ErrorResponse], rfl⟩
  split
  · exact Or.inl ⟨by simp [ErrorResponse], rfl⟩
  rename_i hcount
  split
  · exact Or.inl ⟨by simp [ErrorResponse], rfl⟩
  split
  · exact Or.inl ⟨by simp [ErrorResponse], rfl⟩
  refine Or.inr ⟨rfl, ?_, _, rfl, rfl, rfl, rfl, rfl, rfl, rfl⟩
  intro u hu hname
  apply hcount
  have hmem : u ∈ db.users.filter (fun u : User => u.Username == username) :=
    List.mem_filter.mpr ⟨hu, by simp [hname]⟩
  have hpos := List.length_pos_of_mem hmem
  simp only [CountDocuments, Bool.false_eq_true, if_false]
  exact_mod_cast hpos

/-- Steps 3 and 4 of `Register` for a username that is taken, the count succeeding. -/
theorem registerCreate_taken (X : Ext) (db : DB) (env : RegisterEnv)
    (ip nickname username password languagePref : String)
    (htaken : ∃ u ∈ db.users, u.Username = username)
    (hf : env.fails .countUsername = false) :
    (registerCreate X db env ip nickname username password languagePref).1.status = 400 ∧
    (registerCreate X db env ip nickname username password languagePref).2 = db := by
  obtain ⟨u, hu, hname⟩ := htaken
  have hmem : u ∈ db.users.filter (fun u : User => u.Username == username) :=
    List.mem_filter.mpr ⟨hu, by simp [hname]⟩
  have hpos := List.length_pos_of_mem hmem
  have hcount : CountDocuments false (fun u : User => u.Username == username) db.users > 0 := by
    simp only [CountDocuments, Bool.false_eq_true, if_false]
    exact_mod_cast hpos
  unfold registerCreate
  simp only [hf, Bool.false_eq_true, if_false, hcount, if_true]
  exact ⟨rfl, trivial⟩

/-- C22, counterexample. The account `alice` exists and address 1.2.3.4 has five
`success` records in the last 24 hours. A `Register` request from that address with
valid fields and the username `alice` is answered 429, not 400, and appends a
`blocked` record to the registration ledger. -/
theorem c22_counterexample :
    ¬ invalidInput plainExt aliceRegistration ∧
    (∃ u ∈ quotaDB.users, u.Username = registerUsername plainExt aliceRegistration) ∧
    (Register plainExt quotaDB { IP := "1.2.3.4" } (some aliceRegistration)
      (registerEnvAt 100 [""])).1.status = 429 ∧
    (Register plainExt quotaDB { IP := "1.2.3.4" } (some aliceRegistration)
      (registerEnvAt 100 [""])).2.registrationattempts
      = quotaDB.registrationattempts ++
        [{ ID := 100, IPAddress := "1.2.3.4", Username := "alice", AttemptTime := 100,
           Status := "blocked", BlockedUntil := some (100 + 24 * Hour) }] := by
  refine ⟨by decide, ⟨mkUser 1 "alice" "pw:secret" 0 none, by decide, by decide⟩, by decide,
    by decide⟩

/-- C22, amended. `Register` answers 400 and leaves every collection unchanged
whenever the sanitised nickname, the sanitised and lowercased username or the
password is empty, the username does not match the username pattern or the password
has fewer than 8 bytes; and, for input that passes these checks, whenever an account
with that username exists, provided the address has no unexpired `blocked` record
and fewer than 5 `success` records in the last 24 hours and the count of the
username does not fail. -/
theorem c22_register_validation (X : Ext) (db : DB) (c : Ctx) (req : RegisterRequest)
    (env : RegisterEnv)
    (h : invalidInput X req ∨
      ((∃ u ∈ db.users, u.Username = registerUsername X req) ∧
       (∀ a ∈ db.registrationattempts, ¬ activeBlock (GetClientIP c) env.now a) ∧
       recentSuccesses db.registrationattempts (GetClientIP c) env.now < 5 ∧
       env.fails .countUsername = false)) :
    (Register X db c (some req) env).1.status = 400 ∧
    (Register X db c (some req) env).2 = db := by
  by_cases hinv : invalidInput X req
  · exact Register_invalid X db c req env hinv
  · rcases h with h | ⟨htaken, hblock, hrecent, hf⟩
    · exact absurd h hinv
    · rw [Register_valid X db c req env hinv]
      obtain ⟨e, he⟩ := findBlock_error (env.fails .findBlock) _ _ _ hblock
      have hcount : ¬ (CountDocuments (env.fails .countRecent)
          (recentFilter (GetClientIP c) (env.now + (-24) * Hour)) db.registrationattempts
          ≥ 5) := by
        unfold recentSuccesses at hrecent
        unfold CountDocuments
        split
        · omega
        · omega
      unfold registerLimits
      simp only [he, hcount, if_false]
      exact registerCreate_taken X db env _ _ _ _ _ htaken hf

/-- C22 at a sample request: a password of seven bytes. -/
theorem c22_witness :
    invalidInput plainExt { aliceRegistration with Password := "short12" } ∧
    (Register plainExt quotaDB { IP := "1.2.3.4" }
      (some { aliceRegistration with Password := "short12" })
      (registerEnvAt 100 [""])).1.status = 400 ∧
    (Register plainExt quotaDB { IP := "1.2.3.4" }
      (some { aliceRegistration with Password := "short12" })
      (registerEnvAt 100 [""])).2 = quotaDB :=
  ⟨by decide,
   c22_register_validation plainExt quotaDB { IP := "1.2.3.4" }
     { aliceRegistration with Password := "short12" } (registerEnvAt 100 [""])
     (Or.inl (by decide))⟩

/-- C23. A `Register` request whose fields pass the checks, from an address with at
least 5 `success` records in the registration ledger whose `attempt_time` is no
earlier than `now - 24 h`, the count of these records not failing, is answered 429
and creates no account. Either the lookup of step 1 found an unexpired `blocked`
record of the address, the answer carries its `blocked_until` and nothing changes;
or step 2 answers with `now + 24 h` and appends (the insert succeeding) a `blocked`
record of the address with `blocked_until = now + 24 h`, and changes nothing else. -/
theorem c23_daily_limit (X : Ext) (db : DB) (c : Ctx) (req : RegisterRequest)
    (env : RegisterEnv) (hvalid : ¬ invalidInput X req)
    (hquota : 5 ≤ recentSuccesses db.registrationattempts (GetClientIP c) env.now)
    (hf : env.fails .countRecent = false) :
    (Register X db c (some req) env).1.status = 429 ∧
    (Register X db c (some req) env).2.users = db.users ∧
    (Register X db c (some req) env).2.usersessions = db.usersessions ∧
    (Register X db c (some req) env).2.loginattempts = db.loginattempts ∧
    (((∃ b ∈ db.registrationattempts, activeBlock (GetClientIP c) env.now b ∧
        (Register X db c (some req) env).1.lockoutUntil = some (.ofTimePtr b.BlockedUntil)) ∧
      (Register X db c (some req) env).2 = db) ∨
     ((Register X db c (some req) env).1.lockoutUntil = some (.time (env.now + 24 * Hour)) ∧
      ∃ r, r.IPAddress = GetClientIP c ∧ r.Status = "blocked" ∧ r.AttemptTime = env.now ∧
        r.Username = registerUsername X req ∧ r.BlockedUntil = some (env.now + 24 * Hour) ∧
        (Register X db c (some req) env).2.registrationattempts
          = InsertOne (env.fails .insertBlocked) r db.registrationattempts ∧
        (env.fails .insertBlocked = false →
          (Register X db c (some req) env).2.registrationattempts
            = db.registrationattempts ++ [r]))) := by
  rw [Register_valid X db c req env hvalid]
  have hcount : CountDocuments (env.fails .countRecent)
      (recentFilter (GetClientIP c) (env.now + (-24) * Hour)) db.registrationattempts ≥ 5 := by
    unfold recentSuccesses at hquota
    simp only [CountDocuments, hf, Bool.false_eq_true, if_false]
    exact_mod_cast hquota
  unfold registerLimits
  simp only []
  cases hfind : FindOneSortDesc (env.fails .findBlock) (blockFilter (GetClientIP c) env.now)
      (·.AttemptTime) db.registrationattempts with
  | ok block =>
    have hb : block ∈ db.registrationattempts ∧
        blockFilter (GetClientIP c) env.now block = true := by
      unfold FindOneSortDesc at hfind
      split at hfind
      · cases hfind
      · cases hl : latest (·.AttemptTime)
            (db.registrationattempts.filter (blockFilter (GetClientIP c) env.now)) with
        | none => rw [hl] at hfind; cases hfind
        | some d =>
          rw [hl] at hfind
          simp only [Except.ok.injEq] at hfind
          subst hfind
          have := (latest_spec _ _ _ hl).1
          exact ⟨(List.mem_filter.mp this).1, (List.mem_filter.mp this).2⟩
    refine ⟨rfl, rfl, rfl, rfl, Or.inl ⟨⟨block, hb.1, (blockFilter_iff _ _ _).mp hb.2, rfl⟩, rfl⟩⟩
  | error e =>
    rw [if_pos hcount]
    refine ⟨rfl, rfl, rfl, rfl, Or.inr ⟨rfl, _, rfl, rfl, rfl, rfl, rfl, rfl, ?_⟩⟩
    intro hins
    simp only [InsertOne, hins, Bool.false_eq_true, if_false]

/-- C23 at a sample request: a sixth registration from address 1.2.3.4 within the
day, for a username that is free. -/
theorem c23_witness :
    ¬ invalidInput plainExt carolRegistration ∧
    5 ≤ recentSuccesses quotaDB.registrationattempts "1.2.3.4" 100 ∧
    (Register plainExt quotaDB { IP := "1.2.3.4" } (some carolRegistration)
      (registerEnvAt 100 [""])).1.status = 429 ∧
    (Register plainExt quotaDB { IP := "1.2.3.4" } (some carolRegistration)
      (registerEnvAt 100 [""])).2.users = quotaDB.users := by
  have h := c23_daily_limit plainExt quotaDB { IP := "1.2.3.4" } carolRegistration
    (registerEnvAt 100 [""]) (by decide) (by decide) rfl
  exact ⟨by decide, by decide, h.1, h.2.1⟩

/-! ## The stored failure counter -/

/-- In a collection of accounts with unique identifiers, an update by the identifier
of a stored account changes that account at most. -/
theorem forall2_update_user_by_id (fail : Bool) (g : User → User) (l : List User) (u : User)
    (hmem : u ∈ l) (hids : (l.map (·.ID)).Nodup) :
    List.Forall₂ (fun a b => b = a ∨ (a = u ∧ b = g a)) l
      (UpdateOne fail (fun x => x.ID == u.ID) g l) := by
  have huniq : ∀ a ∈ l, a.ID = u.ID → a = u := fun a ha hid =>
    List.inj_on_of_nodup_map hids ha hmem hid
  have hrefl : ∀ l : List User,
      List.Forall₂ (fun a b => b = a ∨ (a = u ∧ b = g a)) l l := by
    intro l
    induction l with
    | nil => exact List.Forall₂.nil
    | cons a rest ih => exact List.Forall₂.cons (Or.inl rfl) ih
  unfold UpdateOne
  cases fail with
  | true => exact hrefl l
  | false =>
    simp only [Bool.false_eq_true, if_false]
    clear hmem hids
    induction l with
    | nil => exact List.Forall₂.nil
    | cons a rest ih =>
      simp only [updateFirst]
      split
      · rename_i ha
        exact List.Forall₂.cons
          (Or.inr ⟨huniq a (List.mem_cons_self _ _) (by simpa using ha), rfl⟩) (hrefl rest)
      · exact List.Forall₂.cons (Or.inl rfl)
          (ih (fun x hx => huniq x (List.mem_cons_of_mem _ hx)))

/-- `Register` leaves the accounts as they were or appends one account, which has
no failure counted and no lockout. -/
theorem Register_users (X : Ext) (db : DB) (c : Ctx) (body : Option RegisterRequest)
    (env : RegisterEnv) :
    (Register X db c body env).2.users = db.users ∨
    ∃ u, (Register X db c body env).2.users = db.users ++ [u] ∧
      u.FailedLoginAttempts = 0 ∧ u.LockoutUntil = none := by
  cases body with
  | none => exact Or.inl rfl
  | some req =>
    by_cases hinv : invalidInput X req
    · left
      rw [(Register_invalid X db c req env hinv).2]
    · rw [Register_valid X db c req env hinv]
      unfold registerLimits
      simp only []
      split
      · exact Or.inl rfl
      split
      · exact Or.inl rfl
      rcases registerCreate_cases X db env (GetClientIP c) (SanitizeString req.Nickname 120)
        (registerUsername X req) req.Password (SanitizeString req.LanguagePref 10) with h | h
      · left
        rw [h.2]
      · obtain ⟨_, _, u, hu, _, h0, hl, _⟩ := h
        exact Or.inr ⟨u, hu, h0, hl⟩

/-- C27. Invariant of the stored failure counter. Every account in the collection
after a `Register` call was there before or has `failed_login_attempts = 0`. With
unique account identifiers, a `Login` call, whatever its outcome, keeps every
account at its place with its identifier, and an account whose stored counter was
in 0..9 before the call has a stored counter in 0..9 after it. On the
wrong-password path, for an account whose counter was in 0..9, `attemptsRemaining`
in the response is 0 exactly when the response is 423. -/
theorem c27_counter_invariant (X : Ext) (db : DB) (c : Ctx) (body : Option LoginRequest)
    (env : LoginEnv) (hids : (db.users.map (·.ID)).Nodup) :
    (∀ (rc : Ctx) (rbody : Option RegisterRequest) (renv : RegisterEnv),
      ∀ u ∈ (Register X db rc rbody renv).2.users, u ∈ db.users ∨ u.FailedLoginAttempts = 0) ∧
    List.Forall₂
      (fun a b => b.ID = a.ID ∧
        (0 ≤ a.FailedLoginAttempts ∧ a.FailedLoginAttempts ≤ 9 →
          0 ≤ b.FailedLoginAttempts ∧ b.FailedLoginAttempts ≤ 9))
      db.users (Login X db c body env).2.users ∧
    (∀ user, loginPath X db c body env = .wrongPassword user →
      0 ≤ user.FailedLoginAttempts → user.FailedLoginAttempts ≤ 9 →
      ((Login X db c body env).1.field "attemptsRemaining" = some (.atom (.num 0)) ↔
        (Login X db c body env).1.status = 423)) := by
  have hrefl : ∀ l : List User, List.Forall₂
      (fun a b : User => b.ID = a.ID ∧
        (0 ≤ a.FailedLoginAttempts ∧ a.FailedLoginAttempts ≤ 9 →
          0 ≤ b.FailedLoginAttempts ∧ b.FailedLoginAttempts ≤ 9)) l l := by
    intro l
    induction l with
    | nil => exact List.Forall₂.nil
    | cons a rest ih => exact List.Forall₂.cons ⟨rfl, id⟩ ih
  refine ⟨?_, ?_, ?_⟩
  · intro rc rbody renv u hu
    rcases Register_users X db rc rbody renv with h | ⟨v, hv, h0, _⟩
    · rw [h] at hu; exact Or.inl hu
    · rw [hv] at hu
      rcases List.mem_append.mp hu with h | h
      · exact Or.inl h
      · simp only [List.mem_singleton] at h
        rw [h]; exact Or.inr h0
  · have hlogin := Login_by_path X db c body env
    cases hpath : loginPath X db c body env with
    | badBody => rw [hpath] at hlogin; rw [hlogin]; exact hrefl _
    | missingCredentials => rw [hpath] at hlogin; rw [hlogin]; exact hrefl _
    | ipLocked lock => rw [hpath] at hlogin; rw [hlogin]; exact hrefl _
    | unknownUser handle =>
      rw [hpath] at hlogin
      rw [hlogin]
      simp only [loginUnknownUser]
      split <;> exact hrefl _
    | accountLocked user => rw [hpath] at hlogin; rw [hlogin]; exact hrefl _
    | wrongPassword user =>
      rw [hpath] at hlogin
      have hmem := loginPath_wrong_mem X db c body env user hpath
      rw [hlogin]
      simp only [loginWrongPassword]
      refine List.Forall₂.imp ?_ (forall2_update_user_by_id _ _ db.users user hmem hids)
      intro a b hab
      rcases hab with h | ⟨h1, h2⟩
      · rw [h]; exact ⟨rfl, id⟩
      · rw [h2, h1]
        refine ⟨rfl, ?_⟩
        intro hr
        simp only []
        have hw : wrapInt64 (user.FailedLoginAttempts + 1) = user.FailedLoginAttempts + 1 :=
          wrapInt64_small _ (by omega) (by omega)
        rw [hw]
        by_cases hge : user.FailedLoginAttempts + 1 ≥ 10
        · simp only [hge, decide_True, if_true]
          omega
        · simp only [hge, decide_False, Bool.false_eq_true, if_false]
          omega
    | correctPassword user rememberMe =>
      rw [hpath] at hlogin
      have hmem := loginPath_correct_mem X db c body env user rememberMe hpath
      rw [hlogin, loginSuccess_users]
      refine List.Forall₂.imp ?_ (forall2_update_user_by_id _ _ db.users user hmem hids)
      intro a b hab
      rcases hab with h | ⟨_, h2⟩
      · rw [h]; exact ⟨rfl, id⟩
      · rw [h2]
        exact ⟨rfl, fun _ => ⟨le_refl _, by show (0 : Int) ≤ 9; decide⟩⟩
  · intro user hpath h0 h9
    rw [Login_by_path X db c body env, hpath]
    have hw : wrapInt64 (user.FailedLoginAttempts + 1) = user.FailedLoginAttempts + 1 :=
      wrapInt64_small _ (by omega) (by omega)
    have hw2 : wrapInt64 (10 - (user.FailedLoginAttempts + 1))
        = 10 - (user.FailedLoginAttempts + 1) := wrapInt64_small _ (by omega) (by omega)
    simp only [loginWrongPassword, hw, hw2]
    by_cases hge : user.FailedLoginAttempts + 1 ≥ 10
    · simp only [hge, decide_True, if_true]
      constructor <;> intro _ <;> first | rfl | trivial
    · have hneg : ¬ (10 - (user.FailedLoginAttempts + 1) < 0) := by omega
      simp only [hge, decide_False, Bool.false_eq_true, if_false, hneg]
      constructor
      · intro h
        exfalso
        have h' : (10 - (user.FailedLoginAttempts + 1) : Int) = 0 := by
          simpa [Response.field] using h
        omega
      · intro h
        exact absurd h (by decide)

/-- C27 at a sample run: the tenth wrong password for `alice` leaves her stored
counter at 0, and the answer is a 423 with no attempt left. -/
theorem c27_witness :
    (nineDB.users.map (·.ID)).Nodup ∧
    List.Forall₂
      (fun a b => b.ID = a.ID ∧
        (0 ≤ a.FailedLoginAttempts ∧ a.FailedLoginAttempts ≤ 9 →
          0 ≤ b.FailedLoginAttempts ∧ b.FailedLoginAttempts ≤ 9))
      nineDB.users
      (Login plainExt nineDB { IP := "1.2.3.4" }
        (some { Username := "alice", Password := "guess", RememberMe := false })
        (loginEnvAt 100 "s9")).2.users ∧
    (Login plainExt nineDB { IP := "1.2.3.4" }
      (some { Username := "alice", Password := "guess", RememberMe := false })
      (loginEnvAt 100 "s9")).1.status = 423 := by
  have h := c27_counter_invariant plainExt nineDB { IP := "1.2.3.4" }
    (some { Username := "alice", Password := "guess", RememberMe := false })
    (loginEnvAt 100 "s9") (by decide)
  exact ⟨by decide, h.2.1, by decide⟩

/-! ## The role of a new account -/

theorem classUsername_not_space (ch : Char) (h : classUsername ch = true) : isSpace ch = false := by
  simp only [classUsername, Bool.or_eq_true, Bool.and_eq_true, decide_eq_true_eq, beq_iff_eq] at h
  simp only [isSpace, Bool.or_eq_false_iff, Bool.and_eq_false_iff, decide_eq_false_iff_not,
    beq_eq_false_iff_ne, ne_eq]
  omega

theorem classLowerDigit_username (ch : Char) (h : classLowerDigit ch = true) :
    classUsername ch = true := by
  simp only [classLowerDigit, Bool.or_eq_true, Bool.and_eq_true, decide_eq_true_eq] at h
  simp only [classUsername, Bool.or_eq_true, Bool.and_eq_true, decide_eq_true_eq, beq_iff_eq]
  omega

/-- Every character of a text the username pattern accepts is in the class
`[a-z0-9._@]`, and the text is not empty. -/
theorem usernameRegex_chars (u : String) (h : usernameRegex.MatchString u = true) :
    u ≠ "" ∧ ∀ ch ∈ u.data, classUsername ch = true := by
  have hv : ValidateUsername ⟨u.data⟩ = true := h
  obtain ⟨c, cs, heq, h0, _, h2⟩ := (ValidateUsername_chars u.data).mp hv
  constructor
  · intro hu
    rw [hu] at heq
    cases heq
  · intro ch hch
    rw [heq] at hch
    rcases List.mem_cons.mp hch with h | h
    · rw [h]; exact classLowerDigit_username c h0
    · exact h2 ch h

theorem dropWhile_none (p : Char → Bool) (l : List Char) (h : ∀ ch ∈ l, p ch = false) :
    l.dropWhile p = l := by
  cases l with
  | nil => rfl
  | cons a rest => simp [List.dropWhile, h a (List.mem_cons_self _ _)]

/-- `TrimSpace` leaves a text without white space as it is. -/
theorem TrimSpace_none (s : String) (h : ∀ ch ∈ s.data, isSpace ch = false) : TrimSpace s = s := by
  unfold TrimSpace
  apply String.ext
  simp only []
  rw [dropWhile_none isSpace s.data h,
    dropWhile_none isSpace s.data.reverse (fun ch hch => h ch (List.mem_reverse.mp hch)),
    List.reverse_reverse]

/-- `ToLower` leaves a text as it is when `unicode.ToLower` leaves its characters. -/
theorem ToLower_fixed (X : Ext) (s : String) (h : ∀ ch ∈ s.data, X.lowerRune ch = ch) :
    ToLower X s = s := by
  unfold ToLower
  apply String.ext
  simp only []
  have hid : s.data.map X.lowerRune = s.data.map id :=
    List.map_congr_left (fun ch hch => h ch hch)
  rw [hid, List.map_id]

/-- For a text of the username pattern, `CanAutoAdmin` says whether the text is one
of the entries of `cfg.AdminEmails`. -/
theorem CanAutoAdmin_iff (X : Ext) (hlow : ∀ ch, classUsername ch = true → X.lowerRune ch = ch)
    (adminEmails : List String) (u : String) (hu : usernameRegex.MatchString u = true) :
    CanAutoAdmin X adminEmails u = true ↔ u ∈ adminEmails := by
  have hch := (usernameRegex_chars u hu).2
  have h1 : TrimSpace u = u :=
    TrimSpace_none u (fun ch h => classUsername_not_space ch (hch ch h))
  have h2 : ToLower X u = u := ToLower_fixed X u (fun ch h => hlow ch (hch ch h))
  unfold CanAutoAdmin
  simp only [h1, h2, List.any_eq_true, beq_iff_eq]
  constructor
  · rintro ⟨x, hx, rfl⟩; exact hx
  · intro h; exact ⟨u, h, rfl⟩

/-- A `Register` answered 200 had input that passes the checks on the fields and
appended one account, with the sanitised username and the role `CanAutoAdmin`
decides. -/
theorem Register_ok (X : Ext) (db : DB) (c : Ctx) (req : RegisterRequest) (env : RegisterEnv)
    (h200 : (Register X db c (some req) env).1.status = 200) :
    ¬ invalidInput X req ∧ (∀ v ∈ db.users, v.Username ≠ registerUsername X req) ∧
    ∃ u, (Register X db c (some req) env).2.users = db.users ++ [u] ∧
      u.Username = registerUsername X req ∧
      u.Role = (if CanAutoAdmin X env.adminEmails (registerUsername X req) then "admin"
                else "user") := by
  by_cases hinv : invalidInput X req
  · rw [(Register_invalid X db c req env hinv).1] at h200
    cases h200
  · refine ⟨hinv, ?_⟩
    rw [Register_valid X db c req env hinv] at h200 ⊢
    unfold registerLimits at h200 ⊢
    simp only [] at h200 ⊢
    split at h200
    · cases h200
    split at h200
    · cases h200
    rename_i e hfind hcount
    simp only [hfind, hcount, if_false]
    rcases registerCreate_cases X db env (GetClientIP c) (SanitizeString req.Nickname 120)
      (registerUsername X req) req.Password (SanitizeString req.LanguagePref 10) with h | h
    · exact absurd h200 h.1
    · obtain ⟨_, hfree, u, hu, hname, _, _, hrole, _⟩ := h
      exact ⟨hfree, u, hu, hname, hrole⟩

/-- C29. For a `Register` call that creates an account (answer 200), with
`cfg.AdminEmails` loaded from the value of `ADMIN_EMAILS` and `unicode.ToLower`
leaving lowercase ASCII letters, digits, `.`, `_` and `@` as they are: the account
appended has the sanitised, lowercased username, which is not empty, and the role
`admin` exactly when that username is one of the trimmed, lowercased
comma-separated entries of `ADMIN_EMAILS`, the role `user` otherwise. When
`ADMIN_EMAILS` is empty or unset the list of entries is the one-element list of the
empty text and the role is `user`. -/
theorem c29_auto_admin (X : Ext) (db : DB) (c : Ctx) (req : RegisterRequest)
    (env : RegisterEnv) (adminEmailsVar : String)
    (hlow : ∀ ch, classUsername ch = true → X.lowerRune ch = ch)
    (hcfg : env.adminEmails = AdminEmails X adminEmailsVar)
    (h200 : (Register X db c (some req) env).1.status = 200) :
    ∃ u, (Register X db c (some req) env).2.users = db.users ++ [u] ∧
      u.Username = registerUsername X req ∧ u.Username ≠ "" ∧
      (u.Role = "admin" ↔ u.Username ∈ AdminEmails X adminEmailsVar) ∧
      (u.Username ∉ AdminEmails X adminEmailsVar → u.Role = "user") ∧
      (adminEmailsVar = "" → AdminEmails X adminEmailsVar = [""] ∧ u.Role = "user") := by
  obtain ⟨hvalid, _, u, hu, hname, hrole⟩ := Register_ok X db c req env h200
  have hmatch : usernameRegex.MatchString (registerUsername X req) = true := by
    unfold invalidInput at hvalid
    simp only [not_or] at hvalid
    simpa using hvalid.2.2.2.1
  have hne := (usernameRegex_chars _ hmatch).1
  have hiff := CanAutoAdmin_iff X hlow env.adminEmails (registerUsername X req) hmatch
  rw [hcfg] at hiff hrole
  have hadmin : u.Role = "admin" ↔ u.Username ∈ AdminEmails X adminEmailsVar := by
    rw [hname, ← hiff, hrole]
    cases CanAutoAdmin X (AdminEmails X adminEmailsVar) (registerUsername X req) <;> simp
  have huser : u.Username ∉ AdminEmails X adminEmailsVar → u.Role = "user" := by
    intro hnot
    rw [hname, ← hiff] at hnot
    rw [hrole]
    simp only [hnot, Bool.false_eq_true, if_false]
  refine ⟨u, hu, hname, by rw [hname]; exact hne, hadmin, huser, ?_⟩
  intro hvar
  have hlist : AdminEmails X adminEmailsVar = [""] := by rw [hvar]; rfl
  refine ⟨hlist, huser ?_⟩
  rw [hlist, hname]
  simp only [List.mem_singleton]
  exact hne


/-- ASCII lower-casing leaves the characters of the class `[a-z0-9._@]` as they are. -/
theorem toLower_classUsername (ch : Char) (h : classUsername ch = true) : ch.toLower = ch := by
  simp only [classUsername, Bool.or_eq_true, Bool.and_eq_true, decide_eq_true_eq, beq_iff_eq] at h
  unfold Char.toLower
  simp only []
  rw [if_neg]
  omega

/-- C29 at a sample: `ADMIN_EMAILS` holds ` Carol@Example.org,root@example.org`, and
`carol@example.org` registers: the new account is an admin. -/
theorem c29_witness :
    (∀ ch, classUsername ch = true → plainExt.lowerRune ch = ch) ∧
    (Register plainExt sampleDB { IP := "1.2.3.4" } (some carolRegistration)
      (registerEnvAt 100 (AdminEmails plainExt " Carol@Example.org,root@example.org"))).1.status
      = 200 ∧
    ∃ u, (Register plainExt sampleDB { IP := "1.2.3.4" } (some carolRegistration)
        (registerEnvAt 100
          (AdminEmails plainExt " Carol@Example.org,root@example.org"))).2.users
        = sampleDB.users ++ [u] ∧
      u.Username = "carol@example.org" ∧ u.Role = "admin" := by
  obtain ⟨u, hu, hname, _, hadmin, _⟩ := c29_auto_admin plainExt sampleDB { IP := "1.2.3.4" }
    carolRegistration
    (registerEnvAt 100 (AdminEmails plainExt " Carol@Example.org,root@example.org"))
    " Carol@Example.org,root@example.org" toLower_classUsername rfl (by decide)
  refine ⟨toLower_classUsername, by decide, u, hu, ?_, ?_⟩
  · rw [hname]; decide
  · rw [hadmin, hname]; decide

end Solivra
